import Mathlib

/-!
The script compilation pipeline of `js/src/frontend/BytecodeCompiler.cpp`.

A shallow embedding of the compile drivers (`SourceAwareCompiler`,
`ScriptCompiler`, `ModuleCompiler`, `StandaloneFunctionCompiler`, the
global-script entry points and the extra-bindings fallback) together with
theorems about them.

Conventions of the embedding:

* C++ member functions that mutate `*this` take the object and return the new
  object; a `bool` result is returned next to it.
* `MOZ_ASSERT` / `MOZ_ASSERT_IF` are live, as in a build with `DEBUG`: a failed
  assertion ends the run with `Except.error Abort.mozAssert`. Without `DEBUG`
  they expand to nothing; `handleParseFailure`, whose assertions guard an
  assignment, is embedded as built without `DEBUG` as well. The `AutoAssertReportedException` guard is
  represented by its `check_` flag at the return.
* The parser, the emitter, the instantiator and the allocator are external
  collaborators; their answers are fields of `Env`.
* The calls made to collaborators are logged, in order, in a trace of `Event`s.
* The `for (;;)` loop of `StandaloneFunctionCompiler::parse` takes its number of
  parser calls as fuel and answers `none` when the fuel runs out.
* What is declared outside this file is modelled from the specification; the
  doc comment of each such definition says so.
-/

namespace Frontend

/-! ## Outcomes -/

/-- The ways a run can be cut short by an assertion. -/
inductive Abort
  | mozAssert
  | releaseAssert
  | nullDereference
deriving DecidableEq, Repr

/-! ## Directives, token stream, compilation state -/

/-- Modelled from the spec: the class `Directives` is declared outside this file;
the spec gives it two booleans `strict` and `asmJS`, compared field by field. -/
structure Directives where
  strict : Bool
  asmJS : Bool
deriving DecidableEq, Repr

/-- Modelled from the spec: the token stream is declared outside this file. The
model keeps its current position (what a `TokenStreamPosition` records) and the
`anyChars.hadError()` flag. -/
structure TokenStream where
  position : Nat
  hadError : Bool
deriving DecidableEq, Repr

/-- Embedding of `TokenStreamPosition`: a saved position of the token stream. -/
abbrev TokenStreamPosition := Nat

/-- Modelled from the spec: `tokenStream.rewind(pos)` puts the token stream back
at the saved position. -/
def TokenStream.rewind (ts : TokenStream) (pos : TokenStreamPosition) : TokenStream :=
  { ts with position := pos }

/-- Embedding of `SourceExtent`. -/
structure SourceExtent where
  sourceStart : Nat
  sourceEnd : Nat
  toStringStart : Nat
  toStringEnd : Nat
  lineno : Nat
  column : Nat
deriving DecidableEq, Repr

/-- Modelled from the spec: `SourceExtent::makeGlobalExtent` is declared outside
this file; a global extent spans the whole buffer, at the given line and column. -/
def SourceExtent.makeGlobalExtent (len lineno column : Nat) : SourceExtent :=
  { sourceStart := 0, sourceEnd := len, toStringStart := 0, toStringEnd := len
    lineno := lineno, column := column }

/-- Embedding of `ScriptStencilExtra`, as far as this file looks at it: the extent of the
script. -/
structure ScriptStencilExtra where
  extent : SourceExtent :=
    { sourceStart := 0, sourceEnd := 0, toStringStart := 0, toStringEnd := 0
      lineno := 0, column := 0 }
deriving DecidableEq, Repr

/-- A script record of the stencil (`ScriptStencil`), as far as this file looks
at it. -/
structure ScriptStencil where
  payload : Nat := 0
  allowRelazify : Bool := false
  isAsmJSNative : Bool := false
  isGhost : Bool := false
  wasEmittedByEnclosingScript : Bool := true
  hasSharedData : Bool := false
deriving DecidableEq, Repr

/-- An index into the parser atom table (`TaggedParserAtomIndex`). -/
abbrev TaggedParserAtomIndex := Nat

/-- Embedding of `ExtraBindingInfo`: the UTF-8 name of a binding, its interned name (null
until interned) and whether it is shadowed. -/
structure ExtraBindingInfo where
  nameChars : String
  nameIndex : Option TaggedParserAtomIndex := none
  isShadowed : Bool
deriving DecidableEq, Repr

abbrev ExtraBindingInfoVector := List ExtraBindingInfo

/-- The compile options this file reads. -/
structure CompileOptions where
  selfHostingMode : Bool := false
  nonSyntacticScope : Bool := false
  populateDelazificationCache : Bool := false
  waitForDelazificationCache : Bool := false
  consumeDelazificationCache : Bool := false
  checkDelazificationCache : Bool := false
  hideFromNewScriptInitial : Bool := false
  isModule : Bool := false
  lineno : Nat := 1
  column : Nat := 1
deriving DecidableEq, Repr

/-- How a `CompilationInput` was initialised. -/
inductive InputTarget
  | uninitialised
  | selfHostingGlobal
  | global
  | globalWithExtraBindings
  | eval
  | module
  | standaloneFunction
  | standaloneFunctionInNonSyntacticScope
  | fromLazy
  | fromStencil
deriving DecidableEq, Repr

inductive GeneratorKind
  | NotGenerator
  | Generator
deriving DecidableEq, Repr

inductive FunctionAsyncKind
  | SyncFunction
  | AsyncFunction
deriving DecidableEq, Repr

/-- What a `CompilationInput` initialised from a lazy function (`initFromLazy`,
`initFromStencil`) knows about that function: its extent, whether it is an arrow
function, its strictness and kinds, whether the lazy script had private script
data, whether it may be relazified, and its immutable flags. -/
structure LazyFunctionInfo where
  extent : SourceExtent
  isArrow : Bool := false
  strict : Bool := false
  generatorKind : GeneratorKind := GeneratorKind.NotGenerator
  asyncKind : FunctionAsyncKind := FunctionAsyncKind.SyncFunction
  hasPrivateScriptData : Bool := false
  isRelazifiable : Bool := true
  immutableFlags : Nat := 0
deriving DecidableEq, Repr

/-- Embedding of `CompilationInput`: the options, the kind of unit, and the extra bindings
when there are any (`maybeExtraBindings_`). -/
structure CompilationInput where
  options : CompileOptions
  target : InputTarget := InputTarget.uninitialised
  maybeExtraBindings : Option ExtraBindingInfoVector := none
  lazy : Option LazyFunctionInfo := none
deriving DecidableEq, Repr

def CompilationInput.hasExtraBindings (input : CompilationInput) : Bool :=
  input.maybeExtraBindings.isSome

def CompilationInput.extraBindings (input : CompilationInput) : ExtraBindingInfoVector :=
  input.maybeExtraBindings.getD []

/-- The `SharedDataContainer` of a stencil: a single shared immutable script
data (its bytes), a borrow of such a container, or one of the other forms. -/
inductive SharedDataContainer
  | single (immutableData : List Nat)
  | borrow (immutableData : List Nat)
  | other
deriving DecidableEq, Repr

/-- Embedding of `CompilationState` (which is also the `ExtensibleCompilationStencil`): the
script records with their extra data, the atom table, the scope records, the
directives, and the keys of the asm.js module map (null when there is none). -/
structure CompilationState where
  input : CompilationInput
  directives : Directives
  scriptData : List ScriptStencil := []
  scriptExtra : List ScriptStencilExtra := []
  parserAtoms : List String := []
  scopeData : List Nat := []
  asmJS : Option (List Nat) := none
  functionKey : Option SourceExtent := none
  sharedData : SharedDataContainer := SharedDataContainer.other
deriving DecidableEq, Repr

/-- Embedding of `CompilationStencil::TopLevelIndex`. -/
def TopLevelIndex : Nat := 0

/-- Embedding of `CompilationState::CompilationStatePosition`. -/
structure CompilationStatePosition where
  scriptDataLength : Nat
  parserAtomsLength : Nat
  scopeDataLength : Nat
deriving DecidableEq, Repr

/-- Modelled from the spec: `CompilationState::getPosition` is defined outside
this file; the spec has it take an opaque snapshot of the records, atoms and
scopes appended so far. -/
def CompilationState.getPosition (st : CompilationState) : CompilationStatePosition :=
  { scriptDataLength := st.scriptData.length
    parserAtomsLength := st.parserAtoms.length
    scopeDataLength := st.scopeData.length }

/-- Modelled from the spec: `CompilationState::rewind` is defined outside this
file; the spec has it discard all records, atoms and scopes appended since the
snapshot. -/
def CompilationState.rewind (st : CompilationState) (pos : CompilationStatePosition) :
    CompilationState :=
  { st with
    scriptData := st.scriptData.take pos.scriptDataLength
    scriptExtra := st.scriptExtra.take pos.scriptDataLength
    parserAtoms := st.parserAtoms.take pos.parserAtomsLength
    scopeData := st.scopeData.take pos.scopeDataLength }

/-! ## `SourceAwareCompiler`: the directive retry -/

/-- The members of `SourceAwareCompiler<Unit>` that the retry protocol touches:
the compilation state and the token stream of `parser`. -/
structure SourceAwareCompiler where
  compilationState_ : CompilationState
  tokenStream : TokenStream
deriving DecidableEq, Repr

/-- Embedding of `SourceAwareCompiler::canHandleParseFailure`. -/
def SourceAwareCompiler.canHandleParseFailure (c : SourceAwareCompiler)
    (newDirectives : Directives) : Bool :=
  !c.tokenStream.hadError && decide (c.compilationState_.directives ≠ newDirectives)

/-- Embedding of `SourceAwareCompiler::handleParseFailure` as built with `DEBUG`:
its `MOZ_ASSERT` and its two `MOZ_ASSERT_IF` are live. -/
def SourceAwareCompiler.handleParseFailure (c : SourceAwareCompiler)
    (newDirectives : Directives) (startPosition : TokenStreamPosition)
    (startStatePosition : CompilationStatePosition) : Except Abort SourceAwareCompiler :=
  -- MOZ_ASSERT(canHandleParseFailure(newDirectives));
  if !c.canHandleParseFailure newDirectives then Except.error Abort.mozAssert
  else
    -- Rewind to starting position to retry.
    let tokenStream := c.tokenStream.rewind startPosition
    let compilationState := c.compilationState_.rewind startStatePosition
    -- Assignment must be monotonic to prevent reparsing iloops
    if compilationState.directives.strict && !newDirectives.strict then
      Except.error Abort.mozAssert
    else if compilationState.directives.asmJS && !newDirectives.asmJS then
      Except.error Abort.mozAssert
    else
      Except.ok
        { compilationState_ := { compilationState with directives := newDirectives }
          tokenStream := tokenStream }

/-- A sequence of retries of one compilation unit: each one is a
`handleParseFailure` with its own new directives and saved positions. -/
def retries (c : SourceAwareCompiler) :
    List (Directives × TokenStreamPosition × CompilationStatePosition) →
      Except Abort SourceAwareCompiler
  | [] => Except.ok c
  | (d, p, sp) :: rest =>
    match c.handleParseFailure d p sp with
    | Except.error e => Except.error e
    | Except.ok c1 => retries c1 rest

/-- Embedding of `SourceAwareCompiler::handleParseFailure` as built without
`DEBUG`: `MOZ_ASSERT` and `MOZ_ASSERT_IF` expand to nothing, so the function
rewinds and assigns `newDirectives` whatever they are. -/
def SourceAwareCompiler.handleParseFailureNonDebug (c : SourceAwareCompiler)
    (newDirectives : Directives) (startPosition : TokenStreamPosition)
    (startStatePosition : CompilationStatePosition) : SourceAwareCompiler :=
  -- Rewind to starting position to retry.
  let tokenStream := c.tokenStream.rewind startPosition
  let compilationState := c.compilationState_.rewind startStatePosition
  { compilationState_ := { compilationState with directives := newDirectives }
    tokenStream := tokenStream }

/-- A sequence of retries of one compilation unit as built without `DEBUG`. -/
def retriesNonDebug (c : SourceAwareCompiler) :
    List (Directives × TokenStreamPosition × CompilationStatePosition) → SourceAwareCompiler
  | [] => c
  | (d, p, sp) :: rest => retriesNonDebug (c.handleParseFailureNonDebug d p sp) rest

/-! ## The ambient contexts and the collaborators -/

/-- The source buffer: its code units (either width). -/
abbrev SourceText := List Nat

inductive ScopeKind
  | Global
  | NonSyntactic
deriving DecidableEq, Repr

/-- Modelled from the spec: `FrontendContext` is declared outside this file. The
model keeps whether an error was recorded (`hadErrors()`), the recorded
warnings, and the distinct extra-bindings-unused signal. -/
structure FrontendContext where
  hadErrors : Bool := false
  warnings : List String := []
  extraBindingsAreNotUsed : Bool := false
deriving DecidableEq, Repr

def FrontendContext.reportExtraBindingsAreNotUsed (fc : FrontendContext) : FrontendContext :=
  { fc with extraBindingsAreNotUsed := true }

def FrontendContext.clearNoExtraBindingReferencesFound (fc : FrontendContext) :
    FrontendContext :=
  { fc with extraBindingsAreNotUsed := false }

def FrontendContext.clearWarnings (fc : FrontendContext) : FrontendContext :=
  { fc with warnings := [] }

/-- A call made to a collaborator, or a step worth observing. The event of a
`standaloneFunction` call records how many script records the compilation state
held when the parser was called. -/
inductive Event
  | appendScriptStencilAndData (index : Nat)
  | globalBody
  | evalBody
  | moduleBody
  | standaloneFunction (scriptDataLength : Nat)
  | standaloneLazyFunction
  | popupateExtraBindingsFields
  | emitterInit
  | emitScript
  | emitFunctionScript
  | finishFunctionDecls
  | startOffThreadDelazification
  | waitForAllDelazifyTasks
  | instantiateStencils
  | tryCompressOffThread
  | onNewScript
  | compileGlobalScript (scopeKind : ScopeKind) (nonSyntacticScope : Bool)
      (withExtraBindings : Bool)
  | storeDelazification
  | setParameterListEnd (parameterListEnd : Nat)
deriving DecidableEq, Repr

/-- Whether an event is a call of one of the parser's entry points. -/
def Event.isParse : Event → Bool
  | Event.globalBody => true
  | Event.evalBody => true
  | Event.moduleBody => true
  | Event.standaloneFunction _ => true
  | Event.standaloneLazyFunction => true
  | _ => false

/-- Whether an event is the start of a global-script compile. -/
def Event.isCompileGlobalScript : Event → Bool
  | Event.compileGlobalScript _ _ _ => true
  | _ => false

/-- Whether an event is a call into the emitter. -/
def Event.isEmit : Event → Bool
  | Event.emitterInit => true
  | Event.emitScript => true
  | Event.emitFunctionScript => true
  | _ => false

/-- What is threaded through every call: the frontend context `*fc`, whether an
exception is pending on `cx`, and the trace of collaborator calls. -/
structure World where
  fc : FrontendContext := {}
  exceptionPending : Bool := false
  trace : List Event := []
deriving DecidableEq, Repr

def World.log (w : World) (e : Event) : World :=
  { w with trace := w.trace ++ [e] }

/-- Embedding of `GlobalSharedContext`: what the driver gives it, and what the parser records
on it (the bindings declared in the global scope, null when there are none, and
whether the script has a direct eval). -/
structure GlobalSharedContext where
  scopeKind : ScopeKind
  options : CompileOptions
  directives : Directives
  extent : SourceExtent
  bindings : Option (List TaggedParserAtomIndex) := none
  hasDirectEval : Bool := false
deriving DecidableEq, Repr

/-- Embedding of `EvalSharedContext`. -/
structure EvalSharedContext where
  options : CompileOptions
  directives : Directives
  extent : SourceExtent
deriving DecidableEq, Repr

/-- The `SharedContext*` handed to `ScriptCompiler::compile`. -/
inductive SharedContext
  | global (sc : GlobalSharedContext)
  | eval (sc : EvalSharedContext)
deriving DecidableEq, Repr

def SharedContext.isEvalContext : SharedContext → Bool
  | SharedContext.eval _ => true
  | SharedContext.global _ => false

def SharedContext.isGlobalContext : SharedContext → Bool
  | SharedContext.global _ => true
  | SharedContext.eval _ => false

def SharedContext.selfHosted : SharedContext → Bool
  | SharedContext.global sc => sc.options.selfHostingMode
  | SharedContext.eval sc => sc.options.selfHostingMode

/-- A parse node, opaque to the driver. -/
abbrev ParseNode := Nat

/-- Embedding of `UsedNameTracker::UsedNameMap`: for each name its usage record (the list of
its uses). -/
abbrev UsedNameMap := List (TaggedParserAtomIndex × List Nat)

/-- What a call of the parser leaves behind: the node (null on failure), the
compilation state, token stream and used-name map as the parser left them, the
frontend context with what the parser reported, and what it recorded on the
global shared context. The `CompilationInput` is a separate object that the
state only refers to: the drivers keep their own and ignore the `input` field
of `compilationState` here and in `EmitResult`. -/
structure ParseResult where
  node : Option ParseNode
  compilationState : CompilationState
  tokenStream : TokenStream
  usedNames : UsedNameMap := []
  fc : FrontendContext
  bindings : Option (List TaggedParserAtomIndex) := none
  hasDirectEval : Bool := false
deriving DecidableEq, Repr

/-- Embedding of `BytecodeEmitter::EmitterMode`, as far as `EmplaceEmitter` chooses it. -/
inductive EmitterMode
  | Normal
  | SelfHosting
  | LazyFunction
deriving DecidableEq, Repr

/-- What `emitScript` leaves behind. -/
structure EmitResult where
  ok : Bool
  compilationState : CompilationState
  fc : FrontendContext
deriving DecidableEq, Repr

/-- A script on the heap, opaque to the driver. -/
abbrev JSScript := Nat

/-- A function on the heap, as far as this file looks at it. -/
structure JSFunction where
  id : Nat := 0
  hasBytecode : Bool := true
  isAsmJSModule : Bool := false
deriving DecidableEq, Repr

/-- Embedding of `CompilationGCOutput`, as far as this file reads it: the script (null for
an asm.js module), the functions, and of the script its immutable flags, whether
a non-syntactic scope is on its scope chain and whether its
`HasNonSyntacticScope` flag is set. -/
structure CompilationGCOutput where
  script : Option JSScript
  functions : List JSFunction := []
  scriptImmutableFlags : Nat := 0
  scriptHasNonSyntacticOnChain : Bool := false
  scriptHasNonSyntacticScopeFlag : Bool := false
deriving DecidableEq, Repr

/-- A property key: a string, or something else (a symbol, an integer). -/
inductive PropertyKey
  | string (s : String)
  | other (n : Nat)
deriving DecidableEq, Repr

def PropertyKey.isString : PropertyKey → Bool
  | PropertyKey.string _ => true
  | PropertyKey.other _ => false

abbrev Value := Nat

inductive FunctionSyntaxKind
  | Statement
  | Expression
  | Arrow
  | Method
deriving DecidableEq, Repr

/-- Embedding of `FunctionBox`, as far as this file reads it. -/
structure FunctionBox where
  isInterpreted : Bool := true
  isAsmJSModule : Bool := false
  index : Nat := 0
  extent : SourceExtent
  selfHosted : Bool := false
deriving DecidableEq, Repr

/-- Embedding of `FunctionNode`: a parse node with its function box. -/
structure FunctionNode where
  node : ParseNode
  funbox : FunctionBox
deriving DecidableEq, Repr

/-- What a call of `Parser::standaloneFunction` leaves behind: the function node
(null on failure), the directives it wrote through `newDirectives`, and the
compilation state, token stream and frontend context as it left them. -/
structure FunctionParseResult where
  fn : Option FunctionNode
  newDirectives : Directives
  compilationState : CompilationState
  tokenStream : TokenStream
  fc : FrontendContext
deriving DecidableEq, Repr

/-- The external collaborators. Each field is the answer the collaborator gives;
a `Bool` or `Option` answer is `false` or `none` when the collaborator fails. -/
structure Env where
  /-- Whether `CompilationState::appendScriptStencilAndData` succeeds. -/
  appendScriptStencilAndDataOk : CompilationState → Bool
  /-- Embedding of `Parser::globalBody`. -/
  globalBody : SourceText → GlobalSharedContext → CompilationState → TokenStream →
    FrontendContext → ParseResult
  /-- Embedding of `Parser::evalBody`. -/
  evalBody : SourceText → EvalSharedContext → CompilationState → TokenStream →
    FrontendContext → ParseResult
  /-- Embedding of `Parser::moduleBody`. -/
  moduleBody : SourceText → CompileOptions → CompilationState → TokenStream →
    FrontendContext → ParseResult
  /-- Embedding of `Parser::standaloneFunction`, given the parameter list end, the kinds, the
  inherited directives, and the state it runs on. -/
  standaloneFunction : SourceText → Option Nat → FunctionSyntaxKind → GeneratorKind →
    FunctionAsyncKind → Directives → CompilationState → TokenStream → FrontendContext →
    FunctionParseResult
  /-- Embedding of `Parser::standaloneLazyFunction`, given the units of the function, the
  input, and the state and frontend context it runs on. -/
  standaloneLazyFunction : SourceText → CompilationInput → CompilationState →
    FrontendContext → FunctionParseResult
  /-- The units `ScriptSource::PinnedUnits` pins for a start and a length, null
  when it cannot. -/
  pinnedUnits : Nat → Nat → Option SourceText
  /-- The units `ScriptSource::PinnedUnitsIfUncompressed` pins, null when the
  source is compressed. -/
  pinnedUnitsIfUncompressed : Nat → Nat → Option SourceText
  /-- Whether `ParserAtomsTable::internUtf8` succeeds on this name. -/
  internOk : String → Bool
  /-- Embedding of `BytecodeEmitter::init`. -/
  emitterInit : EmitterMode → CompilationState → Bool
  /-- Embedding of `BytecodeEmitter::emitScript`. -/
  emitScript : EmitterMode → ParseNode → CompilationState → FrontendContext → EmitResult
  /-- Embedding of `BytecodeEmitter::emitFunctionScript`. -/
  emitFunctionScript : EmitterMode → FunctionNode → CompilationState → FrontendContext →
    EmitResult
  /-- The `CompilationInput::initFor...` functions succeed. -/
  initInputOk : InputTarget → Bool
  /-- The directives a fresh `CompilationState` starts with. -/
  initialDirectives : CompilationInput → Directives
  /-- Whether `CompilationState::init` succeeds. -/
  compilationStateInitOk : CompilationInput → Bool
  /-- Whether `ScriptSource::assignSource` succeeds. -/
  assignSourceOk : SourceText → Bool
  /-- Embedding of `CanLazilyParse(options)`. -/
  canLazilyParse : CompileOptions → Bool
  /-- Embedding of `Parser::checkOptions` of the syntax parser and of the full parser. -/
  syntaxParserCheckOptions : CompileOptions → Bool
  parserCheckOptions : CompileOptions → Bool
  /-- The allocator: `make_unique<ExtensibleCompilationStencil>`,
  `new_<CompilationStencil>`, `new_<InitialStencilAndDelazifications>`. -/
  makeExtensibleStencilOk : Bool
  newCompilationStencilOk : Bool
  newInitialStencilAndDelazificationsOk : Bool
  /-- Whether `InitialStencilAndDelazifications::init` succeeds. -/
  stencilsInitOk : Bool
  /-- Embedding of `T::instantiateStencils`: the populated output, or failure. -/
  instantiateStencils : CompilationInput → CompilationState → Option CompilationGCOutput
  /-- Embedding of `ScriptSource::tryCompressOffThread`. -/
  tryCompressOffThread : Bool
  /-- Whether `extraBindings.reserve(n)` succeeds. -/
  reserveOk : Nat → Bool
  /-- Embedding of `JS_EncodeStringToUTF8`. -/
  encodeStringToUTF8 : String → Option String
  /-- Embedding of `HasProperty(cx, cx->global(), id, &found)`: `none` when the lookup fails. -/
  globalHasProperty : PropertyKey → Option Bool
  /-- Embedding of `HasProperty(cx, globalLexical, id, &found)`. -/
  globalLexicalHasProperty : PropertyKey → Option Bool
  /-- Whether `NewPlainObjectWithProto` succeeds. -/
  newPlainObjectOk : Bool
  /-- Embedding of `cx->compartment()->wrap(cx, &val)`. -/
  wrap : Value → Option Value
  /-- Whether `NativeDefineDataProperty` succeeds. -/
  defineDataPropertyOk : PropertyKey → Bool
  /-- Whether `SetIntegrityLevel(..., Sealed)` succeeds. -/
  sealOk : Bool
  /-- Whether `WithEnvironmentObject::createNonSyntactic` succeeds. -/
  createNonSyntacticOk : Bool
  /-- The conversion `JS::LimitedColumnNumberOneOrigin::fromUnlimited` of a
  `JS::ColumnNumberOneOrigin`, which brings a column into the limited range; it is
  declared outside this file. -/
  fromUnlimited : Nat → Nat

/-! ## `ScriptCompiler` -/

/-- Embedding of `ScriptCompiler<Unit>`: a `SourceAwareCompiler` with its source buffer and
the used-name map of its parser. -/
structure ScriptCompiler extends SourceAwareCompiler where
  sourceBuffer_ : SourceText
  usedNames : UsedNameMap := []
deriving DecidableEq, Repr

/-- Modelled from the spec: `appendScriptStencilAndData` is defined outside this
file; it appends one fresh script record at the end of `scriptData`, and its
extra data at the end of `scriptExtra`. -/
def CompilationState.appendScriptStencilAndData (env : Env) (st : CompilationState) :
    Option CompilationState :=
  if env.appendScriptStencilAndDataOk st then
    some { st with scriptData := st.scriptData ++ [{}], scriptExtra := st.scriptExtra ++ [{}] }
  else none

/-- Modelled from the spec: `ParserAtomsTable::internUtf8` is defined outside
this file; it returns the index of the name in the atom table, appending the
name when it is new. -/
def internUtf8 (env : Env) (atoms : List String) (name : String) :
    Option (List String × TaggedParserAtomIndex) :=
  if env.internOk name then
    some (if name ∈ atoms then atoms else atoms ++ [name], atoms.indexOf name)
  else none

/-- Modelled from the spec: `CompilationInput::internExtraBindings` is defined
outside this file; it interns the name of every binding and records the index,
leaving the shadowing flags alone, and fails when an interning fails. -/
def internExtraBindings (env : Env) :
    ExtraBindingInfoVector → List String → Option (ExtraBindingInfoVector × List String)
  | [], atoms => some ([], atoms)
  | b :: rest, atoms =>
    match internUtf8 env atoms b.nameChars with
    | none => none
    | some (atoms1, index) =>
      match internExtraBindings env rest atoms1 with
      | none => none
      | some (rest1, atoms2) => some ({ b with nameIndex := some index } :: rest1, atoms2)

/-- The inner loop of `popupateExtraBindingsFields`: is the binding's name among
the bindings declared in the global scope (`globalsc->bindings`, if not null)? -/
def declaredInGlobalScope (bindings : Option (List TaggedParserAtomIndex))
    (bindingInfo : ExtraBindingInfo) : Bool :=
  match bindings with
  | none => false
  | some bs => bs.any (fun name => bindingInfo.nameIndex == some name)

/-- The outer loop of `popupateExtraBindingsFields`, carrying
`hasNonShadowedBinding`: a binding already shadowed is skipped; any other gets
its flag from the declared bindings. -/
def populateLoop (bindings : Option (List TaggedParserAtomIndex)) :
    ExtraBindingInfoVector → Bool → ExtraBindingInfoVector × Bool
  | [], hasNonShadowedBinding => ([], hasNonShadowedBinding)
  | bindingInfo :: rest, hasNonShadowedBinding =>
    if bindingInfo.isShadowed then
      let r := populateLoop bindings rest hasNonShadowedBinding
      (bindingInfo :: r.1, r.2)
    else
      let isShadowed := declaredInGlobalScope bindings bindingInfo
      let r := populateLoop bindings rest
        (if !isShadowed then true else hasNonShadowedBinding)
      ({ bindingInfo with isShadowed := isShadowed } :: r.1, r.2)

/-- Embedding of `UsesExtraBindings`. -/
def UsesExtraBindings (extraBindings : ExtraBindingInfoVector) (usedNameMap : UsedNameMap) :
    Bool :=
  extraBindings.any (fun bindingInfo =>
    !bindingInfo.isShadowed &&
      usedNameMap.any (fun item =>
        bindingInfo.nameIndex == some item.1 && !item.2.isEmpty))

/-- Embedding of `ScriptCompiler::popupateExtraBindingsFields`. -/
def ScriptCompiler.popupateExtraBindingsFields (env : Env) (c : ScriptCompiler)
    (globalsc : GlobalSharedContext) (fc : FrontendContext) :
    Bool × ScriptCompiler × FrontendContext :=
  match internExtraBindings env c.compilationState_.input.extraBindings
      c.compilationState_.parserAtoms with
  | none => (false, c, fc)
  | some (interned, atoms) =>
    let r := populateLoop globalsc.bindings interned false
    let c1 : ScriptCompiler :=
      { c with
        compilationState_ :=
          { c.compilationState_ with
            parserAtoms := atoms
            input := { c.compilationState_.input with maybeExtraBindings := some r.1 } } }
    if !r.2 then
      -- All bindings are shadowed.
      (false, c1, fc.reportExtraBindingsAreNotUsed)
    else if globalsc.hasDirectEval then
      -- Direct eval can contain reference.
      (true, c1, fc)
    else if !UsesExtraBindings c1.compilationState_.input.extraBindings c1.usedNames then
      (false, c1, fc.reportExtraBindingsAreNotUsed)
    else
      (true, c1, fc)

/-- The compiler after a parser call: the compilation state, token stream and
used-name map are as the parser left them; the input is the compiler's own. -/
def ScriptCompiler.withParseResult (c : ScriptCompiler) (r : ParseResult) : ScriptCompiler :=
  { c with
    compilationState_ := { r.compilationState with input := c.compilationState_.input }
    tokenStream := r.tokenStream
    usedNames := r.usedNames }

/-- The parser call of `ScriptCompiler::compile`: `evalBody` in an eval context,
`globalBody` otherwise. -/
def ScriptCompiler.parseBody (env : Env) (c : ScriptCompiler) (sc : SharedContext)
    (fc : FrontendContext) : ParseResult :=
  match sc with
  | SharedContext.eval evalsc =>
    env.evalBody c.sourceBuffer_ evalsc c.compilationState_ c.tokenStream fc
  | SharedContext.global globalsc =>
    env.globalBody c.sourceBuffer_ globalsc c.compilationState_ c.tokenStream fc

/-- The event logged for the parser call of `ScriptCompiler::compile`. -/
def SharedContext.parseEvent : SharedContext → Event
  | SharedContext.eval _ => Event.evalBody
  | SharedContext.global _ => Event.globalBody

/-- The extra-bindings step of `ScriptCompiler::compile`: taken in a global
context whose input has extra bindings. -/
def ScriptCompiler.populateStep (env : Env) (c : ScriptCompiler) (sc : SharedContext)
    (r : ParseResult) (w : World) : Bool × ScriptCompiler × World :=
  match sc with
  | SharedContext.global globalsc =>
    if c.compilationState_.input.hasExtraBindings then
      let p := c.popupateExtraBindingsFields env
        { globalsc with bindings := r.bindings, hasDirectEval := r.hasDirectEval } w.fc
      (p.1, p.2.1, { (w.log Event.popupateExtraBindingsFields) with fc := p.2.2 })
    else (true, c, w)
  | SharedContext.eval _ => (true, c, w)

/-- The emit step of `ScriptCompiler::compile`, with its closing assertion. -/
def ScriptCompiler.emitStep (env : Env) (c : ScriptCompiler) (sc : SharedContext)
    (pn : ParseNode) (w : World) : Except Abort (Bool × ScriptCompiler × World) :=
  let emitterMode := if sc.selfHosted then EmitterMode.SelfHosting else EmitterMode.Normal
  let w1 := w.log Event.emitterInit
  if !env.emitterInit emitterMode c.compilationState_ then Except.ok (false, c, w1)
  else
    let e := env.emitScript emitterMode pn c.compilationState_ w1.fc
    let w2 : World := { (w1.log Event.emitScript) with fc := e.fc }
    let c1 : ScriptCompiler :=
      { c with compilationState_ := { e.compilationState with input := c.compilationState_.input } }
    if !e.ok then Except.ok (false, c1, w2)
    -- MOZ_ASSERT(!this->fc_->hadErrors());
    else if w2.fc.hadErrors then Except.error Abort.mozAssert
    else Except.ok (true, c1, w2)

/-- Embedding of `ScriptCompiler::compile`. -/
def ScriptCompiler.compile (env : Env) (c : ScriptCompiler) (sc : SharedContext)
    (w : World) : Except Abort (Bool × ScriptCompiler × World) :=
  -- Emplace the topLevel stencil
  if c.compilationState_.scriptData.length ≠ TopLevelIndex then
    Except.error Abort.mozAssert
  else
    let w1 := w.log (Event.appendScriptStencilAndData c.compilationState_.scriptData.length)
    match c.compilationState_.appendScriptStencilAndData env with
    | none => Except.ok (false, c, w1)
    | some st1 =>
      let c1 : ScriptCompiler := { c with compilationState_ := st1 }
      let r := c1.parseBody env sc w1.fc
      let w2 : World := { (w1.log sc.parseEvent) with fc := r.fc }
      let c2 := c1.withParseResult r
      match r.node with
      | none =>
        -- MOZ_ASSERT(!canHandleParseFailure(compilationState_.directives));
        if c2.canHandleParseFailure c2.compilationState_.directives then
          Except.error Abort.mozAssert
        else Except.ok (false, c2, w2)
      | some pn =>
        let p := c2.populateStep env sc r w2
        if !p.1 then Except.ok (false, p.2.1, p.2.2)
        else
          -- Successfully parsed. Emit the script.
          p.2.1.emitStep env sc pn p.2.2

/-! ## `ModuleCompiler` -/

/-- Embedding of `ModuleCompiler<Unit>`. -/
structure ModuleCompiler extends SourceAwareCompiler where
  sourceBuffer_ : SourceText
deriving DecidableEq, Repr

/-- The emit half of `ModuleCompiler::compile`, with the `ModuleBuilder` pass and
the closing assertion. -/
def ModuleCompiler.emitStep (env : Env) (c : ModuleCompiler) (pn : ParseNode) (w : World) :
    Except Abort (Bool × ModuleCompiler × World) :=
  let emitterMode :=
    if c.compilationState_.input.options.selfHostingMode then EmitterMode.SelfHosting
    else EmitterMode.Normal
  let w1 := w.log Event.emitterInit
  if !env.emitterInit emitterMode c.compilationState_ then Except.ok (false, c, w1)
  else
    let e := env.emitScript emitterMode pn c.compilationState_ w1.fc
    let w2 : World := { (w1.log Event.emitScript) with fc := e.fc }
    let c1 : ModuleCompiler :=
      { c with compilationState_ := { e.compilationState with input := c.compilationState_.input } }
    if !e.ok then Except.ok (false, c1, w2)
    else
      -- builder.finishFunctionDecls(moduleMetadata);
      let w3 := w2.log Event.finishFunctionDecls
      -- MOZ_ASSERT(!this->fc_->hadErrors());
      if w3.fc.hadErrors then Except.error Abort.mozAssert
      else Except.ok (true, c1, w3)

/-- Embedding of `ModuleCompiler::compile`. -/
def ModuleCompiler.compile (env : Env) (c : ModuleCompiler) (w : World) :
    Except Abort (Bool × ModuleCompiler × World) :=
  -- Emplace the topLevel stencil
  if c.compilationState_.scriptData.length ≠ TopLevelIndex then
    Except.error Abort.mozAssert
  else
    let w1 := w.log (Event.appendScriptStencilAndData c.compilationState_.scriptData.length)
    match c.compilationState_.appendScriptStencilAndData env with
    | none => Except.ok (false, c, w1)
    | some st1 =>
      let r := env.moduleBody c.sourceBuffer_ st1.input.options st1 c.tokenStream w1.fc
      let w2 : World := { (w1.log Event.moduleBody) with fc := r.fc }
      let c2 : ModuleCompiler :=
        { c with
          compilationState_ := { r.compilationState with input := st1.input }
          tokenStream := r.tokenStream }
      match r.node with
      | none => Except.ok (false, c2, w2)
      | some pn => c2.emitStep env pn w2

/-! ## `StandaloneFunctionCompiler` -/

/-- Embedding of `StandaloneFunctionCompiler<Unit>`. -/
structure StandaloneFunctionCompiler extends SourceAwareCompiler where
  sourceBuffer_ : SourceText
deriving DecidableEq, Repr

/-- The compiler after a call of `standaloneFunction`: the compilation state and
token stream are as the parser left them; the input and the directives are the
compiler's own, since the parser gets the directives by value and answers through
`newDirectives`. -/
def StandaloneFunctionCompiler.withParseResult (c : StandaloneFunctionCompiler)
    (r : FunctionParseResult) : StandaloneFunctionCompiler :=
  { c with
    compilationState_ :=
      { r.compilationState with
        input := c.compilationState_.input
        directives := c.compilationState_.directives }
    tokenStream := r.tokenStream }

/-- The `for (;;)` loop of `StandaloneFunctionCompiler::parse`, run for at most
`fuel` calls of the parser: `none` when the fuel runs out, otherwise the function
node (null on failure) with the compiler and the world. -/
def StandaloneFunctionCompiler.parseLoop (env : Env) (parameterListEnd : Option Nat)
    (syntaxKind : FunctionSyntaxKind) (generatorKind : GeneratorKind)
    (asyncKind : FunctionAsyncKind) (startPosition : TokenStreamPosition)
    (startStatePosition : CompilationStatePosition) :
    Nat → StandaloneFunctionCompiler → World →
      Except Abort (Option (Option FunctionNode × StandaloneFunctionCompiler × World))
  | 0, _, _ => Except.ok none
  | fuel + 1, c, w =>
    let r := env.standaloneFunction c.sourceBuffer_ parameterListEnd syntaxKind generatorKind
      asyncKind c.compilationState_.directives c.compilationState_ c.tokenStream w.fc
    let w1 : World :=
      { (w.log (Event.standaloneFunction c.compilationState_.scriptData.length)) with
        fc := r.fc }
    let c1 := c.withParseResult r
    match r.fn with
    | some fn => Except.ok (some (some fn, c1, w1))
    | none =>
      -- Maybe we encountered a new directive. See if we can try again.
      if !c1.canHandleParseFailure r.newDirectives then Except.ok (some (none, c1, w1))
      else
        match c1.toSourceAwareCompiler.handleParseFailure r.newDirectives startPosition
            startStatePosition with
        | Except.error e => Except.error e
        | Except.ok base =>
          StandaloneFunctionCompiler.parseLoop env parameterListEnd syntaxKind generatorKind
            asyncKind startPosition startStatePosition fuel
            { c1 with toSourceAwareCompiler := base } w1

/-- Embedding of `StandaloneFunctionCompiler::parse`, with the fuel of its loop. -/
def StandaloneFunctionCompiler.parse (env : Env) (parameterListEnd : Option Nat)
    (syntaxKind : FunctionSyntaxKind) (generatorKind : GeneratorKind)
    (asyncKind : FunctionAsyncKind) (fuel : Nat) (c : StandaloneFunctionCompiler)
    (w : World) :
    Except Abort (Option (Option FunctionNode × StandaloneFunctionCompiler × World)) :=
  StandaloneFunctionCompiler.parseLoop env parameterListEnd syntaxKind generatorKind asyncKind
    c.tokenStream.position c.compilationState_.getPosition fuel c w

/-- The interpreted branch of `StandaloneFunctionCompiler::compile`: emit, then
set the extent of the top-level record. -/
def StandaloneFunctionCompiler.emitStep (env : Env) (c : StandaloneFunctionCompiler)
    (parsedFunction : FunctionNode) (w : World) :
    Except Abort (Bool × StandaloneFunctionCompiler × World) :=
  let funbox := parsedFunction.funbox
  let emitterMode := if funbox.selfHosted then EmitterMode.SelfHosting else EmitterMode.Normal
  let w1 := w.log Event.emitterInit
  if !env.emitterInit emitterMode c.compilationState_ then Except.ok (false, c, w1)
  else
    let e := env.emitFunctionScript emitterMode parsedFunction c.compilationState_ w1.fc
    let w2 : World := { (w1.log Event.emitFunctionScript) with fc := e.fc }
    let st : CompilationState :=
      { e.compilationState with input := c.compilationState_.input }
    if !e.ok then Except.ok (false, { c with compilationState_ := st }, w2)
    else
      -- compilationState_.scriptExtra[CompilationStencil::TopLevelIndex].extent = ...
      match st.scriptExtra with
      | [] => Except.error Abort.mozAssert
      | topLevel :: rest =>
        let options := c.compilationState_.input.options
        let extent : SourceExtent :=
          { sourceStart := 0
            sourceEnd := c.sourceBuffer_.length
            toStringStart := funbox.extent.toStringStart
            toStringEnd := funbox.extent.toStringEnd
            lineno := options.lineno
            column := env.fromUnlimited options.column }
        Except.ok (true,
          { c with
            compilationState_ :=
              { st with scriptExtra := { topLevel with extent := extent } :: rest } },
          w2)

/-- The asm.js branch of `StandaloneFunctionCompiler::compile`: its three
assertions. -/
def StandaloneFunctionCompiler.asmJSAssertions (c : StandaloneFunctionCompiler)
    (funbox : FunctionBox) : Bool :=
  funbox.isAsmJSModule &&
    (match c.compilationState_.asmJS with
      | none => false
      | some moduleMap => moduleMap.contains funbox.index) &&
    (match c.compilationState_.scriptData with
      | [] => false
      | topLevel :: _ => topLevel.isAsmJSNative)

/-- Embedding of `StandaloneFunctionCompiler::compile`, with the fuel of the parse loop:
`none` when the fuel runs out. -/
def StandaloneFunctionCompiler.compile (env : Env) (parameterListEnd : Option Nat)
    (syntaxKind : FunctionSyntaxKind) (generatorKind : GeneratorKind)
    (asyncKind : FunctionAsyncKind) (fuel : Nat) (c : StandaloneFunctionCompiler)
    (w : World) : Except Abort (Option (Bool × StandaloneFunctionCompiler × World)) :=
  match c.parse env parameterListEnd syntaxKind generatorKind asyncKind fuel w with
  | Except.error e => Except.error e
  | Except.ok none => Except.ok none
  | Except.ok (some (none, c1, w1)) => Except.ok (some (false, c1, w1))
  | Except.ok (some (some parsedFunction, c1, w1)) =>
    if parsedFunction.funbox.isInterpreted then
      match c1.emitStep env parsedFunction w1 with
      | Except.error e => Except.error e
      | Except.ok r => Except.ok (some r)
    else
      -- The asm.js module was created by parser.
      if !c1.asmJSAssertions parsedFunction.funbox then Except.error Abort.mozAssert
      else Except.ok (some (true, c1, w1))

/-! ## Stencils and instantiation -/

/-- Embedding of `CompilationStencil`: the immutable stencil made from an extensible one that
was moved to the heap. -/
structure CompilationStencil where
  ownedBorrowStencil : CompilationState
deriving DecidableEq, Repr

/-- Embedding of `InitialStencilAndDelazifications`: the initial stencil (a pointer, null in
the model when none was given) and the delazifications stored so far. -/
structure InitialStencilAndDelazifications where
  initial : Option CompilationStencil
  delazifications : List (SourceExtent × CompilationStencil) := []
deriving DecidableEq, Repr

/-- Embedding of `CreateInitialStencilAndDelazifications`. -/
def CreateInitialStencilAndDelazifications (env : Env) (initial : Option CompilationStencil) :
    Option InitialStencilAndDelazifications :=
  if !env.newInitialStencilAndDelazificationsOk then none
  else if !env.stencilsInitOk then none
  else some { initial := initial }

/-- Embedding of `FireOnNewScript`. -/
def FireOnNewScript (options : CompileOptions) (w : World) : World :=
  if !options.hideFromNewScriptInitial then w.log Event.onNewScript else w

/-- Embedding of `InstantiateStencilsImpl` (both overloads of `InstantiateStencils`): the
`bool` result, the `gcOutput` when it was populated, and the world. -/
def InstantiateStencils (env : Env) (input : CompilationInput) (stencil : CompilationState)
    (w : World) : Bool × Option CompilationGCOutput × World :=
  let w1 := w.log Event.instantiateStencils
  match env.instantiateStencils input stencil with
  | none => (false, none, w1)
  | some gcOutput =>
    -- Enqueue an off-thread source compression task after finishing parsing.
    let w2 := w1.log Event.tryCompressOffThread
    if !env.tryCompressOffThread then (false, some gcOutput, w2)
    else (true, some gcOutput, FireOnNewScript input.options w2)

/-- Which of the three output destinations the caller supplied (non-null). -/
structure OutSlots where
  initialStencilOut : Bool
  stencilsOut : Bool
  gcOutput : Bool
deriving DecidableEq, Repr

/-- What the three output destinations hold after the call: `none` for a
destination that was not written. -/
structure Outputs where
  initialStencil : Option CompilationStencil := none
  stencils : Option InitialStencilAndDelazifications := none
  gcOutput : Option CompilationGCOutput := none
deriving DecidableEq, Repr

/-- The first block of `ConvertGlobalScriptStencilMaybeInstantiate`: move the
extensible stencil to the heap when a stencil is wanted. `none` is the
`return false`. -/
def convertInitialStencil (env : Env) (input : CompilationInput)
    (extensibleStencil : CompilationState) (slots : OutSlots) :
    Option (Option CompilationStencil × Outputs) :=
  if input.options.populateDelazificationCache || slots.initialStencilOut ||
      slots.stencilsOut then
    if !env.makeExtensibleStencilOk then none
    else if !env.newCompilationStencilOk then none
    else
      let initialStencil : CompilationStencil := { ownedBorrowStencil := extensibleStencil }
      some (some initialStencil,
        { initialStencil := if slots.initialStencilOut then some initialStencil else none })
  else some (none, {})

/-- The second block: make the stencil container when it is wanted. `none` is the
`return false`; the outputs written so far stay written. -/
def convertStencils (env : Env) (input : CompilationInput)
    (initialStencil : Option CompilationStencil) (slots : OutSlots) (out : Outputs) :
    Option (Option InitialStencilAndDelazifications × Outputs) :=
  if input.options.populateDelazificationCache || slots.stencilsOut then
    match CreateInitialStencilAndDelazifications env initialStencil with
    | none => none
    | some stencils =>
      some (some stencils,
        { out with stencils := if slots.stencilsOut then some stencils else none })
  else some (none, out)

/-- The third block: start the off-thread delazification. -/
def convertDelazification (hasCx : Bool) (input : CompilationInput) (w : World) : World :=
  if input.options.populateDelazificationCache then
    let w1 := w.log Event.startOffThreadDelazification
    if input.options.waitForDelazificationCache && hasCx then
      w1.log Event.waitForAllDelazifyTasks
    else w1
  else w

/-- Embedding of `ConvertGlobalScriptStencilMaybeInstantiate`: the `bool` result, the
destinations as they stand at the return, and the world. -/
def ConvertGlobalScriptStencilMaybeInstantiate (env : Env) (hasCx : Bool)
    (input : CompilationInput) (extensibleStencil : CompilationState) (slots : OutSlots)
    (w : World) : Except Abort (Bool × Outputs × World) :=
  match convertInitialStencil env input extensibleStencil slots with
  | none => Except.ok (false, {}, w)
  | some (initialStencil, out1) =>
    match convertStencils env input initialStencil slots out1 with
    | none => Except.ok (false, out1, w)
    | some (stencils, out2) =>
      let w1 := convertDelazification hasCx input w
      if slots.gcOutput then
        -- MOZ_ASSERT(maybeCx);
        if !hasCx then Except.error Abort.mozAssert
        else
          match stencils with
          | some stencils =>
            let r := InstantiateStencils env input
              ((stencils.initial.map (fun i => i.ownedBorrowStencil)).getD extensibleStencil) w1
            Except.ok (r.1, { out2 with gcOutput := r.2.1 }, r.2.2)
          | none =>
            -- MOZ_ASSERT(!initialStencilOut);
            if slots.initialStencilOut then Except.error Abort.mozAssert
            else
              let r := InstantiateStencils env input extensibleStencil w1
              Except.ok (r.1, { out2 with gcOutput := r.2.1 }, r.2.2)
      else Except.ok (true, out2, w1)

/-! ## The global-script entry points -/

/-- The constructor of `ScriptCompiler` followed by the parser's construction:
a fresh compilation state over the input and a token stream at the start. -/
def ScriptCompiler.create (env : Env) (input : CompilationInput) (sourceBuffer : SourceText) :
    ScriptCompiler where
  compilationState_ := { input := input, directives := env.initialDirectives input }
  tokenStream := { position := 0, hadError := false }
  sourceBuffer_ := sourceBuffer

/-- Embedding of `SourceAwareCompiler::createSourceAndParser`. -/
def ScriptCompiler.createSourceAndParser (env : Env) (c : ScriptCompiler) : Bool :=
  let options := c.compilationState_.input.options
  if !env.assignSourceOk c.sourceBuffer_ then false
  else if env.canLazilyParse options && !env.syntaxParserCheckOptions options then false
  else env.parserCheckOptions options

/-- Embedding of `SourceAwareCompiler::init`. -/
def ScriptCompiler.init (env : Env) (c : ScriptCompiler) : Bool :=
  if !env.compilationStateInitOk c.compilationState_.input then false
  else c.createSourceAndParser env

/-- Which initialiser `CompileGlobalScriptToStencilAndMaybeInstantiate` picks. -/
def globalInputTarget (options : CompileOptions)
    (maybeExtraBindings : Option ExtraBindingInfoVector) : InputTarget :=
  if options.selfHostingMode then InputTarget.selfHostingGlobal
  else if maybeExtraBindings.isSome then InputTarget.globalWithExtraBindings
  else InputTarget.global

/-- What a call of `CompileGlobalScriptToStencilAndMaybeInstantiate` leaves
behind: the `bool` result, the destinations, the caller's extra-bindings vector
(which the compile refines in place), the `check_` flag of the
`AutoAssertReportedException` guard at the return (`none` before the guard
exists), and the world. -/
structure CompileOutcome where
  ok : Bool
  outputs : Outputs := {}
  extraBindings : Option ExtraBindingInfoVector
  assertException : Option Bool
  world : World
deriving DecidableEq, Repr

/-- The input after `initForSelfHostingGlobal`, `initForGlobalWithExtraBindings`
or `initForGlobal`: only the second attaches the extra bindings. -/
def initGlobalInput (input : CompilationInput)
    (maybeExtraBindings : Option ExtraBindingInfoVector) : CompilationInput :=
  { input with
    target := globalInputTarget input.options maybeExtraBindings
    maybeExtraBindings :=
      if globalInputTarget input.options maybeExtraBindings
          = InputTarget.globalWithExtraBindings then maybeExtraBindings
      else none }

/-- The caller's extra-bindings vector after the compile: the input points to
it when it was attached, so it then holds what the compile made of it. -/
def extraBindingsAfter (input : CompilationInput)
    (maybeExtraBindings : Option ExtraBindingInfoVector) (compiler : ScriptCompiler) :
    Option ExtraBindingInfoVector :=
  if globalInputTarget input.options maybeExtraBindings
      = InputTarget.globalWithExtraBindings then
    compiler.compilationState_.input.maybeExtraBindings
  else maybeExtraBindings

/-- The `GlobalSharedContext` that
`CompileGlobalScriptToStencilAndMaybeInstantiate` builds. -/
def makeGlobalSharedContext (env : Env) (compiler : ScriptCompiler) (srcBuf : SourceText)
    (scopeKind : ScopeKind) : GlobalSharedContext :=
  { scopeKind := scopeKind
    options := compiler.compilationState_.input.options
    directives := compiler.compilationState_.directives
    extent := SourceExtent.makeGlobalExtent srcBuf.length
      compiler.compilationState_.input.options.lineno
      (env.fromUnlimited compiler.compilationState_.input.options.column) }

/-- Embedding of `CompileGlobalScriptToStencilAndMaybeInstantiate`, from the construction of
the `AutoAssertReportedException` guard on. -/
def compileGlobalGuarded (env : Env) (hasCx : Bool) (input : CompilationInput)
    (srcBuf : SourceText) (scopeKind : ScopeKind)
    (maybeExtraBindings : Option ExtraBindingInfoVector) (slots : OutSlots) (w : World) :
    Except Abort CompileOutcome :=
  let compiler := ScriptCompiler.create env (initGlobalInput input maybeExtraBindings) srcBuf
  if !compiler.init env then
    Except.ok { ok := false, extraBindings := maybeExtraBindings,
                assertException := some true, world := w }
  else
    match compiler.compile env
        (SharedContext.global (makeGlobalSharedContext env compiler srcBuf scopeKind)) w with
    | Except.error e => Except.error e
    | Except.ok (compiled, compiler1, w1) =>
      if !compiled then
        Except.ok { ok := false
                    extraBindings := extraBindingsAfter input maybeExtraBindings compiler1
                    assertException := some true, world := w1 }
      else
        match ConvertGlobalScriptStencilMaybeInstantiate env hasCx
            compiler1.compilationState_.input compiler1.compilationState_ slots w1 with
        | Except.error e => Except.error e
        | Except.ok (converted, out, w2) =>
          if !converted then
            Except.ok { ok := false, outputs := out
                        extraBindings := extraBindingsAfter input maybeExtraBindings compiler1
                        assertException := some true, world := w2 }
          else
            -- assertException.reset();
            Except.ok { ok := true, outputs := out
                        extraBindings := extraBindingsAfter input maybeExtraBindings compiler1
                        assertException := some false, world := w2 }

/-- Embedding of `CompileGlobalScriptToStencilAndMaybeInstantiate`. -/
def CompileGlobalScriptToStencilAndMaybeInstantiate (env : Env) (hasCx : Bool)
    (input : CompilationInput) (srcBuf : SourceText) (scopeKind : ScopeKind)
    (maybeExtraBindings : Option ExtraBindingInfoVector) (slots : OutSlots) (w : World) :
    Except Abort CompileOutcome :=
  if !env.initInputOk (globalInputTarget input.options maybeExtraBindings) then
    Except.ok { ok := false, extraBindings := maybeExtraBindings, assertException := none,
                world := w }
  else
    compileGlobalGuarded env hasCx input srcBuf scopeKind maybeExtraBindings slots w

/-- The destinations `frontend::CompileGlobalScriptToStencilWithInput` supplies:
`initialStencilOut` only. -/
def CompileGlobalScriptToStencilWithInput.slots : OutSlots :=
  { initialStencilOut := true, stencilsOut := false, gcOutput := false }

/-- The destinations both `CompileGlobalScriptToStencilImpl` supply: `stencilsOut`
only. -/
def CompileGlobalScriptToStencilImpl.slots : OutSlots :=
  { initialStencilOut := false, stencilsOut := true, gcOutput := false }

/-- The destinations `CompileGlobalScriptImpl` supplies: `gcOutput` only. -/
def CompileGlobalScriptImpl.slots : OutSlots :=
  { initialStencilOut := false, stencilsOut := false, gcOutput := true }

/-- Embedding of `frontend::CompileGlobalScriptToStencilWithInput`. -/
def CompileGlobalScriptToStencilWithInput (env : Env) (hasCx : Bool)
    (input : CompilationInput) (srcBuf : SourceText) (scopeKind : ScopeKind) (w : World) :
    Except Abort (Option CompilationStencil × World) :=
  match CompileGlobalScriptToStencilAndMaybeInstantiate env hasCx input srcBuf scopeKind
      none CompileGlobalScriptToStencilWithInput.slots w with
  | Except.error e => Except.error e
  | Except.ok r =>
    if !r.ok then Except.ok (none, r.world) else Except.ok (r.outputs.initialStencil, r.world)

/-- Embedding of `CompileGlobalScriptToStencilImpl` (with a `JSContext` when `hasCx`, with
only a `FrontendContext` otherwise). -/
def CompileGlobalScriptToStencilImpl (env : Env) (hasCx : Bool) (options : CompileOptions)
    (srcBuf : SourceText) (w : World) :
    Except Abort (Option InitialStencilAndDelazifications × World) :=
  let scopeKind :=
    if options.nonSyntacticScope then ScopeKind.NonSyntactic else ScopeKind.Global
  match CompileGlobalScriptToStencilAndMaybeInstantiate env hasCx { options := options }
      srcBuf scopeKind none CompileGlobalScriptToStencilImpl.slots w with
  | Except.error e => Except.error e
  | Except.ok r =>
    if !r.ok then Except.ok (none, r.world) else Except.ok (r.outputs.stencils, r.world)

/-- Embedding of `CompileGlobalScriptImpl`: the script, the caller's extra-bindings vector
after the call, and the world. -/
def CompileGlobalScriptImpl (env : Env) (options : CompileOptions) (srcBuf : SourceText)
    (scopeKind : ScopeKind) (maybeExtraBindings : Option ExtraBindingInfoVector) (w : World) :
    Except Abort (Option JSScript × Option ExtraBindingInfoVector × World) :=
  match CompileGlobalScriptToStencilAndMaybeInstantiate env true { options := options }
      srcBuf scopeKind maybeExtraBindings CompileGlobalScriptImpl.slots
      (w.log (Event.compileGlobalScript scopeKind options.nonSyntacticScope
        maybeExtraBindings.isSome)) with
  | Except.error e => Except.error e
  | Except.ok r =>
    if !r.ok then Except.ok (none, r.extraBindings, r.world)
    else Except.ok (r.outputs.gcOutput.bind (fun g => g.script), r.extraBindings, r.world)

/-- Embedding of `frontend::CompileGlobalScript` (both overloads). -/
def CompileGlobalScript (env : Env) (options : CompileOptions) (srcBuf : SourceText)
    (scopeKind : ScopeKind) (w : World) : Except Abort (Option JSScript × World) :=
  match CompileGlobalScriptImpl env options srcBuf scopeKind none w with
  | Except.error e => Except.error e
  | Except.ok r => Except.ok (r.1, r.2.2)

/-! ## Global script with extra bindings -/

/-- The loop of `CreateExtraBindingInfoVector`. `none` is a `return false`; the
flag next to it tells whether an error was reported on `cx` by this function
itself (`JS_ReportErrorASCII`). -/
def createExtraBindingInfoLoop (env : Env) :
    List PropertyKey → Option ExtraBindingInfoVector × Bool
  | [] => (some [], false)
  | key :: rest =>
    match key with
    | PropertyKey.other _ =>
      -- "The bindings key should be a string."
      (none, true)
    | PropertyKey.string str =>
      match env.encodeStringToUTF8 str with
      | none => (none, false)
      | some utf8chars =>
        match env.globalHasProperty key with
        | none => (none, false)
        | some found =>
          let isShadowed : Option Bool :=
            if found then some true
            else
              match env.globalLexicalHasProperty key with
              | none => none
              | some found1 => some found1
          match isShadowed with
          | none => (none, false)
          | some isShadowed =>
            match createExtraBindingInfoLoop env rest with
            | (none, reported) => (none, reported)
            | (some infos, reported) =>
              (some ({ nameChars := utf8chars, isShadowed := isShadowed } :: infos), reported)

/-- Embedding of `CreateExtraBindingInfoVector`: the vector, or `none` for `return false`. -/
def CreateExtraBindingInfoVector (env : Env) (unwrappedBindingKeys : List PropertyKey)
    (unwrappedBindingValues : List Value) (w : World) :
    Except Abort (Option ExtraBindingInfoVector × World) :=
  -- MOZ_ASSERT(unwrappedBindingKeys.length() == unwrappedBindingValues.length());
  if unwrappedBindingKeys.length ≠ unwrappedBindingValues.length then
    Except.error Abort.mozAssert
  else if !env.reserveOk unwrappedBindingKeys.length then
    -- ReportOutOfMemory(cx);
    Except.ok (none, { w with exceptionPending := true })
  else
    let r := createExtraBindingInfoLoop env unwrappedBindingKeys
    Except.ok (r.1, if r.2 then { w with exceptionPending := true } else w)

/-- A plain object: its data properties in definition order, and whether it is
sealed. -/
structure PlainObject where
  properties : List (PropertyKey × Value) := []
  isSealed : Bool := false
deriving DecidableEq, Repr

/-- An environment handed back through `env`: the global lexical environment,
or a non-syntactic `WithEnvironmentObject` over an object, enclosed by the
global lexical environment. -/
inductive Environment
  | globalLexical
  | nonSyntacticWith (object : PlainObject) (supportUnscopables : Bool)
deriving DecidableEq, Repr

/-- The loop of `CreateExtraBindingsEnvironment`, with its index `i`. Reading a
vector past its end trips the assertion of `operator[]`. -/
def defineExtraBindings (env : Env) (unwrappedBindingKeys : List PropertyKey)
    (unwrappedBindingValues : List Value) :
    ExtraBindingInfoVector → Nat → PlainObject → Except Abort (Option PlainObject)
  | [], _, obj => Except.ok (some obj)
  | bindingInfo :: rest, i, obj =>
    if bindingInfo.isShadowed then
      defineExtraBindings env unwrappedBindingKeys unwrappedBindingValues rest (i + 1) obj
    else
      match unwrappedBindingKeys.get? i, unwrappedBindingValues.get? i with
      | some id, some val =>
        match env.wrap val with
        | none => Except.ok none
        | some wrapped =>
          if !env.defineDataPropertyOk id then Except.ok none
          else
            defineExtraBindings env unwrappedBindingKeys unwrappedBindingValues rest (i + 1)
              { obj with properties := obj.properties ++ [(id, wrapped)] }
      | _, _ => Except.error Abort.mozAssert

/-- Embedding of `CreateExtraBindingsEnvironment`. -/
def CreateExtraBindingsEnvironment (env : Env) (unwrappedBindingKeys : List PropertyKey)
    (unwrappedBindingValues : List Value) (extraBindings : ExtraBindingInfoVector) :
    Except Abort (Option Environment) :=
  if !env.newPlainObjectOk then Except.ok none
  -- MOZ_ASSERT(unwrappedBindingKeys.length() == extraBindings.length());
  else if unwrappedBindingKeys.length ≠ extraBindings.length then Except.error Abort.mozAssert
  else
    match defineExtraBindings env unwrappedBindingKeys unwrappedBindingValues extraBindings 0
        {} with
    | Except.error e => Except.error e
    | Except.ok none => Except.ok none
    | Except.ok (some obj) =>
      -- The list of bindings shouldn't be modified.
      if !env.sealOk then Except.ok none
      else if !env.createNonSyntacticOk then Except.ok none
      else Except.ok (some (Environment.nonSyntacticWith { obj with isSealed := true } false))

/-- What `CompileGlobalScriptWithExtraBindings` hands back: the script (null on
failure), what it stored through `env` (`none` when it never called `env.set`),
and the world. -/
structure ExtraBindingsOutcome where
  script : Option JSScript
  env : Option Environment
  world : World
deriving DecidableEq, Repr

/-- The options of the fallback compile: a copy with the non-syntactic-scope
option cleared. -/
def copiedOptions (options : CompileOptions) : CompileOptions :=
  { options with nonSyntacticScope := false }

/-- The fallback of `CompileGlobalScriptWithExtraBindings`, taken when the
non-syntactic compile failed and the frontend context says the bindings are not
used. -/
def compileWithoutExtraBindings (env : Env) (options : CompileOptions) (srcBuf : SourceText)
    (w : World) : Except Abort ExtraBindingsOutcome :=
  -- Compile the script as regular global script in global lexical.
  let fc1 := w.fc.clearNoExtraBindingReferencesFound
  -- Warnings can be reported. Clear them to avoid reporting twice.
  let fc2 := fc1.clearWarnings
  -- No other error should be reported.
  if fc2.hadErrors then Except.error Abort.mozAssert
  else if w.exceptionPending then Except.error Abort.mozAssert
  else
    match CompileGlobalScript env (copiedOptions options) srcBuf ScopeKind.Global
        { w with fc := fc2 } with
    | Except.error e => Except.error e
    | Except.ok r =>
      Except.ok { script := r.1, env := some Environment.globalLexical, world := r.2 }

/-- Embedding of `frontend::CompileGlobalScriptWithExtraBindings`. -/
def CompileGlobalScriptWithExtraBindings (env : Env) (options : CompileOptions)
    (srcBuf : SourceText) (unwrappedBindingKeys : List PropertyKey)
    (unwrappedBindingValues : List Value) (w : World) : Except Abort ExtraBindingsOutcome :=
  match CreateExtraBindingInfoVector env unwrappedBindingKeys unwrappedBindingValues w with
  | Except.error e => Except.error e
  | Except.ok (none, w1) => Except.ok { script := none, env := none, world := w1 }
  | Except.ok (some extraBindings, w1) =>
    match CompileGlobalScriptImpl env options srcBuf ScopeKind.NonSyntactic
        (some extraBindings) w1 with
    | Except.error e => Except.error e
    | Except.ok (none, _, w2) =>
      if w2.fc.extraBindingsAreNotUsed then
        compileWithoutExtraBindings env options srcBuf w2
      else Except.ok { script := none, env := none, world := w2 }
    | Except.ok (some script, extraBindings1, w2) =>
      match CreateExtraBindingsEnvironment env unwrappedBindingKeys unwrappedBindingValues
          (extraBindings1.getD []) with
      | Except.error e => Except.error e
      | Except.ok none => Except.ok { script := none, env := none, world := w2 }
      | Except.ok (some extraBindingsEnv) =>
        Except.ok { script := some script, env := some extraBindingsEnv, world := w2 }

/-! ## `CompileStandaloneFunction` -/

/-- A scope on the heap, opaque to the driver. -/
abbrev Scope := Nat

/-- The constructor of `StandaloneFunctionCompiler` followed by the parser's
construction: a fresh compilation state over the input and a token stream at the
start. -/
def StandaloneFunctionCompiler.create (env : Env) (input : CompilationInput)
    (sourceBuffer : SourceText) : StandaloneFunctionCompiler where
  compilationState_ := { input := input, directives := env.initialDirectives input }
  tokenStream := { position := 0, hadError := false }
  sourceBuffer_ := sourceBuffer

/-- Embedding of `SourceAwareCompiler::createSourceAndParser`, for the standalone
function compiler. -/
def StandaloneFunctionCompiler.createSourceAndParser (env : Env)
    (c : StandaloneFunctionCompiler) : Bool :=
  let options := c.compilationState_.input.options
  if !env.assignSourceOk c.sourceBuffer_ then false
  else if env.canLazilyParse options && !env.syntaxParserCheckOptions options then false
  else env.parserCheckOptions options

/-- Embedding of `SourceAwareCompiler::init`, for the standalone function compiler. -/
def StandaloneFunctionCompiler.init (env : Env) (c : StandaloneFunctionCompiler) : Bool :=
  if !env.compilationStateInitOk c.compilationState_.input then false
  else c.createSourceAndParser env

/-- What a call of `CompileStandaloneFunction` leaves behind: the function (null
on failure), the `check_` flag of the `AutoAssertReportedException` guard at the
return, and the world. The frontend context of the world is the local one of the
call, as it is when the scope is left; its destructor is defined elsewhere. -/
structure StandaloneOutcome where
  result : Option JSFunction
  assertException : Option Bool
  world : World
deriving DecidableEq, Repr

/-- The second half of `CompileStandaloneFunction`, from the instantiation of the
compiler's stencil to the return. -/
def instantiateStandaloneFunction (env : Env) (options : CompileOptions)
    (parameterListEnd : Option Nat) (input : CompilationInput) (stencil : CompilationState)
    (w : World) : Except Abort StandaloneOutcome :=
  let w1 := w.log Event.instantiateStencils
  match env.instantiateStencils input stencil with
  | none => Except.ok { result := none, assertException := some true, world := w1 }
  | some gcOutput =>
    -- fun = gcOutput.get().getFunctionNoBaseIndex(CompilationStencil::TopLevelIndex);
    match gcOutput.functions.get? TopLevelIndex with
    | none => Except.error Abort.mozAssert
    | some f =>
      -- MOZ_ASSERT(fun->hasBytecode() || IsAsmJSModule(fun));
      if !(f.hasBytecode || f.isAsmJSModule) then Except.error Abort.mozAssert
      else
        -- Enqueue an off-thread source compression task after finishing parsing.
        let w2 := w1.log Event.tryCompressOffThread
        if !env.tryCompressOffThread then
          Except.ok { result := none, assertException := some true, world := w2 }
        else
          -- Note: If AsmJS successfully compiles, the into.script will still be
          -- nullptr.
          let w3 :=
            match gcOutput.script with
            | some _ =>
              let w21 :=
                match parameterListEnd with
                | some n => w2.log (Event.setParameterListEnd n)
                | none => w2
              FireOnNewScript options w21
            | none => w2
          Except.ok { result := some f, assertException := some false, world := w3 }

/-- Embedding of the static `CompileStandaloneFunction`, with the fuel of the parse
loop: `none` when the fuel runs out. `enclosingScope` is null (`none`) unless the
function is compiled in a non-syntactic scope. -/
def CompileStandaloneFunction (env : Env) (options : CompileOptions) (srcBuf : SourceText)
    (parameterListEnd : Option Nat) (syntaxKind : FunctionSyntaxKind)
    (generatorKind : GeneratorKind) (asyncKind : FunctionAsyncKind)
    (enclosingScope : Option Scope) (fuel : Nat) (w : World) :
    Except Abort (Option StandaloneOutcome) :=
  -- AutoReportFrontendContext fc(cx);
  let w0 : World := { w with fc := {} }
  let target :=
    match enclosingScope with
    | some _ => InputTarget.standaloneFunctionInNonSyntacticScope
    | none => InputTarget.standaloneFunction
  if !env.initInputOk target then
    Except.ok (some { result := none, assertException := some true, world := w0 })
  else
    let input : CompilationInput := { options := options, target := target }
    let compiler := StandaloneFunctionCompiler.create env input srcBuf
    if !compiler.init env then
      Except.ok (some { result := none, assertException := some true, world := w0 })
    else
      match compiler.compile env parameterListEnd syntaxKind generatorKind asyncKind fuel
          w0 with
      | Except.error e => Except.error e
      | Except.ok none => Except.ok none
      | Except.ok (some (false, _, w1)) =>
        Except.ok (some { result := none, assertException := some true, world := w1 })
      | Except.ok (some (true, c1, w1)) =>
        match instantiateStandaloneFunction env options parameterListEnd input
            c1.compilationState_ w1 with
        | Except.error e => Except.error e
        | Except.ok out => Except.ok (some out)

/-! ## Delazification -/

/-- Modelled from the spec: `getDelazificationFor` is defined outside this file;
the spec has the cache looked up by equality of the function's source extent. -/
def InitialStencilAndDelazifications.getDelazificationFor
    (stencils : InitialStencilAndDelazifications) (extent : SourceExtent) :
    Option CompilationStencil :=
  match stencils.delazifications.find? (fun entry => decide (entry.1 = extent)) with
  | some entry => some entry.2
  | none => none

/-- Modelled from the spec: `storeDelazification` is defined outside this file;
the spec has the entries append-only, keyed by the function's source extent. A
stencil whose extent has an entry already leaves the cache as it is, and the
entry is the pointer handed back; otherwise the stencil is appended and handed
back. -/
def InitialStencilAndDelazifications.storeDelazification
    (stencils : InitialStencilAndDelazifications) (stencil : CompilationStencil) :
    InitialStencilAndDelazifications × CompilationStencil :=
  match stencil.ownedBorrowStencil.functionKey with
  | none => (stencils, stencil)
  | some key =>
    match stencils.getDelazificationFor key with
    | some existing => (stencils, existing)
    | none =>
      ({ stencils with delazifications := stencils.delazifications ++ [(key, stencil)] },
        stencil)

/-- Embedding of `InstantiateLazyFunction`: the `bool` result and the world. -/
def InstantiateLazyFunction (env : Env) (input : CompilationInput)
    (stencil : CompilationState) (w : World) : Except Abort (Bool × World) :=
  match input.lazy with
  | none => Except.error Abort.nullDereference
  | some lazy =>
    let lazyFlags := lazy.immutableFlags
    let w1 := w.log Event.instantiateStencils
    match env.instantiateStencils input stencil with
    | none => Except.ok (false, w1)
    | some gcOutput =>
      match gcOutput.script with
      | none => Except.error Abort.nullDereference
      | some _ =>
        -- MOZ_ASSERT(lazyFlags == gcOutput.get().script->immutableFlags());
        if lazyFlags ≠ gcOutput.scriptImmutableFlags then Except.error Abort.mozAssert
        -- MOZ_ASSERT(... hasOnChain(ScopeKind::NonSyntactic) == ... HasNonSyntacticScope);
        else if gcOutput.scriptHasNonSyntacticOnChain ≠ gcOutput.scriptHasNonSyntacticScopeFlag
          then Except.error Abort.mozAssert
        else Except.ok (true, w1)

/-- The bytes of a container that is single or a borrow of a single one
(`isSingle() ? asSingle() : asBorrow()->asSingle()`); `none` when an assertion of
the accessors fails. -/
def SharedDataContainer.singleOrBorrowed : SharedDataContainer → Option (List Nat)
  | SharedDataContainer.single immutableData => some immutableData
  | SharedDataContainer.borrow immutableData => some immutableData
  | SharedDataContainer.other => none

/-- The bytes of a single container (`asSingle()`); `none` when the container is
not single. -/
def SharedDataContainer.asSingle : SharedDataContainer → Option (List Nat)
  | SharedDataContainer.single immutableData => some immutableData
  | _ => none

/-- The `for` loop of the validation step of
`CompileLazyFunctionToStencilMaybeInstantiate`, from index `i` for `remaining`
rounds: one release assertion for each byte. -/
def validateLoop (concurrentData ondemandData : List Nat) : Nat → Nat → Except Abort Unit
  | _, 0 => Except.ok ()
  | i, remaining + 1 =>
    if concurrentData.get? i ≠ ondemandData.get? i then Except.error Abort.releaseAssert
    else validateLoop concurrentData ondemandData (i + 1) remaining

/-- The comparison of the validation step of
`CompileLazyFunctionToStencilMaybeInstantiate`, for a cached stencil. -/
def validateDelazification (cached : CompilationStencil) (compilationState : CompilationState) :
    Except Abort Unit :=
  match cached.ownedBorrowStencil.sharedData.singleOrBorrowed with
  | none => Except.error Abort.mozAssert
  | some concurrentData =>
    match compilationState.sharedData.asSingle with
    | none => Except.error Abort.mozAssert
    | some ondemandData =>
      -- MOZ_RELEASE_ASSERT(concurrentData.Length() == ondemandData.Length(), ...);
      if concurrentData.length ≠ ondemandData.length then Except.error Abort.releaseAssert
      else validateLoop concurrentData ondemandData 0 concurrentData.length

/-- The validation step of `CompileLazyFunctionToStencilMaybeInstantiate`. -/
def checkDelazification (input : CompilationInput) (extent : SourceExtent)
    (stencils : Option InitialStencilAndDelazifications) (compilationState : CompilationState) :
    Except Abort Unit :=
  match stencils with
  | none => Except.ok ()
  | some cache =>
    if !input.options.checkDelazificationCache then Except.ok ()
    else
      match cache.getDelazificationFor extent with
      | none => Except.ok ()
      | some cached => validateDelazification cached compilationState

/-- What a call of `CompileLazyFunctionToStencilMaybeInstantiate` leaves behind:
the `bool` result, what `*borrowOut` holds (`none` when it was not written), the
delazification cache, the `check_` flag of the `AutoAssertReportedException`
guard at the return (`none` when no guard exists), and the world. -/
structure LazyOutcome where
  ok : Bool
  borrowOut : Option CompilationStencil := none
  stencils : Option InitialStencilAndDelazifications
  assertException : Option Bool
  world : World
deriving DecidableEq, Repr

/-- The first half of `CompileLazyFunctionToStencilMaybeInstantiate`: the state is
set up, the function is parsed and emitted, and the top-level record is marked
relazifiable when allowed. The state is `none` when a step fails. The function
key is the driver's own: it is set once, before the parser runs. -/
def compileLazyFunction (env : Env) (input : CompilationInput) (lazy : LazyFunctionInfo)
    (units : SourceText) (w : World) : Except Abort (Option CompilationState × World) :=
  -- compilationState.setFunctionKey(input.extent());
  let compilationState : CompilationState :=
    { input := input, directives := env.initialDirectives input
      functionKey := some lazy.extent }
  if !env.compilationStateInitOk input then Except.ok (none, w)
  else if !env.parserCheckOptions input.options then Except.ok (none, w)
  else
    let r := env.standaloneLazyFunction units input compilationState w.fc
    let w1 : World := { (w.log Event.standaloneLazyFunction) with fc := r.fc }
    match r.fn with
    | none => Except.ok (none, w1)
    | some pn =>
      let st1 : CompilationState :=
        { r.compilationState with input := input, functionKey := some lazy.extent }
      let w2 := w1.log Event.emitterInit
      if !env.emitterInit EmitterMode.LazyFunction st1 then Except.ok (none, w2)
      else
        let e := env.emitFunctionScript EmitterMode.LazyFunction pn st1 w2.fc
        let w3 : World := { (w2.log Event.emitFunctionScript) with fc := e.fc }
        let st2 : CompilationState :=
          { e.compilationState with input := input, functionKey := some lazy.extent }
        if !e.ok then Except.ok (none, w3)
        else
          -- NOTE: Only allow relazification if there was no lazy PrivateScriptData.
          let hadLazyScriptData := lazy.hasPrivateScriptData
          let isRelazifiableAfterDelazify := lazy.isRelazifiable
          if isRelazifiableAfterDelazify && !hadLazyScriptData then
            match st2.scriptData with
            | [] => Except.error Abort.mozAssert
            | topLevel :: rest =>
              Except.ok
                (some { st2 with scriptData := { topLevel with allowRelazify := true } :: rest },
                  w3)
          else Except.ok (some st2, w3)

/-- The last part of `CompileLazyFunctionToStencilMaybeInstantiate`: the output
mode. `maybeCx` and `borrowOut` tell whether the pointer is non-null. -/
def outputLazyFunction (env : Env) (maybeCx : Bool) (input : CompilationInput)
    (stencils : Option InitialStencilAndDelazifications) (borrowOut : Bool)
    (compilationState : CompilationState) (w : World) : Except Abort LazyOutcome :=
  if borrowOut then
    if !env.makeExtensibleStencilOk then
      Except.ok { ok := false, stencils := stencils, assertException := some true, world := w }
    else if !env.newCompilationStencilOk then
      Except.ok { ok := false, stencils := stencils, assertException := some true, world := w }
    else
      match stencils with
      | none => Except.error Abort.nullDereference
      | some cache =>
        let stored := cache.storeDelazification { ownedBorrowStencil := compilationState }
        Except.ok
          { ok := true, borrowOut := some stored.2, stencils := some stored.1
            assertException := some false, world := w.log Event.storeDelazification }
  else
    -- MOZ_ASSERT(maybeCx);
    if !maybeCx then Except.error Abort.mozAssert
    else
      match stencils with
      | some cache =>
        if !env.makeExtensibleStencilOk then
          Except.ok
            { ok := false, stencils := stencils, assertException := some true, world := w }
        else if !env.newCompilationStencilOk then
          Except.ok
            { ok := false, stencils := stencils, assertException := some true, world := w }
        else
          let stored := cache.storeDelazification { ownedBorrowStencil := compilationState }
          let w1 := w.log Event.storeDelazification
          match InstantiateLazyFunction env input stored.2.ownedBorrowStencil w1 with
          | Except.error e => Except.error e
          | Except.ok (false, w2) =>
            Except.ok
              { ok := false, stencils := some stored.1, assertException := some true
                world := w2 }
          | Except.ok (true, w2) =>
            Except.ok
              { ok := true, stencils := some stored.1, assertException := some false
                world := w2 }
      | none =>
        -- BorrowingCompilationStencil borrowingStencil(compilationState);
        match InstantiateLazyFunction env input compilationState w with
        | Except.error e => Except.error e
        | Except.ok (false, w2) =>
          Except.ok { ok := false, stencils := none, assertException := some true, world := w2 }
        | Except.ok (true, w2) =>
          Except.ok { ok := true, stencils := none, assertException := some false, world := w2 }

/-- Embedding of `CompileLazyFunctionToStencilMaybeInstantiate`. `maybeCx` and
`borrowOut` tell whether the pointer is non-null. -/
def CompileLazyFunctionToStencilMaybeInstantiate (env : Env) (maybeCx : Bool)
    (input : CompilationInput) (units : SourceText)
    (stencils : Option InitialStencilAndDelazifications) (borrowOut : Bool) (w : World) :
    Except Abort LazyOutcome :=
  -- MOZ_ASSERT(input.source);
  match input.lazy with
  | none => Except.error Abort.mozAssert
  | some lazy =>
    match compileLazyFunction env input lazy units w with
    | Except.error e => Except.error e
    | Except.ok (none, w1) =>
      Except.ok { ok := false, stencils := stencils, assertException := some true, world := w1 }
    | Except.ok (some compilationState, w1) =>
      match checkDelazification input lazy.extent stencils compilationState with
      | Except.error e => Except.error e
      | Except.ok _ => outputLazyFunction env maybeCx input stencils borrowOut compilationState w1

/-- A lazy script (`BaseScript`) with its function, as far as the delazification
reads them: whether it has bytecode, whether its function is the one being
delazified, whether that function is a ghost, what `initFromLazy` takes from it,
and the delazification cache of its source object (null when there is none). -/
structure BaseScript where
  hasBytecode : Bool := false
  functionIsFun : Bool := true
  funIsGhost : Bool := false
  info : LazyFunctionInfo
  maybeGetStencils : Option InitialStencilAndDelazifications := none
deriving DecidableEq, Repr

/-- A `ScriptSource`, as far as the delazification reads it. -/
structure ScriptSource where
  hasSourceText : Bool := true
deriving DecidableEq, Repr

/-- Embedding of `DelazifyCanonicalScriptedFunctionImpl` in the form that takes
the function and its lazy script. `cxOptions` are the options that
`JS::CompileOptions options(cx)` starts from. -/
def DelazifyCanonicalScriptedFunctionImpl.ofFunction (env : Env) (cxOptions : CompileOptions)
    (lazy : BaseScript) (ss : ScriptSource) (w : World) : Except Abort LazyOutcome :=
  -- MOZ_ASSERT(!lazy->hasBytecode(), "Script is already compiled!");
  if lazy.hasBytecode then Except.error Abort.mozAssert
  -- MOZ_ASSERT(lazy->function() == fun);
  else if !lazy.functionIsFun then Except.error Abort.mozAssert
  -- MOZ_DIAGNOSTIC_ASSERT(!fun->isGhost());
  else if lazy.funIsGhost then Except.error Abort.mozAssert
  else
    let options : CompileOptions :=
      { cxOptions with
        lineno := lazy.info.extent.lineno, column := lazy.info.extent.column
        selfHostingMode := false }
    -- input.get().initFromLazy(cx, lazy, ss);
    let input : CompilationInput :=
      { options := options, target := InputTarget.fromLazy, lazy := some lazy.info }
    let stencils := lazy.maybeGetStencils
    let cached :=
      match stencils with
      | some cache =>
        if input.options.consumeDelazificationCache then
          cache.getDelazificationFor lazy.info.extent
        else none
      | none => none
    match cached with
    | some cached =>
      match InstantiateLazyFunction env input cached.ownedBorrowStencil w with
      | Except.error e => Except.error e
      | Except.ok (ok, w1) =>
        Except.ok { ok := ok, stencils := stencils, assertException := none, world := w1 }
    | none =>
      let sourceStart := lazy.info.extent.sourceStart
      let sourceLength := lazy.info.extent.sourceEnd - lazy.info.extent.sourceStart
      -- MOZ_ASSERT(ss->hasSourceText());
      if !ss.hasSourceText then Except.error Abort.mozAssert
      else
        -- Parse and compile the script from source.
        match env.pinnedUnits sourceStart sourceLength with
        | none =>
          Except.ok { ok := false, stencils := stencils, assertException := none, world := w }
        | some units =>
          CompileLazyFunctionToStencilMaybeInstantiate env true input units stencils false w

/-- Embedding of `DelazifyFailureReason`. -/
inductive DelazifyFailureReason
  | Compressed
  | Other
deriving DecidableEq, Repr

/-- What the form of `DelazifyCanonicalScriptedFunctionImpl` that takes a script
index leaves behind: the stencil returned (null on failure), what was written to
`*failureReason` (`none` when nothing was), the delazification cache, and the
world. -/
structure DelazifyOutcome where
  result : Option CompilationStencil
  failureReason : Option DelazifyFailureReason := none
  stencils : InitialStencilAndDelazifications
  world : World
deriving DecidableEq, Repr

/-- Modelled from the spec: `ScriptStencilRef` is declared outside this file. The
script of index `scriptIndex` is read from the initial stencil: its extra data
give the extent, its record the debug facts; the extent is the key of the cache. -/
structure ScriptStencilRef where
  context : InitialStencilAndDelazifications
  scriptIndex : Nat
deriving DecidableEq, Repr

/-- Modelled from the spec: `ScriptStencilRef::scriptExtra`, read from the
initial stencil. -/
def ScriptStencilRef.scriptExtra (script : ScriptStencilRef) : Option ScriptStencilExtra :=
  match script.context.initial with
  | none => none
  | some initial => initial.ownedBorrowStencil.scriptExtra.get? script.scriptIndex

/-- Modelled from the spec: `ScriptStencilRef::scriptDataFromEnclosing`, read
from the initial stencil. -/
def ScriptStencilRef.scriptDataFromEnclosing (script : ScriptStencilRef) : Option ScriptStencil :=
  match script.context.initial with
  | none => none
  | some initial => initial.ownedBorrowStencil.scriptData.get? script.scriptIndex

/-- Modelled from the spec: `ScriptStencilRef::maybeContext`, the stencil the
cache holds for the extent of the script (null when it holds none). -/
def ScriptStencilRef.maybeContext (script : ScriptStencilRef) : Option CompilationStencil :=
  match script.scriptExtra with
  | none => none
  | some extra => script.context.getDelazificationFor extra.extent

/-- Embedding of `DelazifyCanonicalScriptedFunctionImpl` in the form that takes a
script index and returns a borrowed stencil. `ss` is the source of the initial
stencil. -/
def DelazifyCanonicalScriptedFunctionImpl.ofScriptIndex (env : Env)
    (prefableOptions : CompileOptions) (scriptIndex : Nat)
    (stencils : Option InitialStencilAndDelazifications) (ss : ScriptSource) (w : World) :
    Except Abort DelazifyOutcome :=
  -- MOZ_ASSERT(stencils);
  match stencils with
  | none => Except.error Abort.mozAssert
  | some cache =>
    let script : ScriptStencilRef := { context := cache, scriptIndex := scriptIndex }
    match script.maybeContext with
    | some cached => Except.ok { result := some cached, stencils := cache, world := w }
    | none =>
      match script.scriptExtra, script.scriptDataFromEnclosing with
      | some extra, some data =>
        -- MOZ_ASSERT(!script.isEagerlyCompiledInInitial(), ...);
        if data.hasSharedData then Except.error Abort.mozAssert
        -- MOZ_DIAGNOSTIC_ASSERT(!data.isGhost());
        else if data.isGhost then Except.error Abort.mozAssert
        -- MOZ_DIAGNOSTIC_ASSERT(data.wasEmittedByEnclosingScript());
        else if !data.wasEmittedByEnclosingScript then Except.error Abort.mozAssert
        else
          let sourceStart := extra.extent.sourceStart
          let sourceLength := extra.extent.sourceEnd - sourceStart
          -- MOZ_ASSERT(ss->hasSourceText());
          if !ss.hasSourceText then Except.error Abort.mozAssert
          else
            match env.pinnedUnitsIfUncompressed sourceStart sourceLength with
            | none =>
              Except.ok
                { result := none, failureReason := some DelazifyFailureReason.Compressed
                  stencils := cache, world := w }
            | some units =>
              let options : CompileOptions :=
                { prefableOptions with
                  lineno := extra.extent.lineno, column := extra.extent.column
                  selfHostingMode := false }
              -- input.initFromStencil(*stencils, scriptIndex, ss);
              let input : CompilationInput :=
                { options := options, target := InputTarget.fromStencil
                  lazy := some { extent := extra.extent } }
              match CompileLazyFunctionToStencilMaybeInstantiate env false input units
                  (some cache) true w with
              | Except.error e => Except.error e
              | Except.ok out =>
                if !out.ok then
                  Except.ok
                    { result := none, failureReason := some DelazifyFailureReason.Other
                      stencils := out.stencils.getD cache, world := out.world }
                else
                  Except.ok
                    { result := out.borrowOut, stencils := out.stencils.getD cache
                      world := out.world }
      | _, _ => Except.error Abort.mozAssert

/-! ## The module and eval entry points, and the guard -/

/-- The constructor of `ModuleCompiler` followed by the parser's construction: a
fresh compilation state over the input and a token stream at the start. -/
def ModuleCompiler.create (env : Env) (input : CompilationInput) (sourceBuffer : SourceText) :
    ModuleCompiler where
  compilationState_ := { input := input, directives := env.initialDirectives input }
  tokenStream := { position := 0, hadError := false }
  sourceBuffer_ := sourceBuffer

/-- Embedding of `SourceAwareCompiler::createSourceAndParser`, for the module
compiler. -/
def ModuleCompiler.createSourceAndParser (env : Env) (c : ModuleCompiler) : Bool :=
  let options := c.compilationState_.input.options
  if !env.assignSourceOk c.sourceBuffer_ then false
  else if env.canLazilyParse options && !env.syntaxParserCheckOptions options then false
  else env.parserCheckOptions options

/-- Embedding of `SourceAwareCompiler::init`, for the module compiler. -/
def ModuleCompiler.init (env : Env) (c : ModuleCompiler) : Bool :=
  if !env.compilationStateInitOk c.compilationState_.input then false
  else c.createSourceAndParser env

/-- Which alternative the `BytecodeCompilerOutput` of the caller holds: a
`RefPtr<CompilationStencil>` to fill, or a `CompilationGCOutput*` to instantiate
into. -/
inductive BytecodeCompilerOutput
  | stencil
  | gcOutput
deriving DecidableEq, Repr

/-- What a call of `ParseModuleToStencilAndMaybeInstantiate` leaves behind: the
`bool` result, the output as it stands at the return, the `check_` flag of the
`AutoAssertReportedException` guard at the return (`none` before the guard
exists), and the world. -/
structure ModuleOutcome where
  ok : Bool
  stencil : Option CompilationStencil := none
  gcOutput : Option CompilationGCOutput := none
  assertException : Option Bool
  world : World
deriving DecidableEq, Repr

/-- The output part of `ParseModuleToStencilAndMaybeInstantiate`, after a
successful compile. -/
def outputModule (env : Env) (hasCx : Bool) (input : CompilationInput)
    (stencil : CompilationState) (output : BytecodeCompilerOutput) (w : World) :
    Except Abort ModuleOutcome :=
  match output with
  | BytecodeCompilerOutput.stencil =>
    if !env.makeExtensibleStencilOk then
      Except.ok { ok := false, assertException := some true, world := w }
    else if !env.newCompilationStencilOk then
      Except.ok { ok := false, assertException := some true, world := w }
    else
      -- assertException.reset();
      Except.ok
        { ok := true, stencil := some { ownedBorrowStencil := stencil }
          assertException := some false, world := w }
  | BytecodeCompilerOutput.gcOutput =>
    -- MOZ_ASSERT(maybeCx);
    if !hasCx then Except.error Abort.mozAssert
    else
      let r := InstantiateStencils env input stencil w
      if !r.1 then
        Except.ok { ok := false, gcOutput := r.2.1, assertException := some true, world := r.2.2 }
      else
        -- assertException.reset();
        Except.ok { ok := true, gcOutput := r.2.1, assertException := some false, world := r.2.2 }

/-- Embedding of `ParseModuleToStencilAndMaybeInstantiate`, from the construction
of the `AutoAssertReportedException` guard on. -/
def parseModuleGuarded (env : Env) (hasCx : Bool) (input : CompilationInput)
    (srcBuf : SourceText) (output : BytecodeCompilerOutput) (w : World) :
    Except Abort ModuleOutcome :=
  let compiler := ModuleCompiler.create env { input with target := InputTarget.module } srcBuf
  if !compiler.init env then
    Except.ok { ok := false, assertException := some true, world := w }
  else
    match compiler.compile env w with
    | Except.error e => Except.error e
    | Except.ok (compiled, compiler1, w1) =>
      if !compiled then Except.ok { ok := false, assertException := some true, world := w1 }
      else
        outputModule env hasCx compiler1.compilationState_.input compiler1.compilationState_
          output w1

/-- Embedding of `ParseModuleToStencilAndMaybeInstantiate`. The source buffer of
the model always has its units, which is the first assertion. -/
def ParseModuleToStencilAndMaybeInstantiate (env : Env) (hasCx : Bool)
    (input : CompilationInput) (srcBuf : SourceText) (output : BytecodeCompilerOutput)
    (w : World) : Except Abort ModuleOutcome :=
  -- MOZ_ASSERT(input.options.lineno != 0, "Module cannot be compiled with lineNumber == 0");
  if input.options.lineno = 0 then Except.error Abort.mozAssert
  else if !env.initInputOk InputTarget.module then
    Except.ok { ok := false, assertException := none, world := w }
  else parseModuleGuarded env hasCx input srcBuf output w

/-- What a call of `CompileEvalScriptImpl` leaves behind: the script (null on
failure), the `check_` flag of the `AutoAssertReportedException` guard at the
return, and the world. The frontend context of the world is the local one of the
call, as it is when the scope is left. -/
structure EvalOutcome where
  script : Option JSScript
  assertException : Option Bool
  world : World
deriving DecidableEq, Repr

/-- The `EvalSharedContext` that `CompileEvalScriptImpl` builds. -/
def makeEvalSharedContext (env : Env) (compiler : ScriptCompiler) (options : CompileOptions)
    (srcBuf : SourceText) : EvalSharedContext :=
  { options := compiler.compilationState_.input.options
    directives := compiler.compilationState_.directives
    extent := SourceExtent.makeGlobalExtent srcBuf.length options.lineno
      (env.fromUnlimited options.column) }

/-- Embedding of `CompileEvalScriptImpl`. -/
def CompileEvalScriptImpl (env : Env) (options : CompileOptions) (srcBuf : SourceText)
    (w : World) : Except Abort EvalOutcome :=
  -- AutoReportFrontendContext fc(cx);
  let w0 : World := { w with fc := {} }
  if !env.initInputOk InputTarget.eval then
    Except.ok { script := none, assertException := some true, world := w0 }
  else
    let input : CompilationInput := { options := options, target := InputTarget.eval }
    let compiler := ScriptCompiler.create env input srcBuf
    if !compiler.init env then
      Except.ok { script := none, assertException := some true, world := w0 }
    else
      match compiler.compile env
          (SharedContext.eval (makeEvalSharedContext env compiler options srcBuf)) w0 with
      | Except.error e => Except.error e
      | Except.ok (compiled, compiler1, w1) =>
        if !compiled then
          Except.ok { script := none, assertException := some true, world := w1 }
        else
          let r := InstantiateStencils env input compiler1.compilationState_ w1
          if !r.1 then
            Except.ok { script := none, assertException := some true, world := r.2.2 }
          else
            -- assertException.reset();
            Except.ok
              { script := r.2.1.bind (fun gcOutput => gcOutput.script)
                assertException := some false, world := r.2.2 }

/-- Embedding of the destructor of `AutoAssertReportedException` (debug builds),
run with the `check_` flag the guard has at the return. `maybeCx` tells whether
the context is non-null. -/
def AutoAssertReportedException.onExit (check_ : Bool) (maybeCx : Bool)
    (hasInitializedSelfHosting : Bool) (w : World) : Except Abort Unit :=
  if !check_ then Except.ok ()
  -- Error while compiling self-hosted code isn't set as an exception.
  else if maybeCx && !hasInitializedSelfHosting then Except.ok ()
  else if maybeCx then
    -- MOZ_ASSERT(maybeCx_->isExceptionPending() || fc_->hadErrors());
    if w.exceptionPending || w.fc.hadErrors then Except.ok ()
    else Except.error Abort.mozAssert
  else
    -- MOZ_ASSERT(fc_->hadErrors());
    if w.fc.hadErrors then Except.ok () else Except.error Abort.mozAssert

/-! ## Sample collaborators, for concrete runs -/

/-- A parser answer that leaves everything as it found it. -/
def ParseResult.unchanged (node : Option ParseNode) (st : CompilationState)
    (ts : TokenStream) (fc : FrontendContext) : ParseResult :=
  { node := node, compilationState := st, tokenStream := ts, fc := fc }

/-- Collaborators that all succeed: the parser returns node `1` and declares no
global binding (for a standalone function it appends the record of the
function), the emitter succeeds, every allocation succeeds, instantiation
yields script `7`, no key is a property of the global object or of the
global lexical environment, and the column conversion clamps at the 30-bit limit
`1073741823`. -/
def Env.sample : Env where
  appendScriptStencilAndDataOk := fun _ => true
  globalBody := fun _ _ st ts fc => ParseResult.unchanged (some 1) st ts fc
  evalBody := fun _ _ st ts fc => ParseResult.unchanged (some 1) st ts fc
  moduleBody := fun _ _ st ts fc => ParseResult.unchanged (some 1) st ts fc
  standaloneFunction := fun src _ _ _ _ directives st ts fc =>
    { fn := some { node := 1, funbox := { extent := SourceExtent.makeGlobalExtent src.length 1 1 } }
      newDirectives := directives
      compilationState :=
        { st with scriptData := st.scriptData ++ [{}], scriptExtra := st.scriptExtra ++ [{}] }
      tokenStream := ts
      fc := fc }
  standaloneLazyFunction := fun units _ st fc =>
    { fn := some { node := 2, funbox := { extent := SourceExtent.makeGlobalExtent units.length 1 1 } }
      newDirectives := st.directives
      compilationState :=
        { st with
          scriptData := st.scriptData ++ [{}], scriptExtra := st.scriptExtra ++ [{}]
          sharedData := SharedDataContainer.single [1, 2, 3] }
      tokenStream := { position := units.length, hadError := false }
      fc := fc }
  pinnedUnits := fun start length => some ((List.range length).map (fun i => start + i))
  pinnedUnitsIfUncompressed := fun start length =>
    some ((List.range length).map (fun i => start + i))
  internOk := fun _ => true
  emitterInit := fun _ _ => true
  emitScript := fun _ _ st fc => { ok := true, compilationState := st, fc := fc }
  emitFunctionScript := fun _ _ st fc => { ok := true, compilationState := st, fc := fc }
  initInputOk := fun _ => true
  initialDirectives := fun _ => { strict := false, asmJS := false }
  compilationStateInitOk := fun _ => true
  assignSourceOk := fun _ => true
  canLazilyParse := fun _ => true
  syntaxParserCheckOptions := fun _ => true
  parserCheckOptions := fun _ => true
  makeExtensibleStencilOk := true
  newCompilationStencilOk := true
  newInitialStencilAndDelazificationsOk := true
  stencilsInitOk := true
  instantiateStencils := fun _ _ => some { script := some 7 }
  tryCompressOffThread := true
  reserveOk := fun _ => true
  encodeStringToUTF8 := fun s => some s
  globalHasProperty := fun _ => some false
  globalLexicalHasProperty := fun _ => some false
  newPlainObjectOk := true
  wrap := fun v => some v
  defineDataPropertyOk := fun _ => true
  sealOk := true
  createNonSyntacticOk := true
  fromUnlimited := fun column => min column 1073741823

/-- The sample collaborators over a global object that has every key as a
property. -/
def Env.shadowing : Env :=
  { Env.sample with globalHasProperty := fun _ => some true }

/-- A fresh `ScriptCompiler` over a one-unit source, with the given input. -/
def ScriptCompiler.sample (input : CompilationInput) : ScriptCompiler where
  compilationState_ := { input := input, directives := { strict := false, asmJS := false } }
  tokenStream := { position := 0, hadError := false }
  sourceBuffer_ := [120]

/-- A global shared context for the sample compiler. -/
def GlobalSharedContext.sample (scopeKind : ScopeKind) : GlobalSharedContext where
  scopeKind := scopeKind
  options := {}
  directives := { strict := false, asmJS := false }
  extent := SourceExtent.makeGlobalExtent 1 1 1

/-- The sample collaborators with a function parser that discovers one directive
per call: it fails asking for strict mode, then fails asking for asm.js, then
succeeds. -/
def Env.retrying : Env :=
  { Env.sample with
    standaloneFunction := fun src _ _ _ _ directives st ts fc =>
      if !directives.strict then
        { fn := none, newDirectives := { directives with strict := true }
          compilationState := st, tokenStream := { ts with position := ts.position + 1 }
          fc := fc }
      else if !directives.asmJS then
        { fn := none, newDirectives := { directives with asmJS := true }
          compilationState := st, tokenStream := { ts with position := ts.position + 1 }
          fc := fc }
      else
        { fn := some
            { node := 1, funbox := { extent := SourceExtent.makeGlobalExtent src.length 1 1 } }
          newDirectives := directives
          compilationState :=
            { st with scriptData := st.scriptData ++ [{}], scriptExtra := st.scriptExtra ++ [{}] }
          tokenStream := ts
          fc := fc } }

/-- A fresh `StandaloneFunctionCompiler` over a one-unit source, with the given
input. -/
def StandaloneFunctionCompiler.sample (input : CompilationInput) :
    StandaloneFunctionCompiler where
  compilationState_ := { input := input, directives := { strict := false, asmJS := false } }
  tokenStream := { position := 0, hadError := false }
  sourceBuffer_ := [120]

/-- The sample collaborators with a script parser that fails without a hard error
after reading five units, leaving strict mode set in the directives of the
compilation state. -/
def Env.strictDiscovery : Env :=
  { Env.sample with
    globalBody := fun _ _ st ts fc =>
      { node := none
        compilationState := { st with directives := { st.directives with strict := true } }
        tokenStream := { ts with position := 5 }
        fc := fc }
    evalBody := fun _ _ st ts fc =>
      { node := none
        compilationState := { st with directives := { st.directives with strict := true } }
        tokenStream := { ts with position := 5 }
        fc := fc } }

/-- The sample collaborators with an emitter whose `emitScript` and
`emitFunctionScript` fail. -/
def Env.failingEmit : Env :=
  { Env.sample with
    emitScript := fun _ _ st fc => { ok := false, compilationState := st, fc := fc }
    emitFunctionScript := fun _ _ st fc => { ok := false, compilationState := st, fc := fc } }

/-- The sample collaborators with an instantiation that yields script `7` and
its top-level function. -/
def Env.withFunction : Env :=
  { Env.sample with
    instantiateStencils := fun _ _ => some { script := some 7, functions := [{}] } }

/-- The extent of a function that spans units 2 to 5 of its source. -/
def SourceExtent.sample : SourceExtent :=
  { sourceStart := 2, sourceEnd := 5, toStringStart := 2, toStringEnd := 5
    lineno := 1, column := 3 }

/-- A stencil of the function at `SourceExtent.sample` with the given immutable
data. -/
def CompilationStencil.sample (immutableData : List Nat) : CompilationStencil :=
  { ownedBorrowStencil :=
      { input := { options := {} }, directives := { strict := false, asmJS := false }
        scriptData := [{}], scriptExtra := [{}]
        functionKey := some SourceExtent.sample
        sharedData := SharedDataContainer.single immutableData } }

/-- A delazification cache over an initial stencil with two scripts, the second
one being the function at `SourceExtent.sample`, with the given entries. -/
def InitialStencilAndDelazifications.sample
    (delazifications : List (SourceExtent × CompilationStencil)) :
    InitialStencilAndDelazifications :=
  { initial := some
      { ownedBorrowStencil :=
          { input := { options := {} }, directives := { strict := false, asmJS := false }
            scriptData := [{}, {}]
            scriptExtra := [{}, { extent := SourceExtent.sample }] } }
    delazifications := delazifications }

/-- The sample collaborators over a source that is compressed: its units cannot
be pinned without decompressing. -/
def Env.compressed : Env :=
  { Env.sample with pinnedUnitsIfUncompressed := fun _ _ => none }

/-! ## Theorems -/

/-! ### The directive retry -/

/-- C1: `canHandleParseFailure newDirectives` is true exactly when the token
stream recorded no error and `newDirectives` differs from the current directives
of the compilation state; after a hard syntax error it is false. -/
theorem canHandleParseFailure_iff (c : SourceAwareCompiler) (newDirectives : Directives) :
    (c.canHandleParseFailure newDirectives = true ↔
      (c.tokenStream.hadError = false ∧
        newDirectives ≠ c.compilationState_.directives)) ∧
    (c.tokenStream.hadError = true → c.canHandleParseFailure newDirectives = false) := by
  unfold SourceAwareCompiler.canHandleParseFailure
  constructor
  · constructor
    · intro h
      simp only [Bool.and_eq_true, Bool.not_eq_true', decide_eq_true_eq] at h
      exact ⟨h.1, fun e => h.2 e.symm⟩
    · intro h
      simp only [Bool.and_eq_true, Bool.not_eq_true', decide_eq_true_eq]
      exact ⟨h.1, fun e => h.2 e.symm⟩
  · intro h
    simp [h]

/-- A hard syntax error forbids the retry even though the directives changed. -/
theorem canHandleParseFailure_iff_witness :
    SourceAwareCompiler.canHandleParseFailure
      { compilationState_ :=
          { input := { options := {} }, directives := { strict := false, asmJS := false } }
        tokenStream := { position := 7, hadError := true } }
      { strict := true, asmJS := false } = false :=
  (canHandleParseFailure_iff _ _).2 rfl

/-- C2: a `handleParseFailure` made when `canHandleParseFailure` holds leaves the
token stream at `startPosition`, the compilation state rewound to
`startStatePosition`, and the directives equal to `newDirectives`; it runs to
completion whenever the monotonicity assertions hold. -/
theorem handleParseFailure_rewinds (c : SourceAwareCompiler) (newDirectives : Directives)
    (startPosition : TokenStreamPosition) (startStatePosition : CompilationStatePosition)
    (h : c.canHandleParseFailure newDirectives = true) :
    (((c.compilationState_.directives.strict = true → newDirectives.strict = true) ∧
        (c.compilationState_.directives.asmJS = true → newDirectives.asmJS = true)) →
      ∃ c', c.handleParseFailure newDirectives startPosition startStatePosition
        = Except.ok c') ∧
    (∀ c', c.handleParseFailure newDirectives startPosition startStatePosition
        = Except.ok c' →
      c'.tokenStream.position = startPosition ∧
      c'.tokenStream = c.tokenStream.rewind startPosition ∧
      c'.compilationState_ =
        { c.compilationState_.rewind startStatePosition with directives := newDirectives } ∧
      c'.compilationState_.scriptData
        = c.compilationState_.scriptData.take startStatePosition.scriptDataLength ∧
      c'.compilationState_.directives = newDirectives) := by
  constructor
  · rintro ⟨hs, ha⟩
    unfold SourceAwareCompiler.handleParseFailure
    simp only [h, Bool.not_true, Bool.false_eq_true, if_false]
    cases hst : c.compilationState_.directives.strict <;>
      cases hat : c.compilationState_.directives.asmJS <;>
      simp_all [CompilationState.rewind]
  · intro c' hc
    unfold SourceAwareCompiler.handleParseFailure at hc
    simp only [h, Bool.not_true, Bool.false_eq_true, if_false] at hc
    split at hc
    · cases hc
    · split at hc
      · cases hc
      · cases hc
        simp [TokenStream.rewind, CompilationState.rewind]

/-- A retry from non-strict to strict, rewinding two appended script records. -/
theorem handleParseFailure_rewinds_witness :
    ∃ c', SourceAwareCompiler.handleParseFailure
      { compilationState_ :=
          { input := { options := {} }, directives := { strict := false, asmJS := false }
            scriptData := [{}, { payload := 1 }, { payload := 2 }] }
        tokenStream := { position := 7, hadError := false } }
      { strict := true, asmJS := false } 0
      { scriptDataLength := 1, parserAtomsLength := 0, scopeDataLength := 0 }
        = Except.ok c' :=
  (handleParseFailure_rewinds _ _ _ _ (by decide)).1 ⟨fun _ => rfl, fun h => by cases h⟩

/-- A retry that `handleParseFailure` commits with its assertions live keeps the
flags that were set. -/
theorem handleParseFailure_keeps_flags (c : SourceAwareCompiler) (d : Directives)
    (p : TokenStreamPosition) (sp : CompilationStatePosition) (c' : SourceAwareCompiler)
    (hc : c.handleParseFailure d p sp = Except.ok c') :
    (c.compilationState_.directives.strict = true →
      c'.compilationState_.directives.strict = true) ∧
    (c.compilationState_.directives.asmJS = true →
      c'.compilationState_.directives.asmJS = true) := by
  unfold SourceAwareCompiler.handleParseFailure at hc
  split at hc
  · cases hc
  · dsimp only at hc
    split at hc
    · cases hc
    · split at hc
      · cases hc
      · rename_i h1 h2
        cases hc
        simp only [CompilationState.rewind, Bool.and_eq_true, Bool.not_eq_true',
          not_and, Bool.not_eq_false] at h1 h2
        exact ⟨h1, h2⟩

/-- What `handleParseFailure` commits with its assertions live, it commits
without them too. -/
theorem handleParseFailureNonDebug_of_ok (c : SourceAwareCompiler) (d : Directives)
    (p : TokenStreamPosition) (sp : CompilationStatePosition) (c' : SourceAwareCompiler)
    (hc : c.handleParseFailure d p sp = Except.ok c') :
    c.handleParseFailureNonDebug d p sp = c' := by
  unfold SourceAwareCompiler.handleParseFailure at hc
  split at hc
  · cases hc
  · dsimp only at hc
    split at hc
    · cases hc
    · split at hc
      · cases hc
      · cases hc
        rfl

/-- Without `DEBUG`, a sequence of retries each of whose new directives keep the
flags of the directives before it keeps the flags set at the start. -/
theorem retriesNonDebug_keeps_flags
    (rs : List (Directives × TokenStreamPosition × CompilationStatePosition)) :
    ∀ c : SourceAwareCompiler,
      List.Chain (fun d d1 : Directives =>
          (d.strict = true → d1.strict = true) ∧ (d.asmJS = true → d1.asmJS = true))
        c.compilationState_.directives (rs.map (fun r => r.1)) →
      (c.compilationState_.directives.strict = true →
        (retriesNonDebug c rs).compilationState_.directives.strict = true) ∧
      (c.compilationState_.directives.asmJS = true →
        (retriesNonDebug c rs).compilationState_.directives.asmJS = true) := by
  induction rs with
  | nil =>
    intro c _
    exact ⟨id, id⟩
  | cons r rest ih =>
    obtain ⟨d, p, sp⟩ := r
    intro c hchain
    simp only [List.map_cons, List.chain_cons] at hchain
    have s2 := ih (c.handleParseFailureNonDebug d p sp) hchain.2
    simp only [retriesNonDebug]
    exact ⟨fun h => s2.1 (hchain.1.1 h), fun h => s2.2 (hchain.1.2 h)⟩

/-- C3, as stated, fails: built without `DEBUG`, `handleParseFailure` on a
compiler whose `strict` directive is set, given new directives that differ from
the current ones (so that `canHandleParseFailure` holds) and have `strict`
cleared, commits them: the flag is false after the retry. -/
theorem handleParseFailureNonDebug_resets_strict :
    SourceAwareCompiler.canHandleParseFailure
        { compilationState_ :=
            { input := { options := {} }, directives := { strict := true, asmJS := false } }
          tokenStream := { position := 3, hadError := false } }
        { strict := false, asmJS := true } = true ∧
      (SourceAwareCompiler.mk
        { input := { options := {} }, directives := { strict := true, asmJS := false } }
        { position := 3, hadError := false }).compilationState_.directives.strict = true ∧
      (SourceAwareCompiler.handleParseFailureNonDebug
        { compilationState_ :=
            { input := { options := {} }, directives := { strict := true, asmJS := false } }
          tokenStream := { position := 3, hadError := false } }
        { strict := false, asmJS := true } 0
        { scriptDataLength := 0, parserAtomsLength := 0, scopeDataLength := 0
          }).compilationState_.directives.strict = false :=
  ⟨by decide, rfl, rfl⟩

/-- C3, amended: built with `DEBUG`, a retry never resets a directive: when
`handleParseFailure` commits, a `strict` (respectively `asmJS`) flag that was
set is still set; a retry that would reset one of them trips the monotonicity
assertion instead of committing; hence over any sequence of retries a flag, once
set, stays set. Built without `DEBUG`, the retry commits `newDirectives` as they
are, and agrees with the `DEBUG` build wherever that one commits; so a flag that
is set stays set over a retry exactly when `newDirectives` have it, and over a
sequence of retries when the new directives of each retry keep the flags of the
directives before it. -/
theorem handleParseFailure_monotonic (c : SourceAwareCompiler) (newDirectives : Directives)
    (startPosition : TokenStreamPosition) (startStatePosition : CompilationStatePosition) :
    (∀ c', c.handleParseFailure newDirectives startPosition startStatePosition
        = Except.ok c' →
      (c.compilationState_.directives.strict = true →
        c'.compilationState_.directives.strict = true) ∧
      (c.compilationState_.directives.asmJS = true →
        c'.compilationState_.directives.asmJS = true)) ∧
    (((c.compilationState_.directives.strict = true ∧ newDirectives.strict = false) ∨
        (c.compilationState_.directives.asmJS = true ∧ newDirectives.asmJS = false)) →
      c.handleParseFailure newDirectives startPosition startStatePosition
        = Except.error Abort.mozAssert) ∧
    (∀ rs c', retries c rs = Except.ok c' →
      (c.compilationState_.directives.strict = true →
        c'.compilationState_.directives.strict = true) ∧
      (c.compilationState_.directives.asmJS = true →
        c'.compilationState_.directives.asmJS = true)) ∧
    (c.handleParseFailureNonDebug newDirectives startPosition
        startStatePosition).compilationState_.directives = newDirectives ∧
    (∀ c', c.handleParseFailure newDirectives startPosition startStatePosition
        = Except.ok c' →
      c.handleParseFailureNonDebug newDirectives startPosition startStatePosition = c') ∧
    (∀ rs, List.Chain (fun d d1 : Directives =>
          (d.strict = true → d1.strict = true) ∧ (d.asmJS = true → d1.asmJS = true))
        c.compilationState_.directives (rs.map (fun r => r.1)) →
      (c.compilationState_.directives.strict = true →
        (retriesNonDebug c rs).compilationState_.directives.strict = true) ∧
      (c.compilationState_.directives.asmJS = true →
        (retriesNonDebug c rs).compilationState_.directives.asmJS = true)) := by
  refine ⟨handleParseFailure_keeps_flags c newDirectives startPosition startStatePosition,
    ?_, ?_, rfl,
    handleParseFailureNonDebug_of_ok c newDirectives startPosition startStatePosition,
    fun rs => retriesNonDebug_keeps_flags rs c⟩
  · intro h
    unfold SourceAwareCompiler.handleParseFailure
    split
    · rfl
    · rcases h with ⟨h1, h2⟩ | ⟨h1, h2⟩
      · simp [CompilationState.rewind, h1, h2]
      · simp only [CompilationState.rewind, h1, h2, Bool.not_false, Bool.and_true,
          Bool.and_self, if_true]
        split <;> rfl
  · intro rs
    induction rs generalizing c with
    | nil =>
      intro c' hc
      simp only [retries] at hc
      cases hc
      exact ⟨id, id⟩
    | cons r rest ih =>
      obtain ⟨d, p, sp⟩ := r
      intro c' hc
      simp only [retries] at hc
      cases h1 : c.handleParseFailure d p sp with
      | error e => rw [h1] at hc; cases hc
      | ok c1 =>
        rw [h1] at hc
        have s1 := handleParseFailure_keeps_flags c d p sp c1 h1
        have s2 := ih c1 c' hc
        exact ⟨fun h => s2.1 (s1.1 h), fun h => s2.2 (s1.2 h)⟩

/-- With `DEBUG`, a retry from strict to non-strict trips the assertion; without
`DEBUG`, two retries that first set `asmJS` and then keep both flags leave
`strict` set. -/
theorem handleParseFailure_monotonic_witness :
    SourceAwareCompiler.handleParseFailure
        { compilationState_ :=
            { input := { options := {} }, directives := { strict := true, asmJS := false } }
          tokenStream := { position := 3, hadError := false } }
        { strict := false, asmJS := true } 0
        { scriptDataLength := 0, parserAtomsLength := 0, scopeDataLength := 0 }
        = Except.error Abort.mozAssert ∧
      (retriesNonDebug
        { compilationState_ :=
            { input := { options := {} }, directives := { strict := true, asmJS := false } }
          tokenStream := { position := 3, hadError := false } }
        [({ strict := true, asmJS := true }, 0,
            { scriptDataLength := 0, parserAtomsLength := 0, scopeDataLength := 0 }),
          ({ strict := true, asmJS := true }, 0,
            { scriptDataLength := 0, parserAtomsLength := 0, scopeDataLength := 0 })]
        ).compilationState_.directives.strict = true :=
  ⟨(handleParseFailure_monotonic
      { compilationState_ :=
          { input := { options := {} }, directives := { strict := true, asmJS := false } }
        tokenStream := { position := 3, hadError := false } }
      { strict := false, asmJS := true } 0
      { scriptDataLength := 0, parserAtomsLength := 0, scopeDataLength := 0 }).2.1
      (Or.inl ⟨rfl, rfl⟩),
    ((handleParseFailure_monotonic
      { compilationState_ :=
          { input := { options := {} }, directives := { strict := true, asmJS := false } }
        tokenStream := { position := 3, hadError := false } }
      { strict := true, asmJS := true } 0
      { scriptDataLength := 0, parserAtomsLength := 0, scopeDataLength := 0 }).2.2.2.2.2
      [({ strict := true, asmJS := true }, 0,
          { scriptDataLength := 0, parserAtomsLength := 0, scopeDataLength := 0 }),
        ({ strict := true, asmJS := true }, 0,
          { scriptDataLength := 0, parserAtomsLength := 0, scopeDataLength := 0 })]
      (by simp)).1 rfl⟩

/-! ### `ScriptCompiler::compile` -/

/-- The directives never differ from themselves: the assertion on the failure
path of `ScriptCompiler::compile` cannot fail. -/
theorem canHandleParseFailure_self (st : CompilationState) (ts : TokenStream) :
    SourceAwareCompiler.canHandleParseFailure
      { compilationState_ := st, tokenStream := ts } st.directives = false := by
  simp [SourceAwareCompiler.canHandleParseFailure]

/-- C4: when `compile` runs on a fresh state, the top-level record is appended,
and the parser (`globalBody` or `evalBody`) yields no parse node, `compile`
returns failure; the calls it made are the append and one parser call, so the
parser ran exactly once and neither the extra-bindings population nor the
emitter ran. -/
theorem compile_parse_failure (env : Env) (c : ScriptCompiler) (sc : SharedContext)
    (w : World) (st1 : CompilationState)
    (hfresh : c.compilationState_.scriptData.length = TopLevelIndex)
    (happend : c.compilationState_.appendScriptStencilAndData env = some st1)
    (hnode : (ScriptCompiler.parseBody env { c with compilationState_ := st1 } sc
      w.fc).node = none) :
    ∃ c' w', c.compile env sc w = Except.ok (false, c', w') ∧
      w'.trace = w.trace ++ [Event.appendScriptStencilAndData TopLevelIndex, sc.parseEvent] ∧
      (w'.trace.drop w.trace.length).countP Event.isParse = 1 ∧
      Event.popupateExtraBindingsFields ∉ w'.trace.drop w.trace.length ∧
      (w'.trace.drop w.trace.length).countP Event.isEmit = 0 := by
  unfold ScriptCompiler.compile
  simp only [hfresh, ne_eq, not_true_eq_false, if_false, happend]
  have hfc : (w.log (Event.appendScriptStencilAndData TopLevelIndex)).fc = w.fc := rfl
  simp only [hfc, hnode, ScriptCompiler.withParseResult, canHandleParseFailure_self,
    Bool.false_eq_true, if_false]
  refine ⟨_, _, rfl, ?_, ?_⟩
  · simp [World.log]
  · simp only [World.log, List.append_assoc, List.singleton_append,
      List.drop_left]
    cases sc <;> simp [SharedContext.parseEvent, Event.isParse, Event.isEmit]

/-- A global compile whose parser finds a syntax error. -/
theorem compile_parse_failure_witness :
    ∃ c' w', ScriptCompiler.compile
        { Env.sample with
          globalBody := fun _ _ st ts fc =>
            ParseResult.unchanged none st { ts with hadError := true }
              { fc with hadErrors := true } }
        (ScriptCompiler.sample { options := {} })
        (SharedContext.global (GlobalSharedContext.sample ScopeKind.Global)) {}
        = Except.ok (false, c', w') ∧
      w'.trace = ([] : List Event) ++
        [Event.appendScriptStencilAndData TopLevelIndex,
          (SharedContext.global (GlobalSharedContext.sample ScopeKind.Global)).parseEvent] ∧
      (w'.trace.drop 0).countP Event.isParse = 1 ∧
      Event.popupateExtraBindingsFields ∉ w'.trace.drop 0 ∧
      (w'.trace.drop 0).countP Event.isEmit = 0 :=
  compile_parse_failure _ (ScriptCompiler.sample { options := {} }) _ {} _ rfl rfl rfl


/-! ### `popupateExtraBindingsFields` -/

/-- The bindings after the outer loop: a binding already shadowed is kept, any
other has its flag set from the declared bindings. -/
theorem populateLoop_fst (bs : Option (List TaggedParserAtomIndex))
    (l : ExtraBindingInfoVector) (acc : Bool) :
    (populateLoop bs l acc).1 =
      l.map (fun b =>
        if b.isShadowed then b else { b with isShadowed := declaredInGlobalScope bs b }) := by
  induction l generalizing acc with
  | nil => rfl
  | cons b rest ih =>
    unfold populateLoop
    split
    · rename_i h
      simp [ih, h]
    · rename_i h
      simp [ih, h]

/-- The flag `hasNonShadowedBinding` after the outer loop. -/
theorem populateLoop_snd (bs : Option (List TaggedParserAtomIndex))
    (l : ExtraBindingInfoVector) (acc : Bool) :
    (populateLoop bs l acc).2 =
      (acc || l.any (fun b => !b.isShadowed && !declaredInGlobalScope bs b)) := by
  induction l generalizing acc with
  | nil => simp [populateLoop]
  | cons b rest ih =>
    unfold populateLoop
    split
    · rename_i h
      simp [ih, h]
    · rename_i h
      simp only [ih, List.any_cons, h]
      cases declaredInGlobalScope bs b <;> cases acc <;> simp

/-- The inner loop finds the name exactly when it is among the declared
bindings of the global scope. -/
theorem declaredInGlobalScope_iff (bindings : Option (List TaggedParserAtomIndex))
    (b : ExtraBindingInfo) :
    declaredInGlobalScope bindings b = true ↔
      ∃ bs, bindings = some bs ∧ ∃ name ∈ bs, b.nameIndex = some name := by
  cases bindings with
  | none => simp [declaredInGlobalScope]
  | some bs => simp [declaredInGlobalScope]

/-- The result of `popupateExtraBindingsFields` once interning succeeded, in
terms of the two flags it computes. -/
theorem popupateExtraBindingsFields_result (env : Env) (c : ScriptCompiler)
    (globalsc : GlobalSharedContext) (fc : FrontendContext)
    (interned : ExtraBindingInfoVector) (atoms : List String)
    (hintern : internExtraBindings env c.compilationState_.input.extraBindings
      c.compilationState_.parserAtoms = some (interned, atoms)) :
    ((c.popupateExtraBindingsFields env globalsc fc).1,
      (c.popupateExtraBindingsFields env globalsc fc).2.2) =
      if !interned.any (fun b => !b.isShadowed && !declaredInGlobalScope globalsc.bindings b)
      then (false, fc.reportExtraBindingsAreNotUsed)
      else if globalsc.hasDirectEval then (true, fc)
      else if !interned.any (fun b => !b.isShadowed &&
          !declaredInGlobalScope globalsc.bindings b &&
          c.usedNames.any (fun item => b.nameIndex == some item.1 && !item.2.isEmpty))
      then (false, fc.reportExtraBindingsAreNotUsed)
      else (true, fc) := by
  have huse : UsesExtraBindings
      (interned.map (fun b =>
        if b.isShadowed then b
        else { b with isShadowed := declaredInGlobalScope globalsc.bindings b }))
      c.usedNames =
      interned.any (fun b => !b.isShadowed &&
          !declaredInGlobalScope globalsc.bindings b &&
          c.usedNames.any (fun item => b.nameIndex == some item.1 && !item.2.isEmpty)) := by
    unfold UsesExtraBindings
    rw [List.any_map]
    congr 1
    funext b
    cases hb : b.isShadowed <;> simp [hb]
  unfold ScriptCompiler.popupateExtraBindingsFields
  rw [hintern]
  simp only [populateLoop_fst, populateLoop_snd, Bool.false_or,
    CompilationInput.extraBindings, Option.getD_some, huse]
  split_ifs <;> rfl

/-- C7: once the binding names are interned, `popupateExtraBindingsFields`
reports extra-bindings-unused and returns failure exactly when (a) every binding
is shadowed, counting those whose name is declared in the parsed global scope,
or (b) the script has no direct eval and no binding that is still non-shadowed
has a non-empty entry in the used-name map; otherwise it returns success and
reports nothing. -/
theorem popupateExtraBindingsFields_unused_iff (env : Env) (c : ScriptCompiler)
    (globalsc : GlobalSharedContext) (fc : FrontendContext)
    (interned : ExtraBindingInfoVector) (atoms : List String)
    (hintern : internExtraBindings env c.compilationState_.input.extraBindings
      c.compilationState_.parserAtoms = some (interned, atoms)) :
    (((c.popupateExtraBindingsFields env globalsc fc).1 = false ∧
        (c.popupateExtraBindingsFields env globalsc fc).2.2
          = fc.reportExtraBindingsAreNotUsed) ↔
      ((∀ b ∈ interned, b.isShadowed = true ∨
          ∃ bs, globalsc.bindings = some bs ∧ ∃ name ∈ bs, b.nameIndex = some name) ∨
        (globalsc.hasDirectEval = false ∧
          ∀ b ∈ interned,
            ¬ (b.isShadowed = true ∨
              ∃ bs, globalsc.bindings = some bs ∧ ∃ name ∈ bs, b.nameIndex = some name) →
            ∀ item ∈ c.usedNames, b.nameIndex = some item.1 → item.2 = []))) ∧
    (¬ ((∀ b ∈ interned, b.isShadowed = true ∨
          ∃ bs, globalsc.bindings = some bs ∧ ∃ name ∈ bs, b.nameIndex = some name) ∨
        (globalsc.hasDirectEval = false ∧
          ∀ b ∈ interned,
            ¬ (b.isShadowed = true ∨
              ∃ bs, globalsc.bindings = some bs ∧ ∃ name ∈ bs, b.nameIndex = some name) →
            ∀ item ∈ c.usedNames, b.nameIndex = some item.1 → item.2 = [])) →
      (c.popupateExtraBindingsFields env globalsc fc).1 = true ∧
        (c.popupateExtraBindingsFields env globalsc fc).2.2 = fc) := by
  have hres := popupateExtraBindingsFields_result env c globalsc fc interned atoms hintern
  have h1 := congrArg Prod.fst hres
  have h2 := congrArg Prod.snd hres
  simp only at h1 h2
  have hA : (interned.any (fun b => !b.isShadowed &&
        !declaredInGlobalScope globalsc.bindings b) = false) ↔
      (∀ b ∈ interned, b.isShadowed = true ∨
          ∃ bs, globalsc.bindings = some bs ∧ ∃ name ∈ bs, b.nameIndex = some name) := by
    simp only [List.any_eq_false, Bool.and_eq_true, Bool.not_eq_true', not_and,
      Bool.not_eq_false, ← declaredInGlobalScope_iff]
    constructor
    · intro h b hb
      cases hs : b.isShadowed
      · exact Or.inr (h b hb hs)
      · exact Or.inl rfl
    · intro h b hb hs
      rcases h b hb with h' | h'
      · rw [hs] at h'; cases h'
      · exact h'
  have hB : (interned.any (fun b => !b.isShadowed &&
          !declaredInGlobalScope globalsc.bindings b &&
          c.usedNames.any (fun item => b.nameIndex == some item.1 && !item.2.isEmpty))
        = false) ↔
      (∀ b ∈ interned,
            ¬ (b.isShadowed = true ∨
              ∃ bs, globalsc.bindings = some bs ∧ ∃ name ∈ bs, b.nameIndex = some name) →
            ∀ item ∈ c.usedNames, b.nameIndex = some item.1 → item.2 = []) := by
    simp only [← declaredInGlobalScope_iff, List.any_eq_false, Bool.and_eq_true,
      Bool.not_eq_true', not_and, beq_iff_eq, List.any_eq_true, not_exists,
      Bool.not_eq_false, List.isEmpty_iff, not_or]
    constructor
    · intro h b hb hn item hi hname
      have hs : b.isShadowed = false := by
        cases hb' : b.isShadowed
        · rfl
        · exact absurd hb' hn.1
      have hd : declaredInGlobalScope globalsc.bindings b = false := by
        cases hb' : declaredInGlobalScope globalsc.bindings b
        · rfl
        · exact absurd hb' hn.2
      exact h b hb ⟨hs, hd⟩ item hi hname
    · intro h b hb hn item hi hname
      exact h b hb ⟨by simp [hn.1], by simp [hn.2]⟩ item hi hname
  rw [← hA, ← hB]
  rw [h1, h2]
  cases hh : interned.any (fun b => !b.isShadowed &&
        !declaredInGlobalScope globalsc.bindings b) <;>
    cases he : globalsc.hasDirectEval <;>
    cases hu : interned.any (fun b => !b.isShadowed &&
          !declaredInGlobalScope globalsc.bindings b &&
          c.usedNames.any (fun item => b.nameIndex == some item.1 && !item.2.isEmpty)) <;>
    simp


/-- One non-shadowed binding `x`, no declared global binding, no direct eval and
an empty used-name map: the bindings are reported unused. -/
theorem popupateExtraBindingsFields_unused_iff_witness :
    (ScriptCompiler.popupateExtraBindingsFields Env.sample
        (ScriptCompiler.sample
          { options := {}, maybeExtraBindings := some [{ nameChars := "x", isShadowed := false }] })
        (GlobalSharedContext.sample ScopeKind.NonSyntactic) {}).1 = false ∧
      (ScriptCompiler.popupateExtraBindingsFields Env.sample
        (ScriptCompiler.sample
          { options := {}, maybeExtraBindings := some [{ nameChars := "x", isShadowed := false }] })
        (GlobalSharedContext.sample ScopeKind.NonSyntactic) {}).2.2
        = FrontendContext.reportExtraBindingsAreNotUsed {} :=
  (popupateExtraBindingsFields_unused_iff Env.sample
      (ScriptCompiler.sample
        { options := {}, maybeExtraBindings := some [{ nameChars := "x", isShadowed := false }] })
      (GlobalSharedContext.sample ScopeKind.NonSyntactic) {}
      [{ nameChars := "x", nameIndex := some 0, isShadowed := false }] ["x"] rfl).1.2
    (Or.inr ⟨rfl, fun _ _ _ _ hi => absurd hi (List.not_mem_nil _)⟩)

/-- C8, as stated, fails: with a direct eval in the script but every binding
shadowed, `popupateExtraBindingsFields` returns failure and reports
extra-bindings-unused. -/
theorem popupateExtraBindingsFields_direct_eval_all_shadowed :
    ({ GlobalSharedContext.sample ScopeKind.NonSyntactic with
        hasDirectEval := true }).hasDirectEval = true ∧
      (ScriptCompiler.popupateExtraBindingsFields Env.sample
        (ScriptCompiler.sample
          { options := {}, maybeExtraBindings := some [{ nameChars := "x", isShadowed := true }] })
        { GlobalSharedContext.sample ScopeKind.NonSyntactic with hasDirectEval := true }
        {}).1 = false ∧
      (ScriptCompiler.popupateExtraBindingsFields Env.sample
        (ScriptCompiler.sample
          { options := {}, maybeExtraBindings := some [{ nameChars := "x", isShadowed := true }] })
        { GlobalSharedContext.sample ScopeKind.NonSyntactic with hasDirectEval := true }
        {}).2.2.extraBindingsAreNotUsed = true :=
  ⟨rfl, rfl, rfl⟩

/-- C8, amended: once the binding names are interned, if the parsed script
contains a direct eval and at least one binding is still non-shadowed when the
bindings declared in the global scope are counted, `popupateExtraBindingsFields`
returns success and reports nothing, whatever the used-name map holds; if every
binding is shadowed it reports extra-bindings-unused and fails, direct eval or
not. -/
theorem popupateExtraBindingsFields_direct_eval (env : Env) (c : ScriptCompiler)
    (globalsc : GlobalSharedContext) (fc : FrontendContext)
    (interned : ExtraBindingInfoVector) (atoms : List String)
    (hintern : internExtraBindings env c.compilationState_.input.extraBindings
      c.compilationState_.parserAtoms = some (interned, atoms))
    (heval : globalsc.hasDirectEval = true) :
    ((∃ b ∈ interned, b.isShadowed = false ∧
        ¬ ∃ bs, globalsc.bindings = some bs ∧ ∃ name ∈ bs, b.nameIndex = some name) →
      (c.popupateExtraBindingsFields env globalsc fc).1 = true ∧
        (c.popupateExtraBindingsFields env globalsc fc).2.2 = fc) ∧
    ((∀ b ∈ interned, b.isShadowed = true ∨
        ∃ bs, globalsc.bindings = some bs ∧ ∃ name ∈ bs, b.nameIndex = some name) →
      (c.popupateExtraBindingsFields env globalsc fc).1 = false ∧
        (c.popupateExtraBindingsFields env globalsc fc).2.2
          = fc.reportExtraBindingsAreNotUsed) := by
  have hres := popupateExtraBindingsFields_result env c globalsc fc interned atoms hintern
  have h1 := congrArg Prod.fst hres
  have h2 := congrArg Prod.snd hres
  simp only at h1 h2
  rw [h1, h2]
  constructor
  · rintro ⟨b, hb, hs, hd⟩
    have hany : interned.any (fun b => !b.isShadowed &&
        !declaredInGlobalScope globalsc.bindings b) = true := by
      rw [List.any_eq_true]
      refine ⟨b, hb, ?_⟩
      have hd' : declaredInGlobalScope globalsc.bindings b = false := by
        cases hx : declaredInGlobalScope globalsc.bindings b
        · rfl
        · exact absurd ((declaredInGlobalScope_iff _ _).1 hx) hd
      simp [hs, hd']
    simp [hany, heval]
  · intro hall
    have hany : interned.any (fun b => !b.isShadowed &&
        !declaredInGlobalScope globalsc.bindings b) = false := by
      rw [List.any_eq_false]
      intro b hb
      rcases hall b hb with h | h
      · simp [h]
      · simp [(declaredInGlobalScope_iff _ _).2 h]
    simp [hany]

/-- A direct eval and one non-shadowed binding whose name the script never
mentions: the bindings still count as used. -/
theorem popupateExtraBindingsFields_direct_eval_witness :
    (ScriptCompiler.popupateExtraBindingsFields Env.sample
        (ScriptCompiler.sample
          { options := {}, maybeExtraBindings := some [{ nameChars := "y", isShadowed := false }] })
        { GlobalSharedContext.sample ScopeKind.NonSyntactic with hasDirectEval := true }
        {}).1 = true ∧
      (ScriptCompiler.popupateExtraBindingsFields Env.sample
        (ScriptCompiler.sample
          { options := {}, maybeExtraBindings := some [{ nameChars := "y", isShadowed := false }] })
        { GlobalSharedContext.sample ScopeKind.NonSyntactic with hasDirectEval := true }
        {}).2.2 = {} :=
  (popupateExtraBindingsFields_direct_eval Env.sample
      (ScriptCompiler.sample
        { options := {}, maybeExtraBindings := some [{ nameChars := "y", isShadowed := false }] })
      { GlobalSharedContext.sample ScopeKind.NonSyntactic with hasDirectEval := true } {}
      [{ nameChars := "y", nameIndex := some 0, isShadowed := false }] ["y"] rfl rfl).1
    ⟨_, List.mem_singleton.2 rfl, rfl, fun ⟨_, h, _⟩ => by cases h⟩


/-! ### The output destinations -/

/-- A successful `InstantiateStencils` has populated `gcOutput`. -/
theorem InstantiateStencils_populates (env : Env) (input : CompilationInput)
    (stencil : CompilationState) (w : World)
    (h : (InstantiateStencils env input stencil w).1 = true) :
    (InstantiateStencils env input stencil w).2.1.isSome = true := by
  unfold InstantiateStencils at h ⊢
  cases hi : env.instantiateStencils input stencil with
  | none => simp [hi] at h
  | some gc =>
    simp only [hi] at h ⊢
    split <;> rfl

/-- On success `ConvertGlobalScriptStencilMaybeInstantiate` has written exactly
the destinations the caller supplied. -/
theorem Convert_outputs (env : Env) (hasCx : Bool) (input : CompilationInput)
    (extensibleStencil : CompilationState) (slots : OutSlots) (w : World)
    (out : Outputs) (w' : World)
    (h : ConvertGlobalScriptStencilMaybeInstantiate env hasCx input extensibleStencil slots w
      = Except.ok (true, out, w')) :
    out.initialStencil.isSome = slots.initialStencilOut ∧
      out.stencils.isSome = slots.stencilsOut ∧
      out.gcOutput.isSome = slots.gcOutput := by
  unfold ConvertGlobalScriptStencilMaybeInstantiate at h
  cases h1 : convertInitialStencil env input extensibleStencil slots with
  | none => simp [h1] at h
  | some p1 =>
    obtain ⟨initialStencil, out1⟩ := p1
    simp only [h1] at h
    have e1 : out1.initialStencil.isSome = slots.initialStencilOut ∧
        out1.stencils = none ∧ out1.gcOutput = none := by
      unfold convertInitialStencil at h1
      split at h1
      · split at h1
        · cases h1
        · split at h1
          · cases h1
          · cases h1
            cases slots.initialStencilOut <;> simp
      · rename_i hc
        cases h1
        simp only [Bool.or_eq_true, not_or, Bool.not_eq_true] at hc
        simp [hc.1.2]
    cases h2 : convertStencils env input initialStencil slots out1 with
    | none => simp [h2] at h
    | some p2 =>
      obtain ⟨stencils, out2⟩ := p2
      simp only [h2] at h
      have e2 : out2.initialStencil = out1.initialStencil ∧
          out2.stencils.isSome = slots.stencilsOut ∧ out2.gcOutput = out1.gcOutput := by
        unfold convertStencils at h2
        split at h2
        · cases h3 : CreateInitialStencilAndDelazifications env initialStencil with
          | none => simp [h3] at h2
          | some st =>
            simp only [h3, Option.some.injEq, Prod.mk.injEq] at h2
            obtain ⟨_, rfl⟩ := h2
            cases slots.stencilsOut <;> simp
        · rename_i hc
          cases h2
          simp only [Bool.or_eq_true, not_or, Bool.not_eq_true] at hc
          simp [hc.2, e1.2.1]
      cases hg : slots.gcOutput with
      | false =>
        simp only [hg, Bool.false_eq_true, if_false, Except.ok.injEq, Prod.mk.injEq,
          true_and] at h
        obtain ⟨rfl, _⟩ := h
        exact ⟨e2.1 ▸ e1.1, e2.2.1, by rw [e2.2.2, e1.2.2]; rfl⟩
      | true =>
        simp only [hg, if_true] at h
        split at h
        · cases h
        · cases stencils with
          | some st =>
            simp only [Except.ok.injEq, Prod.mk.injEq] at h
            obtain ⟨hr, rfl, _⟩ := h
            exact ⟨e2.1 ▸ e1.1, e2.2.1, InstantiateStencils_populates _ _ _ _ hr⟩
          | none =>
            simp only at h
            split at h
            · cases h
            · simp only [Except.ok.injEq, Prod.mk.injEq] at h
              obtain ⟨hr, rfl, _⟩ := h
              exact ⟨e2.1 ▸ e1.1, e2.2.1, InstantiateStencils_populates _ _ _ _ hr⟩

/-- On success `CompileGlobalScriptToStencilAndMaybeInstantiate` has written
exactly the destinations the caller supplied. -/
theorem Compile_outputs (env : Env) (hasCx : Bool) (input : CompilationInput)
    (srcBuf : SourceText) (scopeKind : ScopeKind)
    (maybeExtraBindings : Option ExtraBindingInfoVector) (slots : OutSlots) (w : World)
    (r : CompileOutcome)
    (h : CompileGlobalScriptToStencilAndMaybeInstantiate env hasCx input srcBuf scopeKind
      maybeExtraBindings slots w = Except.ok r)
    (hok : r.ok = true) :
    r.outputs.initialStencil.isSome = slots.initialStencilOut ∧
      r.outputs.stencils.isSome = slots.stencilsOut ∧
      r.outputs.gcOutput.isSome = slots.gcOutput := by
  unfold CompileGlobalScriptToStencilAndMaybeInstantiate at h
  split at h
  · cases h; cases hok
  · unfold compileGlobalGuarded at h
    simp only at h
    split at h
    · cases h; cases hok
    · split at h
      · cases h
      · rename_i compiled compiler1 w1 hcomp
        split at h
        · cases h; cases hok
        · split at h
          · cases h
          · rename_i converted out w2 hconv
            split at h
            · cases h; cases hok
            · rename_i hc
              cases h
              have hc1 : converted = true := by
                cases converted
                · exact absurd rfl hc
                · rfl
              subst hc1
              exact Convert_outputs _ _ _ _ _ _ _ _ hconv

/-- Each entry point of the file supplies one destination:
`CompileGlobalScriptToStencilWithInput` the initial stencil, both
`CompileGlobalScriptToStencilImpl` the stencils, `CompileGlobalScriptImpl` the
GC output. -/
theorem entry_point_slots_supply_one (slots : OutSlots)
    (h : slots ∈ [CompileGlobalScriptToStencilWithInput.slots,
      CompileGlobalScriptToStencilImpl.slots, CompileGlobalScriptImpl.slots]) :
    slots.initialStencilOut.toNat + slots.stencilsOut.toNat + slots.gcOutput.toNat = 1 := by
  simp only [List.mem_cons, List.mem_singleton, List.not_mem_nil, or_false] at h
  rcases h with rfl | rfl | rfl <;> rfl

/-- C10: for every successful call of
`CompileGlobalScriptToStencilAndMaybeInstantiate` with one of the destinations
`initialStencilOut`, `stencilsOut`, `gcOutput` supplied, as at every call site of
the file (the routine is static), exactly one of the three destinations is
populated, and it is the one supplied; the same holds of every successful call of
`ConvertGlobalScriptStencilMaybeInstantiate` with these destinations, in
particular of the one made inside it. -/
theorem exactly_one_destination (env : Env) (hasCx : Bool) (input : CompilationInput)
    (srcBuf : SourceText) (scopeKind : ScopeKind)
    (maybeExtraBindings : Option ExtraBindingInfoVector) (slots : OutSlots) (w : World)
    (r : CompileOutcome)
    (hone : slots.initialStencilOut.toNat + slots.stencilsOut.toNat + slots.gcOutput.toNat = 1)
    (h : CompileGlobalScriptToStencilAndMaybeInstantiate env hasCx input srcBuf scopeKind
      maybeExtraBindings slots w = Except.ok r)
    (hok : r.ok = true) :
    (r.outputs.initialStencil.isSome.toNat + r.outputs.stencils.isSome.toNat
        + r.outputs.gcOutput.isSome.toNat = 1 ∧
      r.outputs.initialStencil.isSome = slots.initialStencilOut ∧
      r.outputs.stencils.isSome = slots.stencilsOut ∧
      r.outputs.gcOutput.isSome = slots.gcOutput) ∧
    (∀ (input1 : CompilationInput) (extensibleStencil : CompilationState) (w1 w2 : World)
        (out : Outputs),
      ConvertGlobalScriptStencilMaybeInstantiate env hasCx input1 extensibleStencil slots w1
        = Except.ok (true, out, w2) →
      out.initialStencil.isSome.toNat + out.stencils.isSome.toNat
          + out.gcOutput.isSome.toNat = 1 ∧
        out.initialStencil.isSome = slots.initialStencilOut ∧
        out.stencils.isSome = slots.stencilsOut ∧
        out.gcOutput.isSome = slots.gcOutput) := by
  have hout := Compile_outputs env hasCx input srcBuf scopeKind maybeExtraBindings slots w r
    h hok
  refine ⟨⟨?_, hout⟩, ?_⟩
  · rw [hout.1, hout.2.1, hout.2.2]
    exact hone
  · intro input1 extensibleStencil w1 w2 out hc
    have hconv := Convert_outputs _ _ _ _ _ _ _ _ hc
    refine ⟨?_, hconv⟩
    rw [hconv.1, hconv.2.1, hconv.2.2]
    exact hone

/-- A successful `CompileGlobalScriptImpl`-style call on the sample collaborators,
which supplies `gcOutput` only, populates `gcOutput` and nothing else. -/
theorem exactly_one_destination_witness :
    CompileGlobalScriptImpl.slots.initialStencilOut.toNat
        + CompileGlobalScriptImpl.slots.stencilsOut.toNat
        + CompileGlobalScriptImpl.slots.gcOutput.toNat = 1 ∧
      (Outputs.mk none none (some { script := some 7 })).initialStencil.isSome.toNat
        + (Outputs.mk none none (some { script := some 7 })).stencils.isSome.toNat
        + (Outputs.mk none none (some { script := some 7 })).gcOutput.isSome.toNat = 1 ∧
      (Outputs.mk none none (some { script := some 7 })).gcOutput.isSome = true :=
  ⟨rfl,
    (exactly_one_destination Env.sample true { options := {} } [120] ScopeKind.Global
      none CompileGlobalScriptImpl.slots {}
      { ok := true, outputs := Outputs.mk none none (some { script := some 7 })
        extraBindings := none, assertException := some false
        world :=
          { trace := [Event.appendScriptStencilAndData 0, Event.globalBody, Event.emitterInit,
              Event.emitScript, Event.instantiateStencils, Event.tryCompressOffThread,
              Event.onNewScript] } }
      rfl rfl rfl).1.1,
    (exactly_one_destination Env.sample true { options := {} } [120] ScopeKind.Global
      none CompileGlobalScriptImpl.slots {}
      { ok := true, outputs := Outputs.mk none none (some { script := some 7 })
        extraBindings := none, assertException := some false
        world :=
          { trace := [Event.appendScriptStencilAndData 0, Event.globalBody, Event.emitterInit,
              Event.emitScript, Event.instantiateStencils, Event.tryCompressOffThread,
              Event.onNewScript] } }
      rfl rfl rfl).1.2.2.2⟩


/-! ### One compile, one compile event -/

/-- The extra-bindings step starts no compile. -/
theorem populateStep_no_compile (env : Env) (c : ScriptCompiler) (sc : SharedContext)
    (r : ParseResult) (w : World) :
    ∃ evs, (c.populateStep env sc r w).2.2.trace = w.trace ++ evs ∧
      ∀ e ∈ evs, e.isCompileGlobalScript = false := by
  unfold ScriptCompiler.populateStep
  cases sc with
  | eval e => exact ⟨[], by simp, by simp⟩
  | global g =>
    simp only
    split
    · exact ⟨[Event.popupateExtraBindingsFields], rfl, by simp [Event.isCompileGlobalScript]⟩
    · exact ⟨[], by simp, by simp⟩

/-- The emit step of `ScriptCompiler::compile` starts no compile. -/
theorem emitStep_no_compile (env : Env) (c : ScriptCompiler) (sc : SharedContext)
    (pn : ParseNode) (w : World) (b : Bool) (c' : ScriptCompiler) (w' : World)
    (h : c.emitStep env sc pn w = Except.ok (b, c', w')) :
    ∃ evs, w'.trace = w.trace ++ evs ∧ ∀ e ∈ evs, e.isCompileGlobalScript = false := by
  unfold ScriptCompiler.emitStep at h
  simp only at h
  generalize (if sc.selfHosted = true then EmitterMode.SelfHosting else EmitterMode.Normal)
    = mode at h
  split at h
  · cases h
    exact ⟨[Event.emitterInit], rfl, by simp [Event.isCompileGlobalScript]⟩
  · split at h
    · cases h
      exact ⟨[Event.emitterInit, Event.emitScript], by simp [World.log],
        by simp [Event.isCompileGlobalScript]⟩
    · split at h
      · cases h
      · cases h
        exact ⟨[Event.emitterInit, Event.emitScript], by simp [World.log],
          by simp [Event.isCompileGlobalScript]⟩

/-- Fact: `ScriptCompiler::compile` starts no compile of its own. -/
theorem compile_no_compile (env : Env) (c : ScriptCompiler) (sc : SharedContext)
    (w : World) (b : Bool) (c' : ScriptCompiler) (w' : World)
    (h : c.compile env sc w = Except.ok (b, c', w')) :
    ∃ evs, w'.trace = w.trace ++ evs ∧ ∀ e ∈ evs, e.isCompileGlobalScript = false := by
  have hpe : sc.parseEvent.isCompileGlobalScript = false := by
    cases sc <;> rfl
  unfold ScriptCompiler.compile at h
  split at h
  · cases h
  · simp only at h
    split at h
    · cases h
      exact ⟨[Event.appendScriptStencilAndData c.compilationState_.scriptData.length], rfl,
        by simp [Event.isCompileGlobalScript]⟩
    · rename_i st1 happ
      split at h
      · split at h
        · cases h
        · cases h
          refine ⟨[Event.appendScriptStencilAndData c.compilationState_.scriptData.length,
            sc.parseEvent], by simp [World.log], ?_⟩
          intro e he
          rcases List.mem_cons.1 he with rfl | he
          · rfl
          · rw [List.mem_singleton.1 he]
            exact hpe
      · rename_i pn hpn
        obtain ⟨evs1, he1, hall1⟩ := populateStep_no_compile env
          (ScriptCompiler.withParseResult { c with compilationState_ := st1 }
            (ScriptCompiler.parseBody env { c with compilationState_ := st1 } sc
              (w.log (Event.appendScriptStencilAndData
                c.compilationState_.scriptData.length)).fc))
          sc
          (ScriptCompiler.parseBody env { c with compilationState_ := st1 } sc
              (w.log (Event.appendScriptStencilAndData
                c.compilationState_.scriptData.length)).fc)
          { (((w.log (Event.appendScriptStencilAndData
                c.compilationState_.scriptData.length)).log sc.parseEvent)) with
            fc := (ScriptCompiler.parseBody env { c with compilationState_ := st1 } sc
              (w.log (Event.appendScriptStencilAndData
                c.compilationState_.scriptData.length)).fc).fc }
        split at h
        · cases h
          refine ⟨Event.appendScriptStencilAndData c.compilationState_.scriptData.length ::
            sc.parseEvent :: evs1, ?_, ?_⟩
          · rw [he1]
            simp [World.log]
          · intro e he
            rcases List.mem_cons.1 he with rfl | he
            · rfl
            · rcases List.mem_cons.1 he with rfl | he
              · exact hpe
              · exact hall1 e he
        · obtain ⟨evs2, he2, hall2⟩ := emitStep_no_compile _ _ _ _ _ _ _ _ h
          refine ⟨Event.appendScriptStencilAndData c.compilationState_.scriptData.length ::
            sc.parseEvent :: (evs1 ++ evs2), ?_, ?_⟩
          · rw [he2, he1]
            simp [World.log]
          · intro e he
            rcases List.mem_cons.1 he with rfl | he
            · rfl
            · rcases List.mem_cons.1 he with rfl | he
              · exact hpe
              · rcases List.mem_append.1 he with he | he
                · exact hall1 e he
                · exact hall2 e he

/-- Fact: `InstantiateStencils` starts no compile. -/
theorem InstantiateStencils_no_compile (env : Env) (input : CompilationInput)
    (stencil : CompilationState) (w : World) :
    ∃ evs, (InstantiateStencils env input stencil w).2.2.trace = w.trace ++ evs ∧
      ∀ e ∈ evs, e.isCompileGlobalScript = false := by
  unfold InstantiateStencils FireOnNewScript
  simp only
  split
  · exact ⟨[Event.instantiateStencils], rfl, by simp [Event.isCompileGlobalScript]⟩
  · split
    · exact ⟨[Event.instantiateStencils, Event.tryCompressOffThread], by simp [World.log],
        by simp [Event.isCompileGlobalScript]⟩
    · split
      · exact ⟨[Event.instantiateStencils, Event.tryCompressOffThread, Event.onNewScript],
          by simp [World.log], by simp [Event.isCompileGlobalScript]⟩
      · exact ⟨[Event.instantiateStencils, Event.tryCompressOffThread],
          by simp [World.log], by simp [Event.isCompileGlobalScript]⟩

/-- The off-thread delazification step starts no compile. -/
theorem convertDelazification_no_compile (hasCx : Bool) (input : CompilationInput)
    (w : World) :
    ∃ evs, (convertDelazification hasCx input w).trace = w.trace ++ evs ∧
      ∀ e ∈ evs, e.isCompileGlobalScript = false := by
  unfold convertDelazification
  split
  · simp only
    split
    · exact ⟨[Event.startOffThreadDelazification, Event.waitForAllDelazifyTasks],
        by simp [World.log], by simp [Event.isCompileGlobalScript]⟩
    · exact ⟨[Event.startOffThreadDelazification], rfl, by simp [Event.isCompileGlobalScript]⟩
  · exact ⟨[], by simp, by simp⟩

/-- Fact: `ConvertGlobalScriptStencilMaybeInstantiate` starts no compile. -/
theorem Convert_no_compile (env : Env) (hasCx : Bool) (input : CompilationInput)
    (extensibleStencil : CompilationState) (slots : OutSlots) (w : World)
    (b : Bool) (out : Outputs) (w' : World)
    (h : ConvertGlobalScriptStencilMaybeInstantiate env hasCx input extensibleStencil slots w
      = Except.ok (b, out, w')) :
    ∃ evs, w'.trace = w.trace ++ evs ∧ ∀ e ∈ evs, e.isCompileGlobalScript = false := by
  obtain ⟨evs1, he1, hall1⟩ := convertDelazification_no_compile hasCx input w
  have hinst : ∀ st, ∃ evs,
      (InstantiateStencils env input st (convertDelazification hasCx input w)).2.2.trace
        = w.trace ++ evs ∧ ∀ e ∈ evs, e.isCompileGlobalScript = false := by
    intro st
    obtain ⟨evs2, he2, hall2⟩ := InstantiateStencils_no_compile env input st
      (convertDelazification hasCx input w)
    refine ⟨evs1 ++ evs2, ?_, ?_⟩
    · rw [he2, he1, List.append_assoc]
    · intro e he
      rcases List.mem_append.1 he with he | he
      · exact hall1 e he
      · exact hall2 e he
  unfold ConvertGlobalScriptStencilMaybeInstantiate at h
  split at h
  · cases h
    exact ⟨[], by simp, by simp⟩
  · split at h
    · cases h
      exact ⟨[], by simp, by simp⟩
    · simp only at h
      split at h
      · split at h
        · cases h
        · split at h
          · cases h
            exact hinst _
          · split at h
            · cases h
            · cases h
              exact hinst _
      · cases h
        exact ⟨evs1, he1, hall1⟩

/-- Fact: `CompileGlobalScriptToStencilAndMaybeInstantiate` starts no further compile. -/
theorem Compile_no_compile (env : Env) (hasCx : Bool) (input : CompilationInput)
    (srcBuf : SourceText) (scopeKind : ScopeKind)
    (maybeExtraBindings : Option ExtraBindingInfoVector) (slots : OutSlots) (w : World)
    (r : CompileOutcome)
    (h : CompileGlobalScriptToStencilAndMaybeInstantiate env hasCx input srcBuf scopeKind
      maybeExtraBindings slots w = Except.ok r) :
    ∃ evs, r.world.trace = w.trace ++ evs ∧ ∀ e ∈ evs, e.isCompileGlobalScript = false := by
  unfold CompileGlobalScriptToStencilAndMaybeInstantiate at h
  split at h
  · cases h
    exact ⟨[], by simp, by simp⟩
  · unfold compileGlobalGuarded at h
    simp only at h
    split at h
    · cases h
      exact ⟨[], by simp, by simp⟩
    · split at h
      · cases h
      · rename_i compiled compiler1 w1 hcomp
        obtain ⟨evs1, he1, hall1⟩ := compile_no_compile _ _ _ _ _ _ _ hcomp
        split at h
        · cases h
          exact ⟨evs1, he1, hall1⟩
        · split at h
          · cases h
          · rename_i converted out w2 hconv
            obtain ⟨evs2, he2, hall2⟩ := Convert_no_compile _ _ _ _ _ _ _ _ _ hconv
            have hboth : ∃ evs, w2.trace = w.trace ++ evs ∧
                ∀ e ∈ evs, e.isCompileGlobalScript = false := by
              refine ⟨evs1 ++ evs2, ?_, ?_⟩
              · rw [he2, he1, List.append_assoc]
              · intro e he
                rcases List.mem_append.1 he with he | he
                · exact hall1 e he
                · exact hall2 e he
            split at h
            · cases h
              exact hboth
            · cases h
              exact hboth

/-- A call of `CompileGlobalScriptImpl` is one compile: the events it adds to the
trace hold exactly one start of a global-script compile. -/
theorem CompileGlobalScriptImpl_one_compile (env : Env) (options : CompileOptions)
    (srcBuf : SourceText) (scopeKind : ScopeKind)
    (maybeExtraBindings : Option ExtraBindingInfoVector) (w : World)
    (script : Option JSScript) (extraBindings1 : Option ExtraBindingInfoVector) (w' : World)
    (h : CompileGlobalScriptImpl env options srcBuf scopeKind maybeExtraBindings w
      = Except.ok (script, extraBindings1, w')) :
    (w'.trace.drop w.trace.length).countP Event.isCompileGlobalScript = 1 := by
  unfold CompileGlobalScriptImpl at h
  split at h
  · cases h
  · rename_i r hr
    obtain ⟨evs, he, hall⟩ := Compile_no_compile _ _ _ _ _ _ _ _ _ hr
    have hw : w' = r.world := by
      split at h
      · cases h; rfl
      · cases h; rfl
    rw [hw, he]
    simp only [World.log, List.append_assoc, List.drop_left, List.singleton_append,
      List.countP_cons, Event.isCompileGlobalScript, if_true]
    have h0 : List.countP Event.isCompileGlobalScript evs = 0 := by
      rw [List.countP_eq_zero]
      intro e he'
      simp [hall e he']
    rw [h0]

/-! ### The extra-bindings fallback -/

/-- What `CompileGlobalScriptWithExtraBindings` does once the binding vector is
built and the non-syntactic compile has returned no script: it goes on with the
fallback when the frontend context says the bindings are not used, and returns
null at once otherwise. -/
theorem CompileGlobalScriptWithExtraBindings_of_failure (env : Env)
    (options : CompileOptions) (srcBuf : SourceText) (keys : List PropertyKey)
    (values : List Value) (w w1 w2 : World) (extraBindings : ExtraBindingInfoVector)
    (extraBindings1 : Option ExtraBindingInfoVector)
    (hvec : CreateExtraBindingInfoVector env keys values w
      = Except.ok (some extraBindings, w1))
    (hfail : CompileGlobalScriptImpl env options srcBuf ScopeKind.NonSyntactic
      (some extraBindings) w1 = Except.ok (none, extraBindings1, w2)) :
    CompileGlobalScriptWithExtraBindings env options srcBuf keys values w =
      if w2.fc.extraBindingsAreNotUsed then compileWithoutExtraBindings env options srcBuf w2
      else Except.ok { script := none, env := none, world := w2 } := by
  unfold CompileGlobalScriptWithExtraBindings
  rw [hvec]
  simp only [hfail]

/-- The fallback, when no other error is pending: the flag and the warnings are
cleared, and the outcome is that of `CompileGlobalScript` with `ScopeKind::Global`
and the copied options, with `env` set to the global lexical environment. -/
theorem compileWithoutExtraBindings_eq (env : Env) (options : CompileOptions)
    (srcBuf : SourceText) (w : World)
    (herr : w.fc.hadErrors = false) (hexc : w.exceptionPending = false) :
    compileWithoutExtraBindings env options srcBuf w =
      match CompileGlobalScript env (copiedOptions options) srcBuf ScopeKind.Global
          { w with fc := { w.fc with extraBindingsAreNotUsed := false, warnings := [] } } with
      | Except.error e => Except.error e
      | Except.ok r =>
        Except.ok { script := r.1, env := some Environment.globalLexical, world := r.2 } := by
  unfold compileWithoutExtraBindings
  simp only [FrontendContext.clearWarnings, FrontendContext.clearNoExtraBindingReferencesFound,
    herr, hexc, Bool.false_eq_true, if_false]

/-- Fact: `CreateExtraBindingInfoVector` adds nothing to the trace. -/
theorem CreateExtraBindingInfoVector_trace (env : Env) (keys : List PropertyKey)
    (values : List Value) (w w1 : World) (r : Option ExtraBindingInfoVector)
    (h : CreateExtraBindingInfoVector env keys values w = Except.ok (r, w1)) :
    w1.trace = w.trace := by
  unfold CreateExtraBindingInfoVector at h
  split at h
  · cases h
  · split at h
    · cases h
      rfl
    · simp only [Except.ok.injEq, Prod.mk.injEq] at h
      obtain ⟨_, rfl⟩ := h
      split <;> rfl

/-- C6: when the non-syntactic compile of `CompileGlobalScriptWithExtraBindings`
yields no script: if the frontend context reports extra-bindings-unused (and, as
the code asserts, no other error is pending), the second compile is
`CompileGlobalScript` on the same source with `ScopeKind::Global` and the
non-syntactic-scope option cleared, run on a frontend context whose unused flag
and warnings have been cleared, its script is returned and `env` is the global
lexical environment; if the flag is not set the function returns null with
`env` unset and the world exactly as the first compile left it, and the whole
call has started exactly one global-script compile. -/
theorem extraBindings_fallback (env : Env) (options : CompileOptions) (srcBuf : SourceText)
    (keys : List PropertyKey) (values : List Value) (w w1 w2 : World)
    (extraBindings : ExtraBindingInfoVector)
    (extraBindings1 : Option ExtraBindingInfoVector)
    (hvec : CreateExtraBindingInfoVector env keys values w
      = Except.ok (some extraBindings, w1))
    (hfail : CompileGlobalScriptImpl env options srcBuf ScopeKind.NonSyntactic
      (some extraBindings) w1 = Except.ok (none, extraBindings1, w2)) :
    (w2.fc.extraBindingsAreNotUsed = true → w2.fc.hadErrors = false →
        w2.exceptionPending = false →
      (copiedOptions options).nonSyntacticScope = false ∧
      (∀ r, CompileGlobalScript env (copiedOptions options) srcBuf ScopeKind.Global
            { w2 with fc := { w2.fc with extraBindingsAreNotUsed := false, warnings := [] } }
          = Except.ok r →
        CompileGlobalScriptWithExtraBindings env options srcBuf keys values w
          = Except.ok { script := r.1, env := some Environment.globalLexical, world := r.2 }) ∧
      (∀ e, CompileGlobalScript env (copiedOptions options) srcBuf ScopeKind.Global
            { w2 with fc := { w2.fc with extraBindingsAreNotUsed := false, warnings := [] } }
          = Except.error e →
        CompileGlobalScriptWithExtraBindings env options srcBuf keys values w
          = Except.error e)) ∧
    (w2.fc.extraBindingsAreNotUsed = false →
      CompileGlobalScriptWithExtraBindings env options srcBuf keys values w
        = Except.ok { script := none, env := none, world := w2 } ∧
      (w2.trace.drop w.trace.length).countP Event.isCompileGlobalScript = 1) := by
  have hmain := CompileGlobalScriptWithExtraBindings_of_failure env options srcBuf keys values
    w w1 w2 extraBindings extraBindings1 hvec hfail
  constructor
  · intro hflag herr hexc
    rw [hmain, hflag, if_pos rfl, compileWithoutExtraBindings_eq env options srcBuf w2 herr hexc]
    refine ⟨rfl, ?_, ?_⟩
    · intro r hr
      rw [hr]
    · intro e he
      rw [he]
  · intro hflag
    constructor
    · rw [hmain, hflag]
      rfl
    · rw [← CreateExtraBindingInfoVector_trace env keys values w w1 _ hvec]
      exact CompileGlobalScriptImpl_one_compile _ _ _ _ _ _ _ _ _ hfail


/-- One binding `x` that the script never mentions: the non-syntactic compile
reports the bindings unused, and the script of the plain global compile comes
back with the global lexical environment. -/
theorem extraBindings_fallback_witness :
    CompileGlobalScriptWithExtraBindings Env.sample { nonSyntacticScope := true } [120]
        [PropertyKey.string "x"] [1] {} =
      Except.ok
        { script := some 7
          env := some Environment.globalLexical
          world :=
            { trace :=
                [Event.compileGlobalScript ScopeKind.NonSyntactic true true,
                  Event.appendScriptStencilAndData 0, Event.globalBody,
                  Event.popupateExtraBindingsFields,
                  Event.compileGlobalScript ScopeKind.Global false false,
                  Event.appendScriptStencilAndData 0, Event.globalBody, Event.emitterInit,
                  Event.emitScript, Event.instantiateStencils, Event.tryCompressOffThread,
                  Event.onNewScript] } } :=
  ((extraBindings_fallback Env.sample { nonSyntacticScope := true } [120]
      [PropertyKey.string "x"] [1] {} {}
      { fc := { extraBindingsAreNotUsed := true }
        trace :=
          [Event.compileGlobalScript ScopeKind.NonSyntactic true true,
            Event.appendScriptStencilAndData 0, Event.globalBody,
            Event.popupateExtraBindingsFields] }
      [{ nameChars := "x", isShadowed := false }]
      (some [{ nameChars := "x", nameIndex := some 0, isShadowed := false }])
      rfl rfl).1 rfl rfl rfl).2.1
    (some 7,
      { trace :=
          [Event.compileGlobalScript ScopeKind.NonSyntactic true true,
            Event.appendScriptStencilAndData 0, Event.globalBody,
            Event.popupateExtraBindingsFields,
            Event.compileGlobalScript ScopeKind.Global false false,
            Event.appendScriptStencilAndData 0, Event.globalBody, Event.emitterInit,
            Event.emitScript, Event.instantiateStencils, Event.tryCompressOffThread,
            Event.onNewScript] })
    rfl


/-! ### Bindings that are all shadowed by the global object -/

/-- When every key is a string that encodes and is found on the global object,
the loop of `CreateExtraBindingInfoVector` yields one shadowed entry per key. -/
theorem createExtraBindingInfoLoop_global (env : Env) (keys : List PropertyKey)
    (hkeys : ∀ k ∈ keys, ∃ str, k = PropertyKey.string str ∧
      (env.encodeStringToUTF8 str).isSome = true ∧ env.globalHasProperty k = some true) :
    ∃ infos, createExtraBindingInfoLoop env keys = (some infos, false) ∧
      infos.length = keys.length ∧ ∀ b ∈ infos, b.isShadowed = true := by
  induction keys with
  | nil => exact ⟨[], rfl, rfl, fun b hb => absurd hb (List.not_mem_nil _)⟩
  | cons k rest ih =>
    obtain ⟨str, rfl, henc, hglob⟩ := hkeys k (List.mem_cons_self _ _)
    obtain ⟨infos, hloop, hlen, hall⟩ :=
      ih (fun k hk => hkeys k (List.mem_cons_of_mem _ hk))
    obtain ⟨utf8, hutf8⟩ := Option.isSome_iff_exists.1 henc
    refine ⟨{ nameChars := utf8, isShadowed := true } :: infos, ?_, ?_, ?_⟩
    · simp only [createExtraBindingInfoLoop, hutf8, hglob, hloop, if_true]
    · simp [hlen]
    · intro b hb
      rcases List.mem_cons.1 hb with rfl | hb
      · rfl
      · exact hall b hb

/-- Interning succeeds when no interning fails, and it keeps the shadowing
flags. -/
theorem internExtraBindings_ok (env : Env) (hintern : ∀ name, env.internOk name = true)
    (l : ExtraBindingInfoVector) (atoms : List String) :
    ∃ l' atoms', internExtraBindings env l atoms = some (l', atoms') ∧
      (∀ b ∈ l', ∃ b0 ∈ l, b.isShadowed = b0.isShadowed) := by
  induction l generalizing atoms with
  | nil => exact ⟨[], atoms, rfl, fun b hb => absurd hb (List.not_mem_nil _)⟩
  | cons b rest ih =>
    obtain ⟨rest1, atoms2, hrest, hflags⟩ :=
      ih (if b.nameChars ∈ atoms then atoms else atoms ++ [b.nameChars])
    refine ⟨{ b with nameIndex := some (atoms.indexOf b.nameChars) } :: rest1, atoms2, ?_, ?_⟩
    · simp only [internExtraBindings, internUtf8, hintern, if_true, hrest]
    · intro x hx
      rcases List.mem_cons.1 hx with rfl | hx
      · exact ⟨b, List.mem_cons_self _ _, rfl⟩
      · obtain ⟨b0, hb0, hb⟩ := hflags x hx
        exact ⟨b0, List.mem_cons_of_mem _ hb0, hb⟩

/-- With every binding shadowed before the parse, the extra-bindings step of a
global compile fails and reports the bindings unused. -/
theorem populateStep_all_shadowed (env : Env) (hintern : ∀ name, env.internOk name = true)
    (infos : ExtraBindingInfoVector) (hall : ∀ b ∈ infos, b.isShadowed = true)
    (c : ScriptCompiler) (globalsc : GlobalSharedContext) (r : ParseResult) (w : World)
    (hinput : c.compilationState_.input.maybeExtraBindings = some infos) :
    c.populateStep env (SharedContext.global globalsc) r w =
      (false, (c.populateStep env (SharedContext.global globalsc) r w).2.1,
        { fc := w.fc.reportExtraBindingsAreNotUsed
          exceptionPending := w.exceptionPending
          trace := w.trace ++ [Event.popupateExtraBindingsFields] }) := by
  obtain ⟨interned, atoms, hint, hflags⟩ :=
    internExtraBindings_ok env hintern c.compilationState_.input.extraBindings
      c.compilationState_.parserAtoms
  have hres := popupateExtraBindingsFields_result env c
    { globalsc with bindings := r.bindings, hasDirectEval := r.hasDirectEval } w.fc
    interned atoms hint
  have hany : interned.any (fun b => !b.isShadowed &&
      !declaredInGlobalScope r.bindings b) = false := by
    rw [List.any_eq_false]
    intro b hb
    obtain ⟨b0, hb0, hb⟩ := hflags b hb
    have hb0' : b0 ∈ infos := by
      simpa [CompilationInput.extraBindings, hinput] using hb0
    simp [hb, hall b0 hb0']
  simp only [hany, Bool.not_false, if_true] at hres
  have h1 := congrArg Prod.fst hres
  have h2 := congrArg Prod.snd hres
  simp only at h1 h2
  unfold ScriptCompiler.populateStep
  simp only [CompilationInput.hasExtraBindings, hinput, Option.isSome_some, if_true, h1, h2,
    World.log]

/-- A global compile on a fresh state whose bindings are all shadowed before the
parse: when the parser yields a node, `compile` fails in the extra-bindings step
with the bindings reported unused, after the append, one parser call and the
population. -/
theorem compile_all_shadowed (env : Env) (hintern : ∀ name, env.internOk name = true)
    (happend : ∀ st, env.appendScriptStencilAndDataOk st = true)
    (c : ScriptCompiler) (globalsc : GlobalSharedContext) (w : World)
    (infos : ExtraBindingInfoVector)
    (hparse : ∀ sc st ts fc, (env.globalBody c.sourceBuffer_ sc st ts fc).node ≠ none ∧
      (fc.hadErrors = false →
        (env.globalBody c.sourceBuffer_ sc st ts fc).fc.hadErrors = false))
    (hfresh : c.compilationState_.scriptData = [])
    (hinput : c.compilationState_.input.maybeExtraBindings = some infos)
    (hall : ∀ b ∈ infos, b.isShadowed = true) :
    ∃ c' w', c.compile env (SharedContext.global globalsc) w = Except.ok (false, c', w') ∧
      w'.fc.extraBindingsAreNotUsed = true ∧
      (w.fc.hadErrors = false → w'.fc.hadErrors = false) ∧
      w'.exceptionPending = w.exceptionPending ∧
      w'.trace = w.trace ++ [Event.appendScriptStencilAndData 0, Event.globalBody,
        Event.popupateExtraBindingsFields] := by
  obtain ⟨pn, hpn⟩ := Option.ne_none_iff_exists'.1
    (hparse globalsc
      { c.compilationState_ with
        scriptData := [{}], scriptExtra := c.compilationState_.scriptExtra ++ [{}] }
      c.tokenStream w.fc).1
  unfold ScriptCompiler.compile
  simp only [hfresh, List.length_nil, TopLevelIndex, ne_eq, not_true_eq_false, if_false,
    CompilationState.appendScriptStencilAndData, happend, if_true, List.nil_append,
    ScriptCompiler.parseBody, World.log, SharedContext.parseEvent, hpn]
  rw [populateStep_all_shadowed env hintern infos hall]
  · simp only [Bool.not_false, if_true, List.append_assoc, List.singleton_append]
    exact ⟨_, _, rfl, rfl, fun hw => (hparse _ _ _ _).2 hw, rfl, rfl⟩
  · exact hinput

/-- The non-syntactic compile with bindings that are all shadowed: when the
collaborators succeed and the parser yields a node, `CompileGlobalScriptImpl`
returns no script and leaves the bindings reported unused. -/
theorem CompileGlobalScriptImpl_all_shadowed (env : Env) (options : CompileOptions)
    (srcBuf : SourceText) (infos : ExtraBindingInfoVector) (w : World)
    (hself : options.selfHostingMode = false)
    (hall : ∀ b ∈ infos, b.isShadowed = true)
    (hinitInput : env.initInputOk InputTarget.globalWithExtraBindings = true)
    (hinit : ∀ input, input.options = options →
      (ScriptCompiler.create env input srcBuf).init env = true)
    (happend : ∀ st, env.appendScriptStencilAndDataOk st = true)
    (hintern : ∀ name, env.internOk name = true)
    (hparse : ∀ sc st ts fc, (env.globalBody srcBuf sc st ts fc).node ≠ none ∧
      (fc.hadErrors = false → (env.globalBody srcBuf sc st ts fc).fc.hadErrors = false)) :
    ∃ extraBindings1 w2,
      CompileGlobalScriptImpl env options srcBuf ScopeKind.NonSyntactic (some infos) w
        = Except.ok (none, extraBindings1, w2) ∧
      w2.fc.extraBindingsAreNotUsed = true ∧
      (w.fc.hadErrors = false → w2.fc.hadErrors = false) ∧
      w2.exceptionPending = w.exceptionPending := by
  have htarget : globalInputTarget options (some infos)
      = InputTarget.globalWithExtraBindings := by
    simp [globalInputTarget, hself]
  have hcomp2 := compile_all_shadowed env hintern happend
    (ScriptCompiler.create env (initGlobalInput { options := options } (some infos)) srcBuf)
    (makeGlobalSharedContext env
      (ScriptCompiler.create env (initGlobalInput { options := options } (some infos)) srcBuf)
      srcBuf ScopeKind.NonSyntactic)
    (w.log (Event.compileGlobalScript ScopeKind.NonSyntactic options.nonSyntacticScope true))
    infos hparse rfl (by simp [ScriptCompiler.create, initGlobalInput, htarget]) hall
  obtain ⟨c', w', hc', h1, h2, h3, _⟩ := hcomp2
  refine ⟨extraBindingsAfter { options := options } (some infos) c', w', ?_, h1, h2, h3⟩
  have hinit' := hinit (initGlobalInput { options := options } (some infos)) rfl
  unfold CompileGlobalScriptImpl CompileGlobalScriptToStencilAndMaybeInstantiate
    compileGlobalGuarded
  simp only [htarget, hinitInput, Bool.not_true, Bool.false_eq_true, if_false,
    hinit', Option.isSome_some, hc', Bool.not_false, if_true]

/-- C5: for a source that parses as a global script and string binding keys that
are all properties of the global object (with the collaborators succeeding, the
options not self-hosting, and no error pending at entry),
`CompileGlobalScriptWithExtraBindings` builds a vector of shadowed bindings, its
non-syntactic compile reports the bindings unused, and the function returns what
`CompileGlobalScript` returns for the same source with `ScopeKind::Global` and
the non-syntactic-scope option cleared, with `env` set to the global lexical
environment, not to an extra-bindings environment object. -/
theorem extraBindings_all_shadowed (env : Env) (options : CompileOptions)
    (srcBuf : SourceText) (keys : List PropertyKey) (values : List Value) (w : World)
    (hlen : keys.length = values.length)
    (hkeys : ∀ k ∈ keys, ∃ str, k = PropertyKey.string str ∧
      (env.encodeStringToUTF8 str).isSome = true ∧ env.globalHasProperty k = some true)
    (hself : options.selfHostingMode = false)
    (hreserve : env.reserveOk keys.length = true)
    (hinitInput : env.initInputOk InputTarget.globalWithExtraBindings = true)
    (hinit : ∀ input, input.options = options →
      (ScriptCompiler.create env input srcBuf).init env = true)
    (happend : ∀ st, env.appendScriptStencilAndDataOk st = true)
    (hintern : ∀ name, env.internOk name = true)
    (hparse : ∀ sc st ts fc, (env.globalBody srcBuf sc st ts fc).node ≠ none ∧
      (fc.hadErrors = false → (env.globalBody srcBuf sc st ts fc).fc.hadErrors = false))
    (herr : w.fc.hadErrors = false) (hexc : w.exceptionPending = false) :
    ∃ infos extraBindings1 w2,
      CreateExtraBindingInfoVector env keys values w = Except.ok (some infos, w) ∧
      infos.length = keys.length ∧
      (∀ b ∈ infos, b.isShadowed = true) ∧
      CompileGlobalScriptImpl env options srcBuf ScopeKind.NonSyntactic (some infos) w
        = Except.ok (none, extraBindings1, w2) ∧
      w2.fc.extraBindingsAreNotUsed = true ∧
      (copiedOptions options).nonSyntacticScope = false ∧
      (∀ r, CompileGlobalScript env (copiedOptions options) srcBuf ScopeKind.Global
            { w2 with fc := { w2.fc with extraBindingsAreNotUsed := false, warnings := [] } }
          = Except.ok r →
        CompileGlobalScriptWithExtraBindings env options srcBuf keys values w
          = Except.ok { script := r.1, env := some Environment.globalLexical, world := r.2 }) ∧
      (∀ e, CompileGlobalScript env (copiedOptions options) srcBuf ScopeKind.Global
            { w2 with fc := { w2.fc with extraBindingsAreNotUsed := false, warnings := [] } }
          = Except.error e →
        CompileGlobalScriptWithExtraBindings env options srcBuf keys values w
          = Except.error e) := by
  obtain ⟨infos, hloop, hlen', hall⟩ := createExtraBindingInfoLoop_global env keys hkeys
  have hvec : CreateExtraBindingInfoVector env keys values w = Except.ok (some infos, w) := by
    unfold CreateExtraBindingInfoVector
    rw [if_neg (fun hne => hne hlen)]
    simp only [hreserve, Bool.not_true, Bool.false_eq_true, if_false, hloop]
  obtain ⟨extraBindings1, w2, hfail, hflag, herr2, hexc2⟩ :=
    CompileGlobalScriptImpl_all_shadowed env options srcBuf infos w hself hall hinitInput
      hinit happend hintern hparse
  have hmain := CompileGlobalScriptWithExtraBindings_of_failure env options srcBuf keys values
    w w w2 infos extraBindings1 hvec hfail
  rw [hflag, if_pos rfl,
    compileWithoutExtraBindings_eq env options srcBuf w2 (herr2 herr) (hexc2.trans hexc)]
    at hmain
  refine ⟨infos, extraBindings1, w2, hvec, hlen', hall, hfail, hflag, rfl, ?_, ?_⟩
  · intro r hr
    rw [hmain, hr]
  · intro e he
    rw [hmain, he]


/-- Scenario D of the spec: the binding `x` with a global that already defines
`x`; the fallback script comes back with the global lexical environment. -/
theorem extraBindings_all_shadowed_witness :
    CompileGlobalScriptWithExtraBindings Env.shadowing { nonSyntacticScope := true } [120]
        [PropertyKey.string "x"] [1] {} =
      Except.ok
        { script := some 7
          env := some Environment.globalLexical
          world :=
            { trace :=
                [Event.compileGlobalScript ScopeKind.NonSyntactic true true,
                  Event.appendScriptStencilAndData 0, Event.globalBody,
                  Event.popupateExtraBindingsFields,
                  Event.compileGlobalScript ScopeKind.Global false false,
                  Event.appendScriptStencilAndData 0, Event.globalBody, Event.emitterInit,
                  Event.emitScript, Event.instantiateStencils, Event.tryCompressOffThread,
                  Event.onNewScript] } } := by
  obtain ⟨infos, extraBindings1, w2, hvec, _, _, hfail, _, _, hok, _⟩ :=
    extraBindings_all_shadowed Env.shadowing { nonSyntacticScope := true } [120]
      [PropertyKey.string "x"] [1] {} rfl
      (fun k hk => ⟨"x", List.mem_singleton.1 hk, rfl, rfl⟩)
      rfl rfl rfl (fun _ _ => rfl) (fun _ => rfl) (fun _ => rfl)
      (fun _ _ _ _ => ⟨fun h => Option.noConfusion h, id⟩) rfl rfl
  have e1 : (Except.ok (some [{ nameChars := "x", isShadowed := true }], {}) :
      Except Abort (Option ExtraBindingInfoVector × World)) = Except.ok (some infos, {}) := hvec
  cases e1
  have e2 : (Except.ok (none,
      some [{ nameChars := "x", nameIndex := some 0, isShadowed := true }],
      { fc := { extraBindingsAreNotUsed := true }
        trace :=
          [Event.compileGlobalScript ScopeKind.NonSyntactic true true,
            Event.appendScriptStencilAndData 0, Event.globalBody,
            Event.popupateExtraBindingsFields] }) :
      Except Abort (Option JSScript × Option ExtraBindingInfoVector × World))
      = Except.ok (none, extraBindings1, w2) := hfail
  cases e2
  exact hok (some 7, _) rfl


/-! ### The top-level record -/

/-- The extra-bindings step only adds events to the trace. -/
theorem populateStep_trace (env : Env) (c : ScriptCompiler) (sc : SharedContext)
    (r : ParseResult) (w : World) :
    ∃ evs, (c.populateStep env sc r w).2.2.trace = w.trace ++ evs := by
  unfold ScriptCompiler.populateStep
  cases sc with
  | eval e => exact ⟨[], by simp⟩
  | global g =>
    simp only
    split
    · exact ⟨[Event.popupateExtraBindingsFields], rfl⟩
    · exact ⟨[], by simp⟩

/-- The emit step of `ScriptCompiler::compile` only adds events to the trace. -/
theorem ScriptCompiler_emitStep_trace (env : Env) (c : ScriptCompiler) (sc : SharedContext)
    (pn : ParseNode) (w : World) (b : Bool) (c' : ScriptCompiler) (w' : World)
    (h : c.emitStep env sc pn w = Except.ok (b, c', w')) :
    ∃ evs, w'.trace = w.trace ++ evs := by
  unfold ScriptCompiler.emitStep at h
  simp only at h
  generalize (if sc.selfHosted = true then EmitterMode.SelfHosting else EmitterMode.Normal)
    = mode at h
  split at h
  · cases h
    exact ⟨[Event.emitterInit], rfl⟩
  · split at h
    · cases h
      exact ⟨[Event.emitterInit, Event.emitScript], by simp [World.log]⟩
    · split at h
      · cases h
      · cases h
        exact ⟨[Event.emitterInit, Event.emitScript], by simp [World.log]⟩

/-- A successful `ScriptCompiler::compile` started with no script record, put the
top-level record at index `TopLevelIndex`, and did so before calling the parser. -/
theorem ScriptCompiler_compile_top_level (env : Env) (c : ScriptCompiler)
    (sc : SharedContext) (w : World) (c' : ScriptCompiler) (w' : World)
    (h : c.compile env sc w = Except.ok (true, c', w')) :
    c.compilationState_.scriptData.length = TopLevelIndex ∧
    (∃ st1, c.compilationState_.appendScriptStencilAndData env = some st1 ∧
      st1.scriptData = [{}]) ∧
    ∃ rest, w'.trace = w.trace ++
      Event.appendScriptStencilAndData TopLevelIndex :: sc.parseEvent :: rest := by
  unfold ScriptCompiler.compile at h
  split at h
  · cases h
  · rename_i hlen
    have hlen' : c.compilationState_.scriptData.length = TopLevelIndex := by
      by_contra hne
      exact hlen hne
    have hnil : c.compilationState_.scriptData = [] := by
      apply List.eq_nil_of_length_eq_zero
      simpa [TopLevelIndex] using hlen'
    simp only at h
    split at h
    · cases h
    · rename_i st1 happ
      refine ⟨hlen', ⟨st1, happ, ?_⟩, ?_⟩
      · unfold CompilationState.appendScriptStencilAndData at happ
        split at happ
        · cases happ
          simp [hnil]
        · cases happ
      · split at h
        · split at h
          · cases h
          · cases h
        · rename_i pn hpn
          split at h
          · cases h
          · obtain ⟨evs1, he1⟩ := populateStep_trace env
              (ScriptCompiler.withParseResult { c with compilationState_ := st1 }
                (ScriptCompiler.parseBody env { c with compilationState_ := st1 } sc
                  (w.log (Event.appendScriptStencilAndData
                    c.compilationState_.scriptData.length)).fc))
              sc
              (ScriptCompiler.parseBody env { c with compilationState_ := st1 } sc
                  (w.log (Event.appendScriptStencilAndData
                    c.compilationState_.scriptData.length)).fc)
              { (((w.log (Event.appendScriptStencilAndData
                    c.compilationState_.scriptData.length)).log sc.parseEvent)) with
                fc := (ScriptCompiler.parseBody env { c with compilationState_ := st1 } sc
                  (w.log (Event.appendScriptStencilAndData
                    c.compilationState_.scriptData.length)).fc).fc }
            obtain ⟨evs2, he2⟩ := ScriptCompiler_emitStep_trace _ _ _ _ _ _ _ _ h
            refine ⟨evs1 ++ evs2, ?_⟩
            rw [he2, he1]
            simp [World.log, hlen']


/-- The emit half of `ModuleCompiler::compile` only adds events to the trace. -/
theorem ModuleCompiler_emitStep_trace (env : Env) (c : ModuleCompiler) (pn : ParseNode)
    (w : World) (b : Bool) (c' : ModuleCompiler) (w' : World)
    (h : c.emitStep env pn w = Except.ok (b, c', w')) :
    ∃ evs, w'.trace = w.trace ++ evs := by
  unfold ModuleCompiler.emitStep at h
  simp only at h
  generalize (if c.compilationState_.input.options.selfHostingMode = true then
    EmitterMode.SelfHosting else EmitterMode.Normal) = mode at h
  split at h
  · cases h
    exact ⟨[Event.emitterInit], rfl⟩
  · split at h
    · cases h
      exact ⟨[Event.emitterInit, Event.emitScript], by simp [World.log]⟩
    · split at h
      · cases h
      · cases h
        exact ⟨[Event.emitterInit, Event.emitScript, Event.finishFunctionDecls],
          by simp [World.log]⟩

/-- A successful `ModuleCompiler::compile` started with no script record, put the
top-level record at index `TopLevelIndex`, and did so before calling the parser. -/
theorem ModuleCompiler_compile_top_level (env : Env) (c : ModuleCompiler) (w : World)
    (c' : ModuleCompiler) (w' : World)
    (h : c.compile env w = Except.ok (true, c', w')) :
    c.compilationState_.scriptData.length = TopLevelIndex ∧
    (∃ st1, c.compilationState_.appendScriptStencilAndData env = some st1 ∧
      st1.scriptData = [{}]) ∧
    ∃ rest, w'.trace = w.trace ++
      Event.appendScriptStencilAndData TopLevelIndex :: Event.moduleBody :: rest := by
  unfold ModuleCompiler.compile at h
  split at h
  · cases h
  · rename_i hlen
    have hlen' : c.compilationState_.scriptData.length = TopLevelIndex := by
      by_contra hne
      exact hlen hne
    have hnil : c.compilationState_.scriptData = [] := by
      apply List.eq_nil_of_length_eq_zero
      simpa [TopLevelIndex] using hlen'
    simp only at h
    split at h
    · cases h
    · rename_i st1 happ
      refine ⟨hlen', ⟨st1, happ, ?_⟩, ?_⟩
      · unfold CompilationState.appendScriptStencilAndData at happ
        split at happ
        · cases happ
          simp [hnil]
        · cases happ
      · split at h
        · cases h
        · obtain ⟨evs, he⟩ := ModuleCompiler_emitStep_trace _ _ _ _ _ _ _ h
          refine ⟨evs, ?_⟩
          rw [he]
          simp [World.log, hlen']

/-- A committed `handleParseFailure` leaves the script records that were there
at the saved position. -/
theorem handleParseFailure_scriptData (c c' : SourceAwareCompiler) (d : Directives)
    (p : TokenStreamPosition) (sp : CompilationStatePosition)
    (h : c.handleParseFailure d p sp = Except.ok c') :
    c'.compilationState_.scriptData = c.compilationState_.scriptData.take sp.scriptDataLength := by
  unfold SourceAwareCompiler.handleParseFailure at h
  split at h
  · cases h
  · dsimp only at h
    split at h
    · cases h
    · split at h
      · cases h
      · cases h
        rfl

/-- When the saved position holds no script record and the loop of
`StandaloneFunctionCompiler::parse` starts with none, every call of the parser,
retries included, is made on a state with no script record. -/
theorem parseLoop_calls_on_empty (env : Env) (parameterListEnd : Option Nat)
    (syntaxKind : FunctionSyntaxKind) (generatorKind : GeneratorKind)
    (asyncKind : FunctionAsyncKind) (p : TokenStreamPosition)
    (sp : CompilationStatePosition) (hsp : sp.scriptDataLength = 0) (fuel : Nat) :
    ∀ (c : StandaloneFunctionCompiler) (w : World)
      (out : Option FunctionNode × StandaloneFunctionCompiler × World),
      c.compilationState_.scriptData = [] →
      StandaloneFunctionCompiler.parseLoop env parameterListEnd syntaxKind generatorKind
        asyncKind p sp fuel c w = Except.ok (some out) →
      ∃ evs, out.2.2.trace = w.trace ++ evs ∧
        Event.standaloneFunction TopLevelIndex ∈ evs ∧
        ∀ e ∈ evs, e = Event.standaloneFunction TopLevelIndex := by
  induction fuel with
  | zero =>
    intro c w out _ h
    simp [StandaloneFunctionCompiler.parseLoop] at h
  | succ fuel ih =>
    intro c w out hnil h
    unfold StandaloneFunctionCompiler.parseLoop at h
    simp only at h
    split at h
    · cases h
      exact ⟨[Event.standaloneFunction TopLevelIndex], by simp [World.log, hnil, TopLevelIndex],
        List.mem_singleton.2 rfl, fun e he => List.mem_singleton.1 he⟩
    · split at h
      · cases h
        exact ⟨[Event.standaloneFunction TopLevelIndex],
          by simp [World.log, hnil, TopLevelIndex], List.mem_singleton.2 rfl,
          fun e he => List.mem_singleton.1 he⟩
      · split at h
        · cases h
        · rename_i base hbase
          have hb := handleParseFailure_scriptData _ _ _ _ _ hbase
          rw [hsp, List.take_zero] at hb
          obtain ⟨evs, he, _, hall⟩ := ih _ _ out hb h
          refine ⟨Event.standaloneFunction TopLevelIndex :: evs, ?_, List.mem_cons_self _ _, ?_⟩
          · rw [he]
            simp [World.log, hnil, TopLevelIndex]
          · intro e hmem
            rcases List.mem_cons.1 hmem with rfl | hmem
            · rfl
            · exact hall e hmem

/-- The interpreted branch of `StandaloneFunctionCompiler::compile` adds no parser
call to the trace. -/
theorem StandaloneFunctionCompiler_emitStep_trace (env : Env)
    (c : StandaloneFunctionCompiler) (fn : FunctionNode) (w : World) (b : Bool)
    (c' : StandaloneFunctionCompiler) (w' : World)
    (h : c.emitStep env fn w = Except.ok (b, c', w')) :
    ∃ evs, w'.trace = w.trace ++ evs ∧ ∀ e ∈ evs, e.isParse = false := by
  unfold StandaloneFunctionCompiler.emitStep at h
  simp only at h
  generalize (if fn.funbox.selfHosted = true then EmitterMode.SelfHosting
    else EmitterMode.Normal) = mode at h
  split at h
  · cases h
    exact ⟨[Event.emitterInit], rfl, by simp [Event.isParse]⟩
  · split at h
    · cases h
      exact ⟨[Event.emitterInit, Event.emitFunctionScript], by simp [World.log],
        by simp [Event.isParse]⟩
    · split at h
      · cases h
      · cases h
        exact ⟨[Event.emitterInit, Event.emitFunctionScript], by simp [World.log],
          by simp [Event.isParse]⟩


/-- C9: a successful `ScriptCompiler::compile` (global or eval) and a successful
`ModuleCompiler::compile` found `scriptData` empty, appended the top-level record
first, at index `TopLevelIndex`, and only then called the parser; a successful
`StandaloneFunctionCompiler::compile` started on a fresh state called the parser,
retries included, only on a state with no script record, so the first record the
parser appends for the function sits at `TopLevelIndex` too. -/
theorem top_level_record_first (env : Env) :
    (∀ (c : ScriptCompiler) (sc : SharedContext) (w : World) (c' : ScriptCompiler)
        (w' : World),
      c.compile env sc w = Except.ok (true, c', w') →
      c.compilationState_.scriptData.length = TopLevelIndex ∧
      (∃ st1, c.compilationState_.appendScriptStencilAndData env = some st1 ∧
        st1.scriptData = [{}]) ∧
      ∃ rest, w'.trace = w.trace ++
        Event.appendScriptStencilAndData TopLevelIndex :: sc.parseEvent :: rest) ∧
    (∀ (c : ModuleCompiler) (w : World) (c' : ModuleCompiler) (w' : World),
      c.compile env w = Except.ok (true, c', w') →
      c.compilationState_.scriptData.length = TopLevelIndex ∧
      (∃ st1, c.compilationState_.appendScriptStencilAndData env = some st1 ∧
        st1.scriptData = [{}]) ∧
      ∃ rest, w'.trace = w.trace ++
        Event.appendScriptStencilAndData TopLevelIndex :: Event.moduleBody :: rest) ∧
    (∀ (parameterListEnd : Option Nat) (syntaxKind : FunctionSyntaxKind)
        (generatorKind : GeneratorKind) (asyncKind : FunctionAsyncKind) (fuel : Nat)
        (c : StandaloneFunctionCompiler) (w : World) (c' : StandaloneFunctionCompiler)
        (w' : World),
      c.compilationState_.scriptData = [] →
      c.compile env parameterListEnd syntaxKind generatorKind asyncKind fuel w
        = Except.ok (some (true, c', w')) →
      ∃ evs, w'.trace = w.trace ++ evs ∧
        Event.standaloneFunction TopLevelIndex ∈ evs ∧
        ∀ n, Event.standaloneFunction n ∈ evs → n = TopLevelIndex) := by
  refine ⟨fun c sc w c' w' h => ScriptCompiler_compile_top_level env c sc w c' w' h,
    fun c w c' w' h => ModuleCompiler_compile_top_level env c w c' w' h, ?_⟩
  intro parameterListEnd syntaxKind generatorKind asyncKind fuel c w c' w' hnil h
  unfold StandaloneFunctionCompiler.compile StandaloneFunctionCompiler.parse at h
  have hsp : c.compilationState_.getPosition.scriptDataLength = 0 := by
    simp [CompilationState.getPosition, hnil]
  split at h
  · cases h
  · cases h
  · cases h
  · rename_i fn c1 w1 hparse
    obtain ⟨evs1, he1, hne, hall1⟩ := parseLoop_calls_on_empty env parameterListEnd
      syntaxKind generatorKind asyncKind _ _ hsp fuel c w _ hnil hparse
    split at h
    · split at h
      · cases h
      · rename_i r hemit
        obtain ⟨b, c2, w2⟩ := r
        simp only [Except.ok.injEq, Option.some.injEq, Prod.mk.injEq] at h
        obtain ⟨rfl, rfl, rfl⟩ := h
        obtain ⟨evs2, he2, hall2⟩ :=
          StandaloneFunctionCompiler_emitStep_trace env c1 fn w1 _ _ _ hemit
        refine ⟨evs1 ++ evs2, ?_, List.mem_append_left _ hne, ?_⟩
        · rw [he2]
          simp only at he1
          rw [he1, List.append_assoc]
        · intro n hn
          rcases List.mem_append.1 hn with hn | hn
          · have := hall1 _ hn
            simpa [TopLevelIndex] using this
          · have := hall2 _ hn
            simp [Event.isParse] at this
    · split at h
      · cases h
      · simp only [Except.ok.injEq, Option.some.injEq, Prod.mk.injEq] at h
        obtain ⟨_, rfl, rfl⟩ := h
        refine ⟨evs1, he1, hne, ?_⟩
        intro n hn
        have := hall1 _ hn
        simpa [TopLevelIndex] using this

/-- A plain global compile: the append at index 0 heads the trace, the parser
call follows it. -/
theorem top_level_record_first_witness :
    ∃ rest, [Event.appendScriptStencilAndData 0, Event.globalBody, Event.emitterInit,
        Event.emitScript] =
      ([] : List Event) ++ Event.appendScriptStencilAndData TopLevelIndex ::
        (SharedContext.global (GlobalSharedContext.sample ScopeKind.Global)).parseEvent :: rest :=
  ((top_level_record_first Env.sample).1 (ScriptCompiler.sample { options := {} })
    (SharedContext.global (GlobalSharedContext.sample ScopeKind.Global)) {}
    { compilationState_ :=
        { input := { options := {} }, directives := { strict := false, asmJS := false }
          scriptData := [{}], scriptExtra := [{}] }
      tokenStream := { position := 0, hadError := false }
      sourceBuffer_ := [120] }
    { trace := [Event.appendScriptStencilAndData 0, Event.globalBody, Event.emitterInit,
        Event.emitScript] }
    rfl).2.2


/-! ### What a failing conversion leaves in the destinations -/

/-- Fact: `InstantiateStencils` fails with `gcOutput` populated only when
instantiation proper succeeded and the compression request failed. -/
theorem InstantiateStencils_failure (env : Env) (input : CompilationInput)
    (stencil : CompilationState) (w : World)
    (h : (InstantiateStencils env input stencil w).1 = false)
    (hsome : (InstantiateStencils env input stencil w).2.1.isSome = true) :
    env.tryCompressOffThread = false := by
  unfold InstantiateStencils at h hsome
  cases hi : env.instantiateStencils input stencil with
  | none => simp [hi] at hsome
  | some gc =>
    simp only [hi] at h
    cases hc : env.tryCompressOffThread with
    | false => rfl
    | true => simp [hc] at h

/-- C11, as stated, fails: with `initialStencilOut` supplied and the
delazification cache to be populated, a failure to create the stencil container
makes `ConvertGlobalScriptStencilMaybeInstantiate` return failure after
`initialStencilOut` was populated; and with `gcOutput` supplied, a failing
compression request makes it return failure after `gcOutput` was populated. -/
theorem Convert_failure_leaves_partial_result :
    (∃ out w', ConvertGlobalScriptStencilMaybeInstantiate
        { Env.sample with newInitialStencilAndDelazificationsOk := false } true
        { options := { populateDelazificationCache := true } }
        { input := { options := { populateDelazificationCache := true } }
          directives := { strict := false, asmJS := false } }
        CompileGlobalScriptToStencilWithInput.slots {} = Except.ok (false, out, w') ∧
      out.initialStencil.isSome = true) ∧
    (∃ out w', ConvertGlobalScriptStencilMaybeInstantiate
        { Env.sample with tryCompressOffThread := false } true { options := {} }
        { input := { options := {} }, directives := { strict := false, asmJS := false } }
        CompileGlobalScriptImpl.slots {} = Except.ok (false, out, w') ∧
      out.gcOutput.isSome = true) :=
  ⟨⟨_, _, rfl, rfl⟩, ⟨_, _, rfl, rfl⟩⟩

/-- C11, amended: when `ConvertGlobalScriptStencilMaybeInstantiate` returns
failure, an allocation failure of the first block has populated no destination;
`initialStencilOut` is populated only if it was supplied and the first block
succeeded (the failure is the creation of the stencil container or the
instantiation step); `stencilsOut` is populated only if it was supplied and the
failure is the instantiation step; `gcOutput` is populated only if instantiation
proper succeeded and the compression request failed. The entry points of this
file hand none of it back: on failure each returns null. -/
theorem Convert_failure_outputs (env : Env) (hasCx : Bool) (input : CompilationInput)
    (extensibleStencil : CompilationState) (slots : OutSlots) (w : World)
    (out : Outputs) (w' : World)
    (h : ConvertGlobalScriptStencilMaybeInstantiate env hasCx input extensibleStencil slots w
      = Except.ok (false, out, w')) :
    ((input.options.populateDelazificationCache || slots.initialStencilOut ||
          slots.stencilsOut) = true →
        (env.makeExtensibleStencilOk = false ∨ env.newCompilationStencilOk = false) →
        out = {}) ∧
    (out.initialStencil.isSome = true →
      slots.initialStencilOut = true ∧ env.makeExtensibleStencilOk = true ∧
        env.newCompilationStencilOk = true) ∧
    (out.stencils.isSome = true → slots.stencilsOut = true ∧ slots.gcOutput = true) ∧
    (out.gcOutput.isSome = true →
      slots.gcOutput = true ∧ env.tryCompressOffThread = false) ∧
    (∀ (srcBuf : SourceText) (scopeKind : ScopeKind) (w0 : World) (r : CompileOutcome),
      r.ok = false →
      (CompileGlobalScriptToStencilAndMaybeInstantiate env hasCx input srcBuf scopeKind none
          CompileGlobalScriptToStencilWithInput.slots w0 = Except.ok r →
        CompileGlobalScriptToStencilWithInput env hasCx input srcBuf scopeKind w0
          = Except.ok (none, r.world)) ∧
      (CompileGlobalScriptToStencilAndMaybeInstantiate env hasCx
          { options := input.options } srcBuf
          (if input.options.nonSyntacticScope then ScopeKind.NonSyntactic
            else ScopeKind.Global) none
          CompileGlobalScriptToStencilImpl.slots w0 = Except.ok r →
        CompileGlobalScriptToStencilImpl env hasCx input.options srcBuf w0
          = Except.ok (none, r.world)) ∧
      (∀ maybeExtraBindings,
        CompileGlobalScriptToStencilAndMaybeInstantiate env true { options := input.options }
          srcBuf scopeKind maybeExtraBindings CompileGlobalScriptImpl.slots
          (w0.log (Event.compileGlobalScript scopeKind input.options.nonSyntacticScope
            maybeExtraBindings.isSome)) = Except.ok r →
        CompileGlobalScriptImpl env input.options srcBuf scopeKind maybeExtraBindings w0
          = Except.ok (none, r.extraBindings, r.world))) := by
  have hentry : ∀ (srcBuf : SourceText) (scopeKind : ScopeKind) (w0 : World)
      (r : CompileOutcome), r.ok = false →
      (CompileGlobalScriptToStencilAndMaybeInstantiate env hasCx input srcBuf scopeKind none
          CompileGlobalScriptToStencilWithInput.slots w0 = Except.ok r →
        CompileGlobalScriptToStencilWithInput env hasCx input srcBuf scopeKind w0
          = Except.ok (none, r.world)) ∧
      (CompileGlobalScriptToStencilAndMaybeInstantiate env hasCx
          { options := input.options } srcBuf
          (if input.options.nonSyntacticScope then ScopeKind.NonSyntactic
            else ScopeKind.Global) none
          CompileGlobalScriptToStencilImpl.slots w0 = Except.ok r →
        CompileGlobalScriptToStencilImpl env hasCx input.options srcBuf w0
          = Except.ok (none, r.world)) ∧
      (∀ maybeExtraBindings,
        CompileGlobalScriptToStencilAndMaybeInstantiate env true { options := input.options }
          srcBuf scopeKind maybeExtraBindings CompileGlobalScriptImpl.slots
          (w0.log (Event.compileGlobalScript scopeKind input.options.nonSyntacticScope
            maybeExtraBindings.isSome)) = Except.ok r →
        CompileGlobalScriptImpl env input.options srcBuf scopeKind maybeExtraBindings w0
          = Except.ok (none, r.extraBindings, r.world)) := by
    intro srcBuf scopeKind w0 r hr
    refine ⟨?_, ?_, ?_⟩
    · intro hc
      unfold CompileGlobalScriptToStencilWithInput
      rw [hc]
      simp [hr]
    · intro hc
      unfold CompileGlobalScriptToStencilImpl
      simp only [hc]
      simp [hr]
    · intro meb hc
      unfold CompileGlobalScriptImpl
      rw [hc]
      simp [hr]
  unfold ConvertGlobalScriptStencilMaybeInstantiate at h
  cases h1 : convertInitialStencil env input extensibleStencil slots with
  | none =>
    simp only [h1, Except.ok.injEq, Prod.mk.injEq, true_and] at h
    obtain ⟨rfl, _⟩ := h
    exact ⟨fun _ _ => rfl, (fun hs => by cases hs), (fun hs => by cases hs),
      (fun hs => by cases hs), hentry⟩
  | some p1 =>
    obtain ⟨initialStencil, out1⟩ := p1
    simp only [h1] at h
    have e1 : (out1.initialStencil.isSome = true →
          slots.initialStencilOut = true ∧ env.makeExtensibleStencilOk = true ∧
            env.newCompilationStencilOk = true) ∧
        out1.stencils = none ∧ out1.gcOutput = none ∧
        ((input.options.populateDelazificationCache || slots.initialStencilOut ||
          slots.stencilsOut) = true →
          env.makeExtensibleStencilOk = true ∧ env.newCompilationStencilOk = true) := by
      unfold convertInitialStencil at h1
      split at h1
      · split at h1
        · cases h1
        · rename_i hm
          split at h1
          · cases h1
          · rename_i hn
            cases h1
            have hm' : env.makeExtensibleStencilOk = true := by simpa using hm
            have hn' : env.newCompilationStencilOk = true := by simpa using hn
            refine ⟨?_, rfl, rfl, fun _ => ⟨hm', hn'⟩⟩
            intro hs
            cases hso : slots.initialStencilOut with
            | false => simp [hso] at hs
            | true => exact ⟨rfl, hm', hn'⟩
      · rename_i hc
        cases h1
        exact ⟨(fun hs => by cases hs), rfl, rfl, fun hc' => absurd hc' hc⟩
    have hfirst : (input.options.populateDelazificationCache || slots.initialStencilOut ||
          slots.stencilsOut) = true →
        (env.makeExtensibleStencilOk = false ∨ env.newCompilationStencilOk = false) →
        out = {} := by
      intro hneed hfail
      obtain ⟨hm, hn⟩ := e1.2.2.2 hneed
      rcases hfail with hf | hf
      · rw [hm] at hf; cases hf
      · rw [hn] at hf; cases hf
    cases h2 : convertStencils env input initialStencil slots out1 with
    | none =>
      simp only [h2, Except.ok.injEq, Prod.mk.injEq, true_and] at h
      obtain ⟨rfl, _⟩ := h
      refine ⟨hfirst, e1.1, ?_, ?_, hentry⟩
      · intro hs; rw [e1.2.1] at hs; cases hs
      · intro hs; rw [e1.2.2.1] at hs; cases hs
    | some p2 =>
      obtain ⟨stencils, out2⟩ := p2
      simp only [h2] at h
      have e2 : out2.initialStencil = out1.initialStencil ∧
          (out2.stencils.isSome = true → slots.stencilsOut = true) ∧
          out2.gcOutput = out1.gcOutput := by
        unfold convertStencils at h2
        split at h2
        · cases h3 : CreateInitialStencilAndDelazifications env initialStencil with
          | none => simp [h3] at h2
          | some st =>
            simp only [h3, Option.some.injEq, Prod.mk.injEq] at h2
            obtain ⟨_, rfl⟩ := h2
            refine ⟨rfl, ?_, rfl⟩
            intro hs
            cases hso : slots.stencilsOut with
            | false => simp [hso] at hs
            | true => rfl
        · cases h2
          exact ⟨rfl, (fun hs => by rw [e1.2.1] at hs; cases hs), rfl⟩
      cases hg : slots.gcOutput with
      | false => simp [hg] at h
      | true =>
        simp only [hg, if_true] at h
        split at h
        · cases h
        · cases stencils with
          | some st =>
            simp only [Except.ok.injEq, Prod.mk.injEq] at h
            obtain ⟨hr, rfl, _⟩ := h
            refine ⟨hfirst, fun hs => e1.1 (e2.1 ▸ hs), fun hs => ⟨e2.2.1 hs, rfl⟩, ?_, hentry⟩
            intro hs
            exact ⟨rfl, InstantiateStencils_failure _ _ _ _ hr hs⟩
          | none =>
            simp only at h
            split at h
            · cases h
            · simp only [Except.ok.injEq, Prod.mk.injEq] at h
              obtain ⟨hr, rfl, _⟩ := h
              refine ⟨hfirst, fun hs => e1.1 (e2.1 ▸ hs), fun hs => ⟨e2.2.1 hs, rfl⟩, ?_,
                hentry⟩
              intro hs
              exact ⟨rfl, InstantiateStencils_failure _ _ _ _ hr hs⟩

/-- An allocation failure in the first block: nothing is handed back. -/
theorem Convert_failure_outputs_witness :
    (Outputs.mk none none none) = {} :=
  (Convert_failure_outputs { Env.sample with makeExtensibleStencilOk := false } true
    { options := {} }
    { input := { options := {} }, directives := { strict := false, asmJS := false } }
    CompileGlobalScriptToStencilWithInput.slots {} (Outputs.mk none none none) {} rfl).1
    rfl (Or.inl rfl)


/-! ### Termination of the retry loop -/

/-- Fact: `handleParseFailure` commits the new directives. -/
theorem handleParseFailure_directives (c c' : SourceAwareCompiler) (d : Directives)
    (p : TokenStreamPosition) (sp : CompilationStatePosition)
    (h : c.handleParseFailure d p sp = Except.ok c') :
    c'.compilationState_.directives = d := by
  unfold SourceAwareCompiler.handleParseFailure at h
  split at h
  · cases h
  · dsimp only at h
    split at h
    · cases h
    · split at h
      · cases h
      · cases h
        rfl

/-- A retry that may be handled and whose new directives keep the ones that are
set runs to completion. -/
theorem handleParseFailure_ok (c : SourceAwareCompiler) (d : Directives)
    (p : TokenStreamPosition) (sp : CompilationStatePosition)
    (hcan : c.canHandleParseFailure d = true)
    (hs : c.compilationState_.directives.strict = true → d.strict = true)
    (ha : c.compilationState_.directives.asmJS = true → d.asmJS = true) :
    ∃ c', c.handleParseFailure d p sp = Except.ok c' := by
  unfold SourceAwareCompiler.handleParseFailure
  simp only [hcan, Bool.not_true, Bool.false_eq_true, if_false]
  cases hst : c.compilationState_.directives.strict <;>
    cases hat : c.compilationState_.directives.asmJS <;>
    simp_all [CompilationState.rewind]

/-- Directives that differ from the current ones and keep every directive that
is set have strictly more directives set. -/
theorem directives_strengthen (d d' : Directives) (hne : d ≠ d')
    (hs : d.strict = true → d'.strict = true) (ha : d.asmJS = true → d'.asmJS = true) :
    d.strict.toNat + d.asmJS.toNat < d'.strict.toNat + d'.asmJS.toNat := by
  obtain ⟨s, a⟩ := d
  obtain ⟨s', a'⟩ := d'
  cases s <;> cases a <;> cases s' <;> cases a' <;> simp_all

/-- More fuel does not change a result the loop of
`StandaloneFunctionCompiler::parse` has reached. -/
theorem parseLoop_fuel_succ (env : Env) (parameterListEnd : Option Nat)
    (syntaxKind : FunctionSyntaxKind) (generatorKind : GeneratorKind)
    (asyncKind : FunctionAsyncKind) (p : TokenStreamPosition)
    (sp : CompilationStatePosition) (fuel : Nat) :
    ∀ (c : StandaloneFunctionCompiler) (w : World)
      (out : Option FunctionNode × StandaloneFunctionCompiler × World),
      StandaloneFunctionCompiler.parseLoop env parameterListEnd syntaxKind generatorKind
        asyncKind p sp fuel c w = Except.ok (some out) →
      StandaloneFunctionCompiler.parseLoop env parameterListEnd syntaxKind generatorKind
        asyncKind p sp (fuel + 1) c w = Except.ok (some out) := by
  induction fuel with
  | zero =>
    intro c w out h
    simp [StandaloneFunctionCompiler.parseLoop] at h
  | succ fuel ih =>
    intro c w out h
    unfold StandaloneFunctionCompiler.parseLoop at h ⊢
    simp only at h ⊢
    split at h
    · exact h
    · split at h
      · rename_i hcan
        rw [if_pos hcan]
        exact h
      · rename_i hcan
        rw [if_neg hcan]
        split at h
        · cases h
        · exact ih _ _ out h

/-- With a parser that never clears a directive that is set, the loop of
`StandaloneFunctionCompiler::parse` reaches a result as soon as its fuel covers
the directives that can still be set, after at most that many parser calls. -/
theorem parseLoop_terminates (env : Env)
    (hmono : ∀ src ple sk gk ak d st ts fc,
      (d.strict = true →
        (env.standaloneFunction src ple sk gk ak d st ts fc).newDirectives.strict = true) ∧
      (d.asmJS = true →
        (env.standaloneFunction src ple sk gk ak d st ts fc).newDirectives.asmJS = true))
    (parameterListEnd : Option Nat) (syntaxKind : FunctionSyntaxKind)
    (generatorKind : GeneratorKind) (asyncKind : FunctionAsyncKind)
    (p : TokenStreamPosition) (sp : CompilationStatePosition) (fuel : Nat) :
    ∀ (c : StandaloneFunctionCompiler) (w : World),
      3 ≤ fuel + c.compilationState_.directives.strict.toNat
        + c.compilationState_.directives.asmJS.toNat →
      ∃ out evs, StandaloneFunctionCompiler.parseLoop env parameterListEnd syntaxKind
          generatorKind asyncKind p sp fuel c w = Except.ok (some out) ∧
        out.2.2.trace = w.trace ++ evs ∧
        evs.length + c.compilationState_.directives.strict.toNat
          + c.compilationState_.directives.asmJS.toNat ≤ 3 ∧
        ∀ e ∈ evs, ∃ n, e = Event.standaloneFunction n := by
  have hbound : ∀ d : Directives, d.strict.toNat + d.asmJS.toNat ≤ 2 := by
    intro d
    cases d.strict <;> cases d.asmJS <;> simp
  induction fuel with
  | zero =>
    intro c w h
    have := hbound c.compilationState_.directives
    omega
  | succ fuel ih =>
    intro c w h
    have hb := hbound c.compilationState_.directives
    unfold StandaloneFunctionCompiler.parseLoop
    simp only
    split
    · refine ⟨_, [Event.standaloneFunction c.compilationState_.scriptData.length], rfl,
        by simp [World.log], ?_, ?_⟩
      · simp only [List.length_singleton]
        omega
      · intro e he
        exact ⟨_, List.mem_singleton.1 he⟩
    · split
      · refine ⟨_, [Event.standaloneFunction c.compilationState_.scriptData.length], rfl,
          by simp [World.log], ?_, ?_⟩
        · simp only [List.length_singleton]
          omega
        · intro e he
          exact ⟨_, List.mem_singleton.1 he⟩
      · rename_i hcan
        have hcan' : (c.withParseResult (env.standaloneFunction c.sourceBuffer_
            parameterListEnd syntaxKind generatorKind asyncKind
            c.compilationState_.directives c.compilationState_ c.tokenStream
            w.fc)).toSourceAwareCompiler.canHandleParseFailure
            (env.standaloneFunction c.sourceBuffer_ parameterListEnd syntaxKind generatorKind
              asyncKind c.compilationState_.directives c.compilationState_ c.tokenStream
              w.fc).newDirectives = true := by
          simpa using hcan
        have hm := hmono c.sourceBuffer_ parameterListEnd syntaxKind generatorKind asyncKind
          c.compilationState_.directives c.compilationState_ c.tokenStream w.fc
        obtain ⟨base, hbase⟩ := handleParseFailure_ok _ _ p sp hcan' hm.1 hm.2
        rw [hbase]
        simp only
        have hd := handleParseFailure_directives _ _ _ _ _ hbase
        have hne : c.compilationState_.directives ≠
            (env.standaloneFunction c.sourceBuffer_ parameterListEnd syntaxKind generatorKind
              asyncKind c.compilationState_.directives c.compilationState_ c.tokenStream
              w.fc).newDirectives := by
          simp only [SourceAwareCompiler.canHandleParseFailure, Bool.and_eq_true,
            decide_eq_true_eq] at hcan'
          exact hcan'.2
        have hlt := directives_strengthen _ _ hne hm.1 hm.2
        rw [← hd] at hlt
        obtain ⟨out, evs, hrun, htrace, hlen, hall⟩ := ih
          { c.withParseResult (env.standaloneFunction c.sourceBuffer_ parameterListEnd
              syntaxKind generatorKind asyncKind c.compilationState_.directives
              c.compilationState_ c.tokenStream w.fc) with toSourceAwareCompiler := base }
          { (w.log (Event.standaloneFunction c.compilationState_.scriptData.length)) with
            fc := (env.standaloneFunction c.sourceBuffer_ parameterListEnd syntaxKind
              generatorKind asyncKind c.compilationState_.directives c.compilationState_
              c.tokenStream w.fc).fc }
          (by simp only; omega)
        refine ⟨out, Event.standaloneFunction c.compilationState_.scriptData.length :: evs,
          hrun, ?_, ?_, ?_⟩
        · rw [htrace]
          simp [World.log]
        · simp only [List.length_cons]
          simp only at hlen
          omega
        · intro e he
          rcases List.mem_cons.1 he with rfl | he
          · exact ⟨_, rfl⟩
          · exact hall e he

/-- More fuel than the loop of `StandaloneFunctionCompiler::parse` needed gives
the same result. -/
theorem parseLoop_fuel_le (env : Env) (parameterListEnd : Option Nat)
    (syntaxKind : FunctionSyntaxKind) (generatorKind : GeneratorKind)
    (asyncKind : FunctionAsyncKind) (p : TokenStreamPosition)
    (sp : CompilationStatePosition) (c : StandaloneFunctionCompiler) (w : World)
    (out : Option FunctionNode × StandaloneFunctionCompiler × World) (fuel : Nat)
    (h : StandaloneFunctionCompiler.parseLoop env parameterListEnd syntaxKind generatorKind
      asyncKind p sp fuel c w = Except.ok (some out)) :
    ∀ more, StandaloneFunctionCompiler.parseLoop env parameterListEnd syntaxKind generatorKind
      asyncKind p sp (fuel + more) c w = Except.ok (some out) := by
  intro more
  induction more with
  | zero => exact h
  | succ more ih =>
    exact parseLoop_fuel_succ env parameterListEnd syntaxKind generatorKind asyncKind p sp
      (fuel + more) c w out ih

/-- C18: with a parser whose `newDirectives` never clear a directive that is set,
`StandaloneFunctionCompiler::parse` returns: three rounds of the loop are enough
for every start, more fuel gives the same result, and the run calls
`standaloneFunction` at most three times and does nothing else. A round whose
parse fails with a hard error or with unchanged directives ends the loop with a
null node, and every retry leaves strictly more directives set than before. -/
theorem parse_terminates (env : Env)
    (hmono : ∀ src ple sk gk ak d st ts fc,
      (d.strict = true →
        (env.standaloneFunction src ple sk gk ak d st ts fc).newDirectives.strict = true) ∧
      (d.asmJS = true →
        (env.standaloneFunction src ple sk gk ak d st ts fc).newDirectives.asmJS = true))
    (parameterListEnd : Option Nat) (syntaxKind : FunctionSyntaxKind)
    (generatorKind : GeneratorKind) (asyncKind : FunctionAsyncKind)
    (c : StandaloneFunctionCompiler) (w : World) :
    (∃ out evs,
      (∀ fuel, 3 ≤ fuel →
        c.parse env parameterListEnd syntaxKind generatorKind asyncKind fuel w =
          Except.ok (some out)) ∧
      out.2.2.trace = w.trace ++ evs ∧ evs.length ≤ 3 ∧
      ∀ e ∈ evs, ∃ n, e = Event.standaloneFunction n) ∧
    (∀ (fuel : Nat) (p : TokenStreamPosition) (sp : CompilationStatePosition),
      (env.standaloneFunction c.sourceBuffer_ parameterListEnd syntaxKind generatorKind
        asyncKind c.compilationState_.directives c.compilationState_ c.tokenStream
        w.fc).fn = none →
      ((env.standaloneFunction c.sourceBuffer_ parameterListEnd syntaxKind generatorKind
          asyncKind c.compilationState_.directives c.compilationState_ c.tokenStream
          w.fc).tokenStream.hadError = true ∨
        (env.standaloneFunction c.sourceBuffer_ parameterListEnd syntaxKind generatorKind
          asyncKind c.compilationState_.directives c.compilationState_ c.tokenStream
          w.fc).newDirectives = c.compilationState_.directives) →
      StandaloneFunctionCompiler.parseLoop env parameterListEnd syntaxKind generatorKind
          asyncKind p sp (fuel + 1) c w =
        Except.ok (some (none,
          c.withParseResult (env.standaloneFunction c.sourceBuffer_ parameterListEnd
            syntaxKind generatorKind asyncKind c.compilationState_.directives
            c.compilationState_ c.tokenStream w.fc),
          { (w.log (Event.standaloneFunction c.compilationState_.scriptData.length)) with
            fc := (env.standaloneFunction c.sourceBuffer_ parameterListEnd syntaxKind
              generatorKind asyncKind c.compilationState_.directives c.compilationState_
              c.tokenStream w.fc).fc }))) ∧
    (∀ (p : TokenStreamPosition) (sp : CompilationStatePosition),
      (c.withParseResult (env.standaloneFunction c.sourceBuffer_ parameterListEnd
        syntaxKind generatorKind asyncKind c.compilationState_.directives
        c.compilationState_ c.tokenStream w.fc)).toSourceAwareCompiler.canHandleParseFailure
        (env.standaloneFunction c.sourceBuffer_ parameterListEnd syntaxKind generatorKind
          asyncKind c.compilationState_.directives c.compilationState_ c.tokenStream
          w.fc).newDirectives = true →
      ∃ base,
        (c.withParseResult (env.standaloneFunction c.sourceBuffer_ parameterListEnd
          syntaxKind generatorKind asyncKind c.compilationState_.directives
          c.compilationState_ c.tokenStream w.fc)).toSourceAwareCompiler.handleParseFailure
          (env.standaloneFunction c.sourceBuffer_ parameterListEnd syntaxKind generatorKind
            asyncKind c.compilationState_.directives c.compilationState_ c.tokenStream
            w.fc).newDirectives p sp = Except.ok base ∧
        c.compilationState_.directives.strict.toNat +
            c.compilationState_.directives.asmJS.toNat <
          base.compilationState_.directives.strict.toNat +
            base.compilationState_.directives.asmJS.toNat) := by
  have hm := hmono c.sourceBuffer_ parameterListEnd syntaxKind generatorKind asyncKind
    c.compilationState_.directives c.compilationState_ c.tokenStream w.fc
  refine ⟨?_, ?_, ?_⟩
  · obtain ⟨out, evs, hrun, htrace, hlen, hall⟩ :=
      parseLoop_terminates env hmono parameterListEnd syntaxKind generatorKind asyncKind
        c.tokenStream.position c.compilationState_.getPosition 3 c w (by omega)
    refine ⟨out, evs, ?_, htrace, by omega, hall⟩
    intro fuel hfuel
    obtain ⟨more, rfl⟩ := Nat.exists_eq_add_of_le hfuel
    exact parseLoop_fuel_le env parameterListEnd syntaxKind generatorKind asyncKind _ _ c w
      out 3 hrun more
  · intro fuel p sp hfn hstop
    unfold StandaloneFunctionCompiler.parseLoop
    simp only [hfn]
    have hcan : (c.withParseResult (env.standaloneFunction c.sourceBuffer_ parameterListEnd
        syntaxKind generatorKind asyncKind c.compilationState_.directives
        c.compilationState_ c.tokenStream w.fc)).toSourceAwareCompiler.canHandleParseFailure
        (env.standaloneFunction c.sourceBuffer_ parameterListEnd syntaxKind generatorKind
          asyncKind c.compilationState_.directives c.compilationState_ c.tokenStream
          w.fc).newDirectives = false := by
      rcases hstop with herr | hsame
      · simp [SourceAwareCompiler.canHandleParseFailure,
          StandaloneFunctionCompiler.withParseResult, herr]
      · simp [SourceAwareCompiler.canHandleParseFailure,
          StandaloneFunctionCompiler.withParseResult, hsame]
    simp [hcan]
  · intro p sp hcan
    obtain ⟨base, hbase⟩ := handleParseFailure_ok _ _ p sp hcan hm.1 hm.2
    refine ⟨base, hbase, ?_⟩
    have hd := handleParseFailure_directives _ _ _ _ _ hbase
    have hne : c.compilationState_.directives ≠
        (env.standaloneFunction c.sourceBuffer_ parameterListEnd syntaxKind generatorKind
          asyncKind c.compilationState_.directives c.compilationState_ c.tokenStream
          w.fc).newDirectives := by
      simp only [SourceAwareCompiler.canHandleParseFailure, Bool.and_eq_true,
        decide_eq_true_eq] at hcan
      exact hcan.2
    rw [hd]
    exact directives_strengthen _ _ hne hm.1 hm.2

/-- A parser that asks for strict mode, then for asm.js, then succeeds: the loop
returns after exactly three calls, with any fuel from three on. -/
theorem parse_terminates_witness :
    (∃ out evs,
      (∀ fuel, 3 ≤ fuel →
        (StandaloneFunctionCompiler.sample { options := {} }).parse Env.retrying none
          FunctionSyntaxKind.Statement GeneratorKind.NotGenerator
          FunctionAsyncKind.SyncFunction fuel {} = Except.ok (some out)) ∧
      out.2.2.trace = ([] : List Event) ++ evs ∧ evs.length ≤ 3 ∧
      ∀ e ∈ evs, ∃ n, e = Event.standaloneFunction n) ∧
    ((StandaloneFunctionCompiler.sample { options := {} }).parse Env.retrying none
        FunctionSyntaxKind.Statement GeneratorKind.NotGenerator
        FunctionAsyncKind.SyncFunction 3 {}).map
      (fun o => o.map (fun out => (out.1.isSome, out.2.2.trace))) =
      Except.ok (some (true, [Event.standaloneFunction 0, Event.standaloneFunction 0,
        Event.standaloneFunction 0])) :=
  ⟨(parse_terminates Env.retrying
      (by
        intro src ple sk gk ak d st ts fc
        obtain ⟨s, a⟩ := d
        cases s <;> cases a <;> simp [Env.retrying])
      none FunctionSyntaxKind.Statement GeneratorKind.NotGenerator
      FunctionAsyncKind.SyncFunction (StandaloneFunctionCompiler.sample { options := {} })
      {}).1,
    rfl⟩


/-! ### Global and eval scripts are parsed once -/

/-- The extra-bindings step adds no event or the one of
`popupateExtraBindingsFields`. -/
theorem populateStep_events (env : Env) (c : ScriptCompiler) (sc : SharedContext)
    (r : ParseResult) (w : World) :
    (c.populateStep env sc r w).2.2.trace = w.trace ∨
    (c.populateStep env sc r w).2.2.trace = w.trace ++ [Event.popupateExtraBindingsFields] := by
  unfold ScriptCompiler.populateStep
  cases sc with
  | eval e => exact Or.inl rfl
  | global g =>
    simp only
    split
    · exact Or.inr rfl
    · exact Or.inl rfl

/-- The emit step of `ScriptCompiler::compile` adds the emitter's
initialisation and at most one `emitScript`. -/
theorem ScriptCompiler_emitStep_events (env : Env) (c : ScriptCompiler) (sc : SharedContext)
    (pn : ParseNode) (w : World) (b : Bool) (c' : ScriptCompiler) (w' : World)
    (h : c.emitStep env sc pn w = Except.ok (b, c', w')) :
    w'.trace = w.trace ++ [Event.emitterInit] ∨
    w'.trace = w.trace ++ [Event.emitterInit, Event.emitScript] := by
  unfold ScriptCompiler.emitStep at h
  simp only at h
  generalize (if sc.selfHosted = true then EmitterMode.SelfHosting else EmitterMode.Normal)
    = mode at h
  split at h
  · cases h
    exact Or.inl rfl
  · split at h
    · cases h
      exact Or.inr (by simp [World.log])
    · split at h
      · cases h
      · cases h
        exact Or.inr (by simp [World.log])

/-- Every run of `ScriptCompiler::compile` calls the parser at most once. -/
theorem ScriptCompiler_compile_parse_count (env : Env) (c : ScriptCompiler)
    (sc : SharedContext) (w : World) (b : Bool) (c' : ScriptCompiler) (w' : World)
    (h : c.compile env sc w = Except.ok (b, c', w')) :
    ∃ evs, w'.trace = w.trace ++ evs ∧ evs.countP Event.isParse ≤ 1 := by
  have hpe : sc.parseEvent.isParse = true := by cases sc <;> rfl
  unfold ScriptCompiler.compile at h
  split at h
  · cases h
  · simp only at h
    split at h
    · cases h
      exact ⟨[Event.appendScriptStencilAndData c.compilationState_.scriptData.length], rfl,
        by simp [Event.isParse]⟩
    · split at h
      · split at h
        · cases h
        · cases h
          exact ⟨[Event.appendScriptStencilAndData c.compilationState_.scriptData.length,
            sc.parseEvent], by simp [World.log], by cases sc <;> simp [SharedContext.parseEvent, Event.isParse]⟩
      · rename_i st1 happ pn hnode
        split at h
        · cases h
          rcases populateStep_events env _ sc _ _ with hp | hp
          · exact ⟨[Event.appendScriptStencilAndData c.compilationState_.scriptData.length,
              sc.parseEvent], by rw [hp]; simp [World.log], by cases sc <;> simp [SharedContext.parseEvent, Event.isParse]⟩
          · exact ⟨[Event.appendScriptStencilAndData c.compilationState_.scriptData.length,
              sc.parseEvent, Event.popupateExtraBindingsFields],
              by rw [hp]; simp [World.log], by cases sc <;> simp [SharedContext.parseEvent, Event.isParse]⟩
        · rcases ScriptCompiler_emitStep_events env _ sc pn _ b c' w' h with he | he <;>
            rcases populateStep_events env _ sc _ _ with hp | hp
          · exact ⟨[Event.appendScriptStencilAndData c.compilationState_.scriptData.length,
              sc.parseEvent, Event.emitterInit],
              by rw [he, hp]; simp [World.log], by cases sc <;> simp [SharedContext.parseEvent, Event.isParse]⟩
          · exact ⟨[Event.appendScriptStencilAndData c.compilationState_.scriptData.length,
              sc.parseEvent, Event.popupateExtraBindingsFields, Event.emitterInit],
              by rw [he, hp]; simp [World.log], by cases sc <;> simp [SharedContext.parseEvent, Event.isParse]⟩
          · exact ⟨[Event.appendScriptStencilAndData c.compilationState_.scriptData.length,
              sc.parseEvent, Event.emitterInit, Event.emitScript],
              by rw [he, hp]; simp [World.log], by cases sc <;> simp [SharedContext.parseEvent, Event.isParse]⟩
          · exact ⟨[Event.appendScriptStencilAndData c.compilationState_.scriptData.length,
              sc.parseEvent, Event.popupateExtraBindingsFields, Event.emitterInit,
              Event.emitScript],
              by rw [he, hp]; simp [World.log], by cases sc <;> simp [SharedContext.parseEvent, Event.isParse]⟩

/-- C19, refuted as stated: a global parse that fails without a hard error and
leaves strict mode set, so that the directives differ from the ones the compile
started with, makes `ScriptCompiler::compile` return failure at once. The parser
was called once, and the token stream stays at position 5 where the parser left
it: nothing was rewound and nothing was reparsed. The same holds for an eval
script. -/
theorem ScriptCompiler_compile_does_not_reparse :
    (Env.strictDiscovery.globalBody [120] (GlobalSharedContext.sample ScopeKind.Global)
        { input := { options := {} }, directives := { strict := false, asmJS := false }
          scriptData := [{}], scriptExtra := [{}] }
        { position := 0, hadError := false } {}).node = none ∧
    (Env.strictDiscovery.globalBody [120] (GlobalSharedContext.sample ScopeKind.Global)
        { input := { options := {} }, directives := { strict := false, asmJS := false }
          scriptData := [{}], scriptExtra := [{}] }
        { position := 0, hadError := false } {}).tokenStream.hadError = false ∧
    (ScriptCompiler.sample { options := {} }).toSourceAwareCompiler.canHandleParseFailure
      (Env.strictDiscovery.globalBody [120] (GlobalSharedContext.sample ScopeKind.Global)
        { input := { options := {} }, directives := { strict := false, asmJS := false }
          scriptData := [{}], scriptExtra := [{}] }
        { position := 0, hadError := false } {}).compilationState.directives = true ∧
    ((ScriptCompiler.sample { options := {} }).compile Env.strictDiscovery
        (SharedContext.global (GlobalSharedContext.sample ScopeKind.Global)) {}).map
      (fun o => (o.1, o.2.1.tokenStream.position, o.2.2.trace)) =
      Except.ok (false, 5, [Event.appendScriptStencilAndData 0, Event.globalBody]) := by
  refine ⟨rfl, rfl, ?_, rfl⟩
  decide

/-- C19, amended: `ScriptCompiler::compile` never applies the directive retry.
When the parser (`globalBody` or `evalBody`) yields no node, whether or not it
recorded a hard error and whatever directives it left, `compile` returns failure
at once: the compiler is exactly as that one parser call left it, so the token
stream is not rewound, and the calls made are the append and that one parser
call. No run of `compile` calls the parser more than once. -/
theorem ScriptCompiler_compile_never_retries (env : Env) (c : ScriptCompiler)
    (sc : SharedContext) (w : World) :
    (∀ (st1 : CompilationState) (r : ParseResult),
      c.compilationState_.scriptData.length = TopLevelIndex →
      c.compilationState_.appendScriptStencilAndData env = some st1 →
      ScriptCompiler.parseBody env { c with compilationState_ := st1 } sc w.fc = r →
      r.node = none →
      ∃ c' w', c.compile env sc w = Except.ok (false, c', w') ∧
        c'.tokenStream = r.tokenStream ∧
        c'.compilationState_.directives = r.compilationState.directives ∧
        w'.trace = w.trace ++ [Event.appendScriptStencilAndData TopLevelIndex, sc.parseEvent]) ∧
    (∀ (b : Bool) (c' : ScriptCompiler) (w' : World),
      c.compile env sc w = Except.ok (b, c', w') →
      ∃ evs, w'.trace = w.trace ++ evs ∧ evs.countP Event.isParse ≤ 1) := by
  refine ⟨?_, fun b c' w' h => ScriptCompiler_compile_parse_count env c sc w b c' w' h⟩
  intro st1 r hfresh happend hr hnode
  subst hr
  unfold ScriptCompiler.compile
  simp only [hfresh, ne_eq, not_true_eq_false, if_false, happend]
  have hfc : (w.log (Event.appendScriptStencilAndData TopLevelIndex)).fc = w.fc := rfl
  simp only [hfc, hnode, ScriptCompiler.withParseResult, canHandleParseFailure_self,
    Bool.false_eq_true, if_false]
  exact ⟨_, _, rfl, rfl, rfl, by simp [World.log]⟩

/-- An eval parse that fails without a hard error and leaves strict mode set:
`compile` fails with the token stream at position 5, after one parser call. -/
theorem ScriptCompiler_compile_never_retries_witness :
    ∃ c' w', (ScriptCompiler.sample { options := {} }).compile Env.strictDiscovery
        (SharedContext.eval
          { options := {}, directives := { strict := false, asmJS := false }
            extent := SourceExtent.makeGlobalExtent 1 1 1 }) {} = Except.ok (false, c', w') ∧
      c'.tokenStream = { position := 5, hadError := false } ∧
      c'.compilationState_.directives = { strict := true, asmJS := false } ∧
      w'.trace = ([] : List Event) ++ [Event.appendScriptStencilAndData TopLevelIndex,
        Event.evalBody] :=
  (ScriptCompiler_compile_never_retries Env.strictDiscovery
    (ScriptCompiler.sample { options := {} })
    (SharedContext.eval
      { options := {}, directives := { strict := false, asmJS := false }
        extent := SourceExtent.makeGlobalExtent 1 1 1 }) {}).1
    { input := { options := {} }, directives := { strict := false, asmJS := false }
      scriptData := [{}], scriptExtra := [{}] }
    { node := none
      compilationState :=
        { input := { options := {} }, directives := { strict := true, asmJS := false }
          scriptData := [{}], scriptExtra := [{}] }
      tokenStream := { position := 5, hadError := false }
      fc := {} }
    rfl rfl rfl rfl


/-! ### A failing emitter ends the compile -/

/-- The emit step of `ScriptCompiler::compile` fails when the emitter's
initialisation or `emitScript` fails, after that one call. -/
theorem ScriptCompiler_emitStep_failure (env : Env) (c : ScriptCompiler)
    (sc : SharedContext) (pn : ParseNode) (w : World)
    (hfail :
      env.emitterInit (if sc.selfHosted then EmitterMode.SelfHosting else EmitterMode.Normal)
        c.compilationState_ = false ∨
      (env.emitScript (if sc.selfHosted then EmitterMode.SelfHosting else EmitterMode.Normal)
        pn c.compilationState_ w.fc).ok = false) :
    ∃ c' w', c.emitStep env sc pn w = Except.ok (false, c', w') ∧
      (w'.trace = w.trace ++ [Event.emitterInit] ∨
        w'.trace = w.trace ++ [Event.emitterInit, Event.emitScript]) ∧
      (env.emitterInit (if sc.selfHosted then EmitterMode.SelfHosting else EmitterMode.Normal)
        c.compilationState_ = false → w'.trace = w.trace ++ [Event.emitterInit]) := by
  unfold ScriptCompiler.emitStep
  simp only
  generalize (if sc.selfHosted = true then EmitterMode.SelfHosting else EmitterMode.Normal)
    = mode at hfail ⊢
  cases hin : env.emitterInit mode c.compilationState_ with
  | false =>
    simp only [Bool.not_false, if_true]
    exact ⟨c, w.log Event.emitterInit, rfl, Or.inl rfl, fun _ => rfl⟩
  | true =>
    have hok : (env.emitScript mode pn c.compilationState_ w.fc).ok = false := by
      rcases hfail with h | h
      · rw [hin] at h
        cases h
      · exact h
    have hfc : (w.log Event.emitterInit).fc = w.fc := rfl
    simp only [Bool.not_true, Bool.false_eq_true, if_false, hfc, hok, Bool.not_false, if_true]
    exact ⟨_, _, rfl, Or.inr (by simp [World.log]), fun h => by cases h⟩

/-- The emit half of `ModuleCompiler::compile` fails when the emitter's
initialisation or `emitScript` fails, after that one call. -/
theorem ModuleCompiler_emitStep_failure (env : Env) (c : ModuleCompiler)
    (pn : ParseNode) (w : World)
    (hfail :
      env.emitterInit
        (if c.compilationState_.input.options.selfHostingMode then EmitterMode.SelfHosting
          else EmitterMode.Normal) c.compilationState_ = false ∨
      (env.emitScript
        (if c.compilationState_.input.options.selfHostingMode then EmitterMode.SelfHosting
          else EmitterMode.Normal) pn c.compilationState_ w.fc).ok = false) :
    ∃ c' w', c.emitStep env pn w = Except.ok (false, c', w') ∧
      (w'.trace = w.trace ++ [Event.emitterInit] ∨
        w'.trace = w.trace ++ [Event.emitterInit, Event.emitScript]) ∧
      (env.emitterInit
        (if c.compilationState_.input.options.selfHostingMode then EmitterMode.SelfHosting
          else EmitterMode.Normal) c.compilationState_ = false →
        w'.trace = w.trace ++ [Event.emitterInit]) := by
  unfold ModuleCompiler.emitStep
  simp only
  generalize (if c.compilationState_.input.options.selfHostingMode = true then
    EmitterMode.SelfHosting else EmitterMode.Normal) = mode at hfail ⊢
  cases hin : env.emitterInit mode c.compilationState_ with
  | false =>
    simp only [Bool.not_false, if_true]
    exact ⟨c, w.log Event.emitterInit, rfl, Or.inl rfl, fun _ => rfl⟩
  | true =>
    have hok : (env.emitScript mode pn c.compilationState_ w.fc).ok = false := by
      rcases hfail with h | h
      · rw [hin] at h
        cases h
      · exact h
    have hfc : (w.log Event.emitterInit).fc = w.fc := rfl
    simp only [Bool.not_true, Bool.false_eq_true, if_false, hfc, hok, Bool.not_false, if_true]
    exact ⟨_, _, rfl, Or.inr (by simp [World.log]), fun h => by cases h⟩

/-- The interpreted branch of `StandaloneFunctionCompiler::compile` fails when the
emitter's initialisation or `emitFunctionScript` fails, after that one call. -/
theorem StandaloneFunctionCompiler_emitStep_failure (env : Env)
    (c : StandaloneFunctionCompiler) (fn : FunctionNode) (w : World)
    (hfail :
      env.emitterInit
        (if fn.funbox.selfHosted then EmitterMode.SelfHosting else EmitterMode.Normal)
        c.compilationState_ = false ∨
      (env.emitFunctionScript
        (if fn.funbox.selfHosted then EmitterMode.SelfHosting else EmitterMode.Normal)
        fn c.compilationState_ w.fc).ok = false) :
    ∃ c' w', c.emitStep env fn w = Except.ok (false, c', w') ∧
      (w'.trace = w.trace ++ [Event.emitterInit] ∨
        w'.trace = w.trace ++ [Event.emitterInit, Event.emitFunctionScript]) ∧
      (env.emitterInit
        (if fn.funbox.selfHosted then EmitterMode.SelfHosting else EmitterMode.Normal)
        c.compilationState_ = false → w'.trace = w.trace ++ [Event.emitterInit]) := by
  unfold StandaloneFunctionCompiler.emitStep
  simp only
  generalize (if fn.funbox.selfHosted = true then EmitterMode.SelfHosting
    else EmitterMode.Normal) = mode at hfail ⊢
  cases hin : env.emitterInit mode c.compilationState_ with
  | false =>
    simp only [Bool.not_false, if_true]
    exact ⟨c, w.log Event.emitterInit, rfl, Or.inl rfl, fun _ => rfl⟩
  | true =>
    have hok : (env.emitFunctionScript mode fn c.compilationState_ w.fc).ok = false := by
      rcases hfail with h | h
      · rw [hin] at h
        cases h
      · exact h
    have hfc : (w.log Event.emitterInit).fc = w.fc := rfl
    simp only [Bool.not_true, Bool.false_eq_true, if_false, hfc, hok, Bool.not_false, if_true]
    exact ⟨_, _, rfl, Or.inr (by simp [World.log]), fun h => by cases h⟩

/-- C20: in `ScriptCompiler::compile` (global and eval), `ModuleCompiler::compile`
and `StandaloneFunctionCompiler::compile`, once the parse has succeeded (and, for
a global script, the extra-bindings step), a failing emitter initialisation or a
failing `emitScript` / `emitFunctionScript` makes `compile` return failure. After
the parse the run made the initialisation call alone when that one failed, and
else the initialisation and one emit call: no further parser call and no second
emit. -/
theorem emit_failure_is_terminal (env : Env) :
    (∀ (c : ScriptCompiler) (sc : SharedContext) (w : World) (st1 : CompilationState)
      (r : ParseResult) (pn : ParseNode) (cm : ScriptCompiler) (wm : World),
      c.compilationState_.scriptData.length = TopLevelIndex →
      c.compilationState_.appendScriptStencilAndData env = some st1 →
      ScriptCompiler.parseBody env { c with compilationState_ := st1 } sc w.fc = r →
      r.node = some pn →
      ScriptCompiler.populateStep env
        (ScriptCompiler.withParseResult { c with compilationState_ := st1 } r) sc r
        { ((w.log (Event.appendScriptStencilAndData TopLevelIndex)).log sc.parseEvent) with
          fc := r.fc } = (true, cm, wm) →
      (env.emitterInit (if sc.selfHosted then EmitterMode.SelfHosting else EmitterMode.Normal)
          cm.compilationState_ = false ∨
        (env.emitScript (if sc.selfHosted then EmitterMode.SelfHosting else EmitterMode.Normal)
          pn cm.compilationState_ wm.fc).ok = false) →
      ∃ c' w', c.compile env sc w = Except.ok (false, c', w') ∧
        (w'.trace = wm.trace ++ [Event.emitterInit] ∨
          w'.trace = wm.trace ++ [Event.emitterInit, Event.emitScript]) ∧
        (env.emitterInit
          (if sc.selfHosted then EmitterMode.SelfHosting else EmitterMode.Normal)
          cm.compilationState_ = false → w'.trace = wm.trace ++ [Event.emitterInit])) ∧
    (∀ (c : ModuleCompiler) (w : World) (st1 : CompilationState) (r : ParseResult)
      (pn : ParseNode),
      c.compilationState_.scriptData.length = TopLevelIndex →
      c.compilationState_.appendScriptStencilAndData env = some st1 →
      env.moduleBody c.sourceBuffer_ st1.input.options st1 c.tokenStream w.fc = r →
      r.node = some pn →
      (env.emitterInit
          (if st1.input.options.selfHostingMode then EmitterMode.SelfHosting
            else EmitterMode.Normal)
          { r.compilationState with input := st1.input } = false ∨
        (env.emitScript
          (if st1.input.options.selfHostingMode then EmitterMode.SelfHosting
            else EmitterMode.Normal)
          pn { r.compilationState with input := st1.input } r.fc).ok = false) →
      ∃ c' w', c.compile env w = Except.ok (false, c', w') ∧
        (w'.trace = w.trace ++ [Event.appendScriptStencilAndData TopLevelIndex,
            Event.moduleBody, Event.emitterInit] ∨
          w'.trace = w.trace ++ [Event.appendScriptStencilAndData TopLevelIndex,
            Event.moduleBody, Event.emitterInit, Event.emitScript]) ∧
        (env.emitterInit
          (if st1.input.options.selfHostingMode then EmitterMode.SelfHosting
            else EmitterMode.Normal)
          { r.compilationState with input := st1.input } = false →
          w'.trace = w.trace ++ [Event.appendScriptStencilAndData TopLevelIndex,
            Event.moduleBody, Event.emitterInit])) ∧
    (∀ (parameterListEnd : Option Nat) (syntaxKind : FunctionSyntaxKind)
      (generatorKind : GeneratorKind) (asyncKind : FunctionAsyncKind) (fuel : Nat)
      (c : StandaloneFunctionCompiler) (w : World) (fn : FunctionNode)
      (c1 : StandaloneFunctionCompiler) (w1 : World),
      c.parse env parameterListEnd syntaxKind generatorKind asyncKind fuel w =
        Except.ok (some (some fn, c1, w1)) →
      fn.funbox.isInterpreted = true →
      (env.emitterInit
          (if fn.funbox.selfHosted then EmitterMode.SelfHosting else EmitterMode.Normal)
          c1.compilationState_ = false ∨
        (env.emitFunctionScript
          (if fn.funbox.selfHosted then EmitterMode.SelfHosting else EmitterMode.Normal)
          fn c1.compilationState_ w1.fc).ok = false) →
      ∃ c' w', c.compile env parameterListEnd syntaxKind generatorKind asyncKind fuel w =
          Except.ok (some (false, c', w')) ∧
        (w'.trace = w1.trace ++ [Event.emitterInit] ∨
          w'.trace = w1.trace ++ [Event.emitterInit, Event.emitFunctionScript]) ∧
        (env.emitterInit
          (if fn.funbox.selfHosted then EmitterMode.SelfHosting else EmitterMode.Normal)
          c1.compilationState_ = false → w'.trace = w1.trace ++ [Event.emitterInit])) := by
  refine ⟨?_, ?_, ?_⟩
  · intro c sc w st1 r pn cm wm hfresh happend hr hnode hpop hfail
    subst hr
    obtain ⟨c', w', he, ht, hi⟩ := ScriptCompiler_emitStep_failure env cm sc pn wm hfail
    refine ⟨c', w', ?_, ht, hi⟩
    unfold ScriptCompiler.compile
    simp only [hfresh, ne_eq, not_true_eq_false, if_false, happend]
    have hfc : (w.log (Event.appendScriptStencilAndData TopLevelIndex)).fc = w.fc := rfl
    simp only [hfc, hnode, hpop, Bool.not_true, Bool.false_eq_true, if_false]
    exact he
  · intro c w st1 r pn hfresh happend hr hnode hfail
    subst hr
    unfold ModuleCompiler.compile
    simp only [hfresh, ne_eq, not_true_eq_false, if_false, happend]
    have hfc : (w.log (Event.appendScriptStencilAndData TopLevelIndex)).fc = w.fc := rfl
    simp only [hfc, hnode]
    obtain ⟨c', w', he, ht, hi⟩ := ModuleCompiler_emitStep_failure env
      { c with
        compilationState_ :=
          { (env.moduleBody c.sourceBuffer_ st1.input.options st1 c.tokenStream
              w.fc).compilationState with input := st1.input }
        tokenStream := (env.moduleBody c.sourceBuffer_ st1.input.options st1 c.tokenStream
          w.fc).tokenStream }
      pn
      { ((w.log (Event.appendScriptStencilAndData TopLevelIndex)).log Event.moduleBody) with
        fc := (env.moduleBody c.sourceBuffer_ st1.input.options st1 c.tokenStream w.fc).fc }
      hfail
    refine ⟨c', w', he, ?_, ?_⟩
    · rcases ht with ht | ht
      · exact Or.inl (by rw [ht]; simp [World.log])
      · exact Or.inr (by rw [ht]; simp [World.log])
    · intro h
      rw [hi h]
      simp [World.log]
  · intro parameterListEnd syntaxKind generatorKind asyncKind fuel c w fn c1 w1 hparse hint
      hfail
    obtain ⟨c', w', he, ht, hi⟩ :=
      StandaloneFunctionCompiler_emitStep_failure env c1 fn w1 hfail
    refine ⟨c', w', ?_, ht, hi⟩
    unfold StandaloneFunctionCompiler.compile
    rw [hparse]
    simp only [hint, if_true, he]

/-- A global compile whose `emitScript` fails: after the parse, the emitter is
initialised and `emitScript` called once, and `compile` returns failure. -/
theorem emit_failure_is_terminal_witness :
    ∃ c' w', (ScriptCompiler.sample { options := {} }).compile Env.failingEmit
        (SharedContext.global (GlobalSharedContext.sample ScopeKind.Global)) {} =
        Except.ok (false, c', w') ∧
      (w'.trace = [Event.appendScriptStencilAndData 0, Event.globalBody]
          ++ [Event.emitterInit] ∨
        w'.trace = [Event.appendScriptStencilAndData 0, Event.globalBody]
          ++ [Event.emitterInit, Event.emitScript]) ∧
      (Env.failingEmit.emitterInit
          (if (SharedContext.global (GlobalSharedContext.sample ScopeKind.Global)).selfHosted
            then EmitterMode.SelfHosting else EmitterMode.Normal)
          { input := { options := {} }, directives := { strict := false, asmJS := false }
            scriptData := [{}], scriptExtra := [{}] } = false →
        w'.trace = [Event.appendScriptStencilAndData 0, Event.globalBody]
          ++ [Event.emitterInit]) :=
  (emit_failure_is_terminal Env.failingEmit).1 (ScriptCompiler.sample { options := {} })
    (SharedContext.global (GlobalSharedContext.sample ScopeKind.Global)) {}
    { input := { options := {} }, directives := { strict := false, asmJS := false }
      scriptData := [{}], scriptExtra := [{}] }
    (ParseResult.unchanged (some 1)
      { input := { options := {} }, directives := { strict := false, asmJS := false }
        scriptData := [{}], scriptExtra := [{}] }
      { position := 0, hadError := false } {})
    1
    { compilationState_ :=
        { input := { options := {} }, directives := { strict := false, asmJS := false }
          scriptData := [{}], scriptExtra := [{}] }
      tokenStream := { position := 0, hadError := false }
      sourceBuffer_ := [120] }
    { trace := [Event.appendScriptStencilAndData 0, Event.globalBody] }
    rfl rfl rfl rfl rfl (Or.inr rfl)


/-! ### Instantiation, compression request, notification -/

/-- The loop of `StandaloneFunctionCompiler::parse` adds parser calls to the trace
and nothing else. -/
theorem parseLoop_trace (env : Env) (parameterListEnd : Option Nat)
    (syntaxKind : FunctionSyntaxKind) (generatorKind : GeneratorKind)
    (asyncKind : FunctionAsyncKind) (p : TokenStreamPosition)
    (sp : CompilationStatePosition) (fuel : Nat) :
    ∀ (c : StandaloneFunctionCompiler) (w : World)
      (out : Option FunctionNode × StandaloneFunctionCompiler × World),
      StandaloneFunctionCompiler.parseLoop env parameterListEnd syntaxKind generatorKind
        asyncKind p sp fuel c w = Except.ok (some out) →
      ∃ evs, out.2.2.trace = w.trace ++ evs ∧ ∀ e ∈ evs, ∃ n, e = Event.standaloneFunction n := by
  induction fuel with
  | zero =>
    intro c w out h
    simp [StandaloneFunctionCompiler.parseLoop] at h
  | succ fuel ih =>
    intro c w out h
    unfold StandaloneFunctionCompiler.parseLoop at h
    simp only at h
    split at h
    · cases h
      exact ⟨[Event.standaloneFunction c.compilationState_.scriptData.length],
        by simp [World.log], fun e he => ⟨_, List.mem_singleton.1 he⟩⟩
    · split at h
      · cases h
        exact ⟨[Event.standaloneFunction c.compilationState_.scriptData.length],
          by simp [World.log], fun e he => ⟨_, List.mem_singleton.1 he⟩⟩
      · split at h
        · cases h
        · obtain ⟨evs, htrace, hall⟩ := ih _ _ out h
          refine ⟨Event.standaloneFunction c.compilationState_.scriptData.length :: evs,
            ?_, ?_⟩
          · rw [htrace]
            simp [World.log]
          · intro e he
            rcases List.mem_cons.1 he with rfl | he
            · exact ⟨_, rfl⟩
            · exact hall e he

/-- A run of `StandaloneFunctionCompiler::compile` adds parser and emitter calls to
the trace and nothing else. -/
theorem StandaloneFunctionCompiler_compile_trace (env : Env)
    (parameterListEnd : Option Nat) (syntaxKind : FunctionSyntaxKind)
    (generatorKind : GeneratorKind) (asyncKind : FunctionAsyncKind) (fuel : Nat)
    (c : StandaloneFunctionCompiler) (w : World) (b : Bool)
    (c' : StandaloneFunctionCompiler) (w' : World)
    (h : c.compile env parameterListEnd syntaxKind generatorKind asyncKind fuel w =
      Except.ok (some (b, c', w'))) :
    ∃ evs, w'.trace = w.trace ++ evs ∧ ∀ e ∈ evs, (e.isParse || e.isEmit) = true := by
  unfold StandaloneFunctionCompiler.compile at h
  split at h
  · cases h
  · cases h
  · rename_i c1 w1 hparse
    cases h
    obtain ⟨evs, htrace, hall⟩ := parseLoop_trace env parameterListEnd syntaxKind
      generatorKind asyncKind _ _ fuel c w _ hparse
    refine ⟨evs, htrace, ?_⟩
    intro e he
    obtain ⟨n, rfl⟩ := hall e he
    rfl
  · rename_i fn c1 w1 hparse
    obtain ⟨evs, htrace, hall⟩ := parseLoop_trace env parameterListEnd syntaxKind
      generatorKind asyncKind _ _ fuel c w _ hparse
    have hall' : ∀ e ∈ evs, (e.isParse || e.isEmit) = true := by
      intro e he
      obtain ⟨n, rfl⟩ := hall e he
      rfl
    split at h
    · split at h
      · cases h
      · rename_i r hemit
        cases h
        unfold StandaloneFunctionCompiler.emitStep at hemit
        simp only at hemit
        generalize (if fn.funbox.selfHosted = true then EmitterMode.SelfHosting
          else EmitterMode.Normal) = mode at hemit
        split at hemit
        · cases hemit
          refine ⟨evs ++ [Event.emitterInit], ?_, ?_⟩
          · simp only at htrace
            simp [World.log, htrace]
          · intro e he
            rcases List.mem_append.1 he with he | he
            · exact hall' e he
            · rw [List.mem_singleton.1 he]
              rfl
        · split at hemit
          · cases hemit
            refine ⟨evs ++ [Event.emitterInit, Event.emitFunctionScript], ?_, ?_⟩
            · simp only at htrace
              simp [World.log, htrace]
            · intro e he
              rcases List.mem_append.1 he with he | he
              · exact hall' e he
              · simp only [List.mem_cons, List.mem_singleton, List.not_mem_nil,
                  or_false] at he
                rcases he with rfl | rfl <;> rfl
          · split at hemit
            · cases hemit
            · cases hemit
              refine ⟨evs ++ [Event.emitterInit, Event.emitFunctionScript], ?_, ?_⟩
              · simp only at htrace
                simp [World.log, htrace]
              · intro e he
                rcases List.mem_append.1 he with he | he
                · exact hall' e he
                · simp only [List.mem_cons, List.mem_singleton, List.not_mem_nil,
                    or_false] at he
                  rcases he with rfl | rfl <;> rfl
    · split at h
      · cases h
      · cases h
        exact ⟨evs, htrace, hall'⟩

/-- The second half of `CompileStandaloneFunction` fires the notification only
last, right after the instantiation, the compression request and at most the
recording of the parameter list end, and only when the options do not hide it. -/
theorem instantiateStandaloneFunction_trace (env : Env) (options : CompileOptions)
    (parameterListEnd : Option Nat) (input : CompilationInput) (stencil : CompilationState)
    (w : World) (out : StandaloneOutcome)
    (h : instantiateStandaloneFunction env options parameterListEnd input stencil w =
      Except.ok out) :
    ∃ evs, out.world.trace = w.trace ++ evs ∧
      (Event.onNewScript ∈ evs →
        ∃ mid, evs = Event.instantiateStencils :: Event.tryCompressOffThread ::
            (mid ++ [Event.onNewScript]) ∧
          Event.onNewScript ∉ mid ∧ options.hideFromNewScriptInitial = false) := by
  unfold instantiateStandaloneFunction at h
  simp only at h
  split at h
  · cases h
    exact ⟨[Event.instantiateStencils], rfl, fun hm => by simp at hm⟩
  · split at h
    · cases h
    · split at h
      · cases h
      · split at h
        · cases h
          exact ⟨[Event.instantiateStencils, Event.tryCompressOffThread],
            by simp [World.log], fun hm => by simp at hm⟩
        · cases h
          rename_i gcOutput _ _ _ _ _ _
          cases hs : gcOutput.script with
          | none =>
            exact ⟨[Event.instantiateStencils, Event.tryCompressOffThread],
              by simp [World.log], fun hm => by simp at hm⟩
          | some script =>
            cases hh : options.hideFromNewScriptInitial <;> cases parameterListEnd with
            | none =>
              first
              | exact ⟨[Event.instantiateStencils, Event.tryCompressOffThread,
                  Event.onNewScript], by simp [World.log, FireOnNewScript, hh],
                  fun _ => ⟨[], rfl, by simp, rfl⟩⟩
              | exact ⟨[Event.instantiateStencils, Event.tryCompressOffThread],
                  by simp [World.log, FireOnNewScript, hh], fun hm => by simp at hm⟩
            | some n =>
              first
              | exact ⟨[Event.instantiateStencils, Event.tryCompressOffThread,
                  Event.setParameterListEnd n, Event.onNewScript],
                  by simp [World.log, FireOnNewScript, hh],
                  fun _ => ⟨[Event.setParameterListEnd n], rfl, by simp, rfl⟩⟩
              | exact ⟨[Event.instantiateStencils, Event.tryCompressOffThread,
                  Event.setParameterListEnd n],
                  by simp [World.log, FireOnNewScript, hh], fun hm => by simp at hm⟩

/-- C12: `InstantiateStencils` instantiates, then requests the off-thread source
compression, then notifies of the new script, each step only after the previous
one succeeded. When instantiation fails the trace gains the instantiation call
alone; when the compression request fails it gains those two calls and no
notification; on success the notification comes last, and it is left out exactly
when the options set `hideFromNewScriptInitial`. In every run of
`CompileStandaloneFunction` that notifies, the notification is the last call, the
compression request was made before it, right after the instantiation, and the
options do not hide the script. -/
theorem InstantiateStencils_order (env : Env) :
    (∀ (input : CompilationInput) (stencil : CompilationState) (w : World),
      env.instantiateStencils input stencil = none →
      InstantiateStencils env input stencil w =
        (false, none, w.log Event.instantiateStencils) ∧
      (InstantiateStencils env input stencil w).2.2.trace =
        w.trace ++ [Event.instantiateStencils]) ∧
    (∀ (input : CompilationInput) (stencil : CompilationState) (w : World)
      (gcOutput : CompilationGCOutput),
      env.instantiateStencils input stencil = some gcOutput →
      env.tryCompressOffThread = false →
      (InstantiateStencils env input stencil w).1 = false ∧
      (InstantiateStencils env input stencil w).2.2.trace =
        w.trace ++ [Event.instantiateStencils, Event.tryCompressOffThread]) ∧
    (∀ (input : CompilationInput) (stencil : CompilationState) (w : World)
      (gcOutput : CompilationGCOutput),
      env.instantiateStencils input stencil = some gcOutput →
      env.tryCompressOffThread = true →
      (InstantiateStencils env input stencil w).1 = true ∧
      (InstantiateStencils env input stencil w).2.2.trace =
        w.trace ++ [Event.instantiateStencils, Event.tryCompressOffThread] ++
          (if input.options.hideFromNewScriptInitial then [] else [Event.onNewScript])) ∧
    (∀ (options : CompileOptions) (srcBuf : SourceText) (parameterListEnd : Option Nat)
      (syntaxKind : FunctionSyntaxKind) (generatorKind : GeneratorKind)
      (asyncKind : FunctionAsyncKind) (enclosingScope : Option Scope) (fuel : Nat)
      (w : World) (out : StandaloneOutcome),
      CompileStandaloneFunction env options srcBuf parameterListEnd syntaxKind generatorKind
        asyncKind enclosingScope fuel w = Except.ok (some out) →
      ∃ evs, out.world.trace = w.trace ++ evs ∧
        (Event.onNewScript ∈ evs →
          ∃ pre mid, evs = pre ++ Event.instantiateStencils :: Event.tryCompressOffThread ::
              (mid ++ [Event.onNewScript]) ∧
            Event.onNewScript ∉ pre ∧ Event.onNewScript ∉ mid ∧
            options.hideFromNewScriptInitial = false)) := by
  refine ⟨?_, ?_, ?_, ?_⟩
  · intro input stencil w hi
    unfold InstantiateStencils
    simp only [hi]
    exact ⟨trivial, rfl⟩
  · intro input stencil w gcOutput hi hc
    unfold InstantiateStencils
    simp only [hi, hc, Bool.not_false, if_true]
    exact ⟨trivial, by simp [World.log]⟩
  · intro input stencil w gcOutput hi hc
    unfold InstantiateStencils
    simp only [hi, hc, Bool.not_true, Bool.false_eq_true, if_false]
    refine ⟨trivial, ?_⟩
    cases hh : input.options.hideFromNewScriptInitial <;>
      simp [FireOnNewScript, World.log, hh]
  · intro options srcBuf parameterListEnd syntaxKind generatorKind asyncKind enclosingScope
      fuel w out h
    unfold CompileStandaloneFunction at h
    simp only at h
    split at h
    · cases h
      exact ⟨[], by simp, fun hm => by simp at hm⟩
    · split at h
      · cases h
        exact ⟨[], by simp, fun hm => by simp at hm⟩
      · split at h
        · cases h
        · cases h
        · rename_i c1 w1 hcomp
          cases h
          obtain ⟨evs, htrace, hall⟩ := StandaloneFunctionCompiler_compile_trace env
            parameterListEnd syntaxKind generatorKind asyncKind fuel _ _ _ _ _ hcomp
          refine ⟨evs, htrace, ?_⟩
          intro hm
          have := hall _ hm
          simp [Event.isParse, Event.isEmit] at this
        · rename_i c1 w1 hcomp
          obtain ⟨evs, htrace, hall⟩ := StandaloneFunctionCompiler_compile_trace env
            parameterListEnd syntaxKind generatorKind asyncKind fuel _ _ _ _ _ hcomp
          have hpre : Event.onNewScript ∉ evs := by
            intro hm
            have := hall _ hm
            simp [Event.isParse, Event.isEmit] at this
          split at h
          · cases h
          · rename_i o hinst
            cases h
            obtain ⟨evs2, htrace2, hshape⟩ :=
              instantiateStandaloneFunction_trace env options parameterListEnd _ _ _ _ hinst
            refine ⟨evs ++ evs2, ?_, ?_⟩
            · rw [htrace2, htrace]
              simp
            · intro hm
              rcases List.mem_append.1 hm with hm | hm
              · exact absurd hm hpre
              · obtain ⟨mid, hevs2, hmid, hhide⟩ := hshape hm
                exact ⟨evs, mid, by rw [hevs2], hpre, hmid, hhide⟩

/-- A standalone function compiled with a visible script: the instantiation, the
compression request, the recording of the parameter list end, then the
notification. -/
theorem InstantiateStencils_order_witness :
    ∃ evs,
      ({ result := some {}, assertException := some false
         world :=
          { trace := [Event.standaloneFunction 0, Event.emitterInit,
              Event.emitFunctionScript, Event.instantiateStencils,
              Event.tryCompressOffThread, Event.setParameterListEnd 4,
              Event.onNewScript] } } : StandaloneOutcome).world.trace =
        ([] : List Event) ++ evs ∧
      (Event.onNewScript ∈ evs →
        ∃ pre mid, evs = pre ++ Event.instantiateStencils :: Event.tryCompressOffThread ::
            (mid ++ [Event.onNewScript]) ∧
          Event.onNewScript ∉ pre ∧ Event.onNewScript ∉ mid ∧
          ({} : CompileOptions).hideFromNewScriptInitial = false) :=
  (InstantiateStencils_order Env.withFunction).2.2.2 {} [120] (some 4)
    FunctionSyntaxKind.Statement GeneratorKind.NotGenerator FunctionAsyncKind.SyncFunction
    none 1 {}
    { result := some {}, assertException := some false
      world :=
        { trace := [Event.standaloneFunction 0, Event.emitterInit,
            Event.emitFunctionScript, Event.instantiateStencils,
            Event.tryCompressOffThread, Event.setParameterListEnd 4,
            Event.onNewScript] } }
    rfl


/-! ### Delazification: the cache -/

/-- Fact: `InstantiateLazyFunction` adds the instantiation call to the trace
and nothing else. -/
theorem InstantiateLazyFunction_trace (env : Env) (input : CompilationInput)
    (stencil : CompilationState) (w : World) (b : Bool) (w1 : World)
    (h : InstantiateLazyFunction env input stencil w = Except.ok (b, w1)) :
    w1.trace = w.trace ++ [Event.instantiateStencils] := by
  unfold InstantiateLazyFunction at h
  split at h
  · cases h
  · simp only at h
    split at h
    · cases h
      rfl
    · split at h
      · cases h
      · split at h
        · cases h
        · split at h
          · cases h
          · cases h
            rfl

/-- C13: when the delazification cache holds a stencil for the extent of the
function and cache consumption is enabled, the form of
`DelazifyCanonicalScriptedFunctionImpl` that takes the function returns what
`InstantiateLazyFunction` returns on the cached stencil, and the only call it
makes is that instantiation; the form that takes a script index returns the
cached stencil itself and makes no call at all. No parser and no emitter runs. -/
theorem cache_hit_skips_parse (env : Env) :
    (∀ (cxOptions : CompileOptions) (lazy : BaseScript) (ss : ScriptSource) (w : World)
      (cache : InitialStencilAndDelazifications) (cached : CompilationStencil),
      lazy.hasBytecode = false → lazy.functionIsFun = true → lazy.funIsGhost = false →
      lazy.maybeGetStencils = some cache →
      cxOptions.consumeDelazificationCache = true →
      cache.getDelazificationFor lazy.info.extent = some cached →
      (∀ (b : Bool) (w1 : World),
        InstantiateLazyFunction env
          { options :=
              { cxOptions with
                lineno := lazy.info.extent.lineno, column := lazy.info.extent.column
                selfHostingMode := false }
            target := InputTarget.fromLazy, lazy := some lazy.info }
          cached.ownedBorrowStencil w = Except.ok (b, w1) →
        DelazifyCanonicalScriptedFunctionImpl.ofFunction env cxOptions lazy ss w =
          Except.ok { ok := b, stencils := some cache, assertException := none, world := w1 } ∧
        w1.trace = w.trace ++ [Event.instantiateStencils]) ∧
      (∀ e,
        InstantiateLazyFunction env
          { options :=
              { cxOptions with
                lineno := lazy.info.extent.lineno, column := lazy.info.extent.column
                selfHostingMode := false }
            target := InputTarget.fromLazy, lazy := some lazy.info }
          cached.ownedBorrowStencil w = Except.error e →
        DelazifyCanonicalScriptedFunctionImpl.ofFunction env cxOptions lazy ss w =
          Except.error e)) ∧
    (∀ (prefableOptions : CompileOptions) (scriptIndex : Nat)
      (cache : InitialStencilAndDelazifications) (ss : ScriptSource) (w : World)
      (extra : ScriptStencilExtra) (cached : CompilationStencil),
      ScriptStencilRef.scriptExtra { context := cache, scriptIndex := scriptIndex } =
        some extra →
      cache.getDelazificationFor extra.extent = some cached →
      DelazifyCanonicalScriptedFunctionImpl.ofScriptIndex env prefableOptions scriptIndex
          (some cache) ss w =
        Except.ok { result := some cached, stencils := cache, world := w }) := by
  refine ⟨?_, ?_⟩
  · intro cxOptions lazy ss w cache cached hb hf hg hst hcons hhit
    refine ⟨?_, ?_⟩
    · intro b w1 hinst
      refine ⟨?_, InstantiateLazyFunction_trace env _ _ w b w1 hinst⟩
      unfold DelazifyCanonicalScriptedFunctionImpl.ofFunction
      simp only [hcons] at hinst
      simp only [hb, hf, hg, hst, hcons, hhit, hinst, Bool.false_eq_true, if_false,
        Bool.not_true, if_true]
    · intro e hinst
      unfold DelazifyCanonicalScriptedFunctionImpl.ofFunction
      simp only [hcons] at hinst
      simp only [hb, hf, hg, hst, hcons, hhit, hinst, Bool.false_eq_true, if_false,
        Bool.not_true, if_true]
  · intro prefableOptions scriptIndex cache ss w extra cached hextra hhit
    unfold DelazifyCanonicalScriptedFunctionImpl.ofScriptIndex
    simp only [ScriptStencilRef.maybeContext, hextra, hhit]

/-- A lazy function whose extent is in the cache, with consumption enabled: the
cached stencil is instantiated and nothing is parsed. -/
theorem cache_hit_skips_parse_witness :
    DelazifyCanonicalScriptedFunctionImpl.ofFunction Env.sample
        { consumeDelazificationCache := true }
        { info := { extent := SourceExtent.sample }
          maybeGetStencils := some (InitialStencilAndDelazifications.sample
            [(SourceExtent.sample, CompilationStencil.sample [1, 2, 3])]) }
        {} {} =
      Except.ok
        { ok := true
          stencils := some (InitialStencilAndDelazifications.sample
            [(SourceExtent.sample, CompilationStencil.sample [1, 2, 3])])
          assertException := none
          world := { trace := [Event.instantiateStencils] } } ∧
    ({ trace := [Event.instantiateStencils] } : World).trace =
      ([] : List Event) ++ [Event.instantiateStencils] :=
  ((cache_hit_skips_parse Env.sample).1 { consumeDelazificationCache := true }
    { info := { extent := SourceExtent.sample }
      maybeGetStencils := some (InitialStencilAndDelazifications.sample
        [(SourceExtent.sample, CompilationStencil.sample [1, 2, 3])]) }
    {} {}
    (InitialStencilAndDelazifications.sample
      [(SourceExtent.sample, CompilationStencil.sample [1, 2, 3])])
    (CompilationStencil.sample [1, 2, 3]) rfl rfl rfl rfl rfl rfl).1 true
    { trace := [Event.instantiateStencils] } rfl

/-- Once the state is initialised and the parser's options are accepted, the
first call of `compileLazyFunction` is the parser's `standaloneLazyFunction`. -/
theorem compileLazyFunction_parses (env : Env) (input : CompilationInput)
    (lazy : LazyFunctionInfo) (units : SourceText) (w : World)
    (o : Option CompilationState) (w1 : World)
    (hinit : env.compilationStateInitOk input = true)
    (hcheck : env.parserCheckOptions input.options = true)
    (h : compileLazyFunction env input lazy units w = Except.ok (o, w1)) :
    ∃ evs, w1.trace = w.trace ++ Event.standaloneLazyFunction :: evs := by
  unfold compileLazyFunction at h
  simp only [hinit, hcheck, Bool.not_true, Bool.false_eq_true, if_false] at h
  split at h
  · cases h
    exact ⟨[], rfl⟩
  · split at h
    · cases h
      exact ⟨[Event.emitterInit], by simp [World.log]⟩
    · split at h
      · cases h
        exact ⟨[Event.emitterInit, Event.emitFunctionScript], by simp [World.log]⟩
      · split at h
        · split at h
          · cases h
          · cases h
            exact ⟨[Event.emitterInit, Event.emitFunctionScript], by simp [World.log]⟩
        · cases h
          exact ⟨[Event.emitterInit, Event.emitFunctionScript], by simp [World.log]⟩

/-- The output part of `CompileLazyFunctionToStencilMaybeInstantiate` only adds
events to the trace. -/
theorem outputLazyFunction_trace (env : Env) (maybeCx : Bool) (input : CompilationInput)
    (stencils : Option InitialStencilAndDelazifications) (borrowOut : Bool)
    (compilationState : CompilationState) (w : World) (out : LazyOutcome)
    (h : outputLazyFunction env maybeCx input stencils borrowOut compilationState w =
      Except.ok out) :
    ∃ evs, out.world.trace = w.trace ++ evs := by
  unfold outputLazyFunction at h
  split at h
  · split at h
    · cases h
      exact ⟨[], by simp⟩
    · split at h
      · cases h
        exact ⟨[], by simp⟩
      · split at h
        · cases h
        · cases h
          exact ⟨[Event.storeDelazification], rfl⟩
  · split at h
    · cases h
    · split at h
      · split at h
        · cases h
          exact ⟨[], by simp⟩
        · split at h
          · cases h
            exact ⟨[], by simp⟩
          · simp only at h
            split at h
            · cases h
            · rename_i w2 hinst
              cases h
              have := InstantiateLazyFunction_trace env _ _ _ _ _ hinst
              exact ⟨[Event.storeDelazification, Event.instantiateStencils],
                by rw [this]; simp [World.log]⟩
            · rename_i w2 hinst
              cases h
              have := InstantiateLazyFunction_trace env _ _ _ _ _ hinst
              exact ⟨[Event.storeDelazification, Event.instantiateStencils],
                by rw [this]; simp [World.log]⟩
      · split at h
        · cases h
        · rename_i w2 hinst
          cases h
          exact ⟨[Event.instantiateStencils],
            InstantiateLazyFunction_trace env _ _ _ _ _ hinst⟩
        · rename_i w2 hinst
          cases h
          exact ⟨[Event.instantiateStencils],
            InstantiateLazyFunction_trace env _ _ _ _ _ hinst⟩

/-- Once the state is initialised and the parser's options are accepted, a run of
`CompileLazyFunctionToStencilMaybeInstantiate` starts with a call of the parser. -/
theorem CompileLazy_parses (env : Env) (maybeCx : Bool) (input : CompilationInput)
    (units : SourceText) (stencils : Option InitialStencilAndDelazifications)
    (borrowOut : Bool) (w : World) (out : LazyOutcome)
    (hinit : env.compilationStateInitOk input = true)
    (hcheck : env.parserCheckOptions input.options = true)
    (h : CompileLazyFunctionToStencilMaybeInstantiate env maybeCx input units stencils
      borrowOut w = Except.ok out) :
    ∃ evs, out.world.trace = w.trace ++ Event.standaloneLazyFunction :: evs := by
  unfold CompileLazyFunctionToStencilMaybeInstantiate at h
  split at h
  · cases h
  · rename_i lazy hlazy
    split at h
    · cases h
    · rename_i w1 hc
      cases h
      exact compileLazyFunction_parses env input lazy units w _ _ hinit hcheck hc
    · rename_i st w1 hc
      obtain ⟨evs, hevs⟩ := compileLazyFunction_parses env input lazy units w _ _ hinit hcheck hc
      split at h
      · cases h
      · obtain ⟨evs2, hevs2⟩ := outputLazyFunction_trace env _ _ _ _ _ _ _ h
        exact ⟨evs ++ evs2, by rw [hevs2, hevs]; simp⟩

/-- C14, refuted as stated: with cache consumption disabled in the options, the
form of `DelazifyCanonicalScriptedFunctionImpl` that takes a script index still
consults the cache. For the script of index 1, whose extent has an entry, it
returns the cached stencil and makes no call: nothing is reparsed. -/
theorem ofScriptIndex_consults_cache_when_disabled :
    ({} : CompileOptions).consumeDelazificationCache = false ∧
    (InitialStencilAndDelazifications.sample
      [(SourceExtent.sample, CompilationStencil.sample [1, 2, 3])]).getDelazificationFor
      SourceExtent.sample = some (CompilationStencil.sample [1, 2, 3]) ∧
    DelazifyCanonicalScriptedFunctionImpl.ofScriptIndex Env.sample {} 1
        (some (InitialStencilAndDelazifications.sample
          [(SourceExtent.sample, CompilationStencil.sample [1, 2, 3])])) {} {} =
      Except.ok
        { result := some (CompilationStencil.sample [1, 2, 3])
          stencils := InitialStencilAndDelazifications.sample
            [(SourceExtent.sample, CompilationStencil.sample [1, 2, 3])]
          world := { trace := [] } } :=
  ⟨rfl, rfl, rfl⟩

/-- C14, amended: only the form of `DelazifyCanonicalScriptedFunctionImpl` that
takes the function checks the cache-consumption option. With consumption
disabled it does not look at the cache: when its assertions hold and the units
are pinned, it is the call of `CompileLazyFunctionToStencilMaybeInstantiate` on
those units, which begins with the parser once the state is initialised. The
form that takes a script index returns a cached stencil for the extent of its
script whatever the option says, also with consumption disabled, and then calls
nothing. -/
theorem cache_consultation (env : Env) :
    (∀ (cxOptions : CompileOptions) (lazy : BaseScript) (ss : ScriptSource) (w : World)
      (units : SourceText),
      lazy.hasBytecode = false → lazy.functionIsFun = true → lazy.funIsGhost = false →
      ss.hasSourceText = true →
      cxOptions.consumeDelazificationCache = false →
      env.pinnedUnits lazy.info.extent.sourceStart
        (lazy.info.extent.sourceEnd - lazy.info.extent.sourceStart) = some units →
      DelazifyCanonicalScriptedFunctionImpl.ofFunction env cxOptions lazy ss w =
        CompileLazyFunctionToStencilMaybeInstantiate env true
          { options :=
              { cxOptions with
                lineno := lazy.info.extent.lineno, column := lazy.info.extent.column
                selfHostingMode := false }
            target := InputTarget.fromLazy, lazy := some lazy.info }
          units lazy.maybeGetStencils false w ∧
      (env.compilationStateInitOk
          { options :=
              { cxOptions with
                lineno := lazy.info.extent.lineno, column := lazy.info.extent.column
                selfHostingMode := false }
            target := InputTarget.fromLazy, lazy := some lazy.info } = true →
        env.parserCheckOptions
          { cxOptions with
            lineno := lazy.info.extent.lineno, column := lazy.info.extent.column
            selfHostingMode := false } = true →
        ∀ out, DelazifyCanonicalScriptedFunctionImpl.ofFunction env cxOptions lazy ss w =
            Except.ok out →
          ∃ evs, out.world.trace = w.trace ++ Event.standaloneLazyFunction :: evs)) ∧
    (∀ (prefableOptions : CompileOptions) (scriptIndex : Nat)
      (cache : InitialStencilAndDelazifications) (ss : ScriptSource) (w : World)
      (extra : ScriptStencilExtra) (cached : CompilationStencil),
      prefableOptions.consumeDelazificationCache = false →
      ScriptStencilRef.scriptExtra { context := cache, scriptIndex := scriptIndex } =
        some extra →
      cache.getDelazificationFor extra.extent = some cached →
      DelazifyCanonicalScriptedFunctionImpl.ofScriptIndex env prefableOptions scriptIndex
          (some cache) ss w =
        Except.ok { result := some cached, stencils := cache, world := w }) := by
  refine ⟨?_, ?_⟩
  · intro cxOptions lazy ss w units hb hf hg hss hcons hunits
    have heq : DelazifyCanonicalScriptedFunctionImpl.ofFunction env cxOptions lazy ss w =
        CompileLazyFunctionToStencilMaybeInstantiate env true
          { options :=
              { cxOptions with
                lineno := lazy.info.extent.lineno, column := lazy.info.extent.column
                selfHostingMode := false }
            target := InputTarget.fromLazy, lazy := some lazy.info }
          units lazy.maybeGetStencils false w := by
      unfold DelazifyCanonicalScriptedFunctionImpl.ofFunction
      simp only [hb, hf, hg, hss, hcons, hunits, Bool.false_eq_true, if_false,
        Bool.not_true]
      cases lazy.maybeGetStencils <;> rfl
    refine ⟨heq, ?_⟩
    intro hinit hcheck out hout
    rw [heq] at hout
    exact CompileLazy_parses env true _ units _ false w out hinit hcheck hout
  · intro prefableOptions scriptIndex cache ss w extra cached _ hextra hhit
    unfold DelazifyCanonicalScriptedFunctionImpl.ofScriptIndex
    simp only [ScriptStencilRef.maybeContext, hextra, hhit]

/-- With consumption disabled, the function whose extent is in the cache is
parsed and emitted again, and the cache keeps its entry. -/
theorem cache_consultation_witness :
    DelazifyCanonicalScriptedFunctionImpl.ofFunction Env.sample {}
        { info := { extent := SourceExtent.sample }
          maybeGetStencils := some (InitialStencilAndDelazifications.sample
            [(SourceExtent.sample, CompilationStencil.sample [1, 2, 3])]) }
        {} {} =
      CompileLazyFunctionToStencilMaybeInstantiate Env.sample true
        { options := { lineno := 1, column := 3, selfHostingMode := false }
          target := InputTarget.fromLazy, lazy := some { extent := SourceExtent.sample } }
        [2, 3, 4]
        (some (InitialStencilAndDelazifications.sample
          [(SourceExtent.sample, CompilationStencil.sample [1, 2, 3])])) false {} ∧
    (DelazifyCanonicalScriptedFunctionImpl.ofFunction Env.sample {}
        { info := { extent := SourceExtent.sample }
          maybeGetStencils := some (InitialStencilAndDelazifications.sample
            [(SourceExtent.sample, CompilationStencil.sample [1, 2, 3])]) }
        {} {}).map (fun out => (out.ok, out.world.trace)) =
      Except.ok (true, [Event.standaloneLazyFunction, Event.emitterInit,
        Event.emitFunctionScript, Event.storeDelazification, Event.instantiateStencils]) :=
  ⟨((cache_consultation Env.sample).1 {}
      { info := { extent := SourceExtent.sample }
        maybeGetStencils := some (InitialStencilAndDelazifications.sample
          [(SourceExtent.sample, CompilationStencil.sample [1, 2, 3])]) }
      {} {} [2, 3, 4] rfl rfl rfl rfl rfl rfl).1,
    rfl⟩


/-! ### Delazification: the borrowed result and its failure reasons -/

/-- A successful output with `borrowOut` supplied stored the stencil in the cache
and handed back the pointer that `storeDelazification` returned; no other call
was made. -/
theorem outputLazyFunction_borrow (env : Env) (maybeCx : Bool) (input : CompilationInput)
    (stencils : Option InitialStencilAndDelazifications)
    (compilationState : CompilationState) (w : World) (out : LazyOutcome)
    (h : outputLazyFunction env maybeCx input stencils true compilationState w =
      Except.ok out)
    (hok : out.ok = true) :
    ∃ cache, stencils = some cache ∧
      out.borrowOut =
        some (cache.storeDelazification { ownedBorrowStencil := compilationState }).2 ∧
      out.stencils =
        some (cache.storeDelazification { ownedBorrowStencil := compilationState }).1 ∧
      out.world = w.log Event.storeDelazification := by
  unfold outputLazyFunction at h
  simp only [if_true] at h
  split at h
  · cases h
    cases hok
  · split at h
    · cases h
      cases hok
    · split at h
      · cases h
      · rename_i cache
        cases h
        exact ⟨cache, rfl, rfl, rfl, rfl⟩

/-- A successful run of `CompileLazyFunctionToStencilMaybeInstantiate` with
`borrowOut` supplied wrote a stencil to it. -/
theorem CompileLazy_borrowOut (env : Env) (maybeCx : Bool) (input : CompilationInput)
    (units : SourceText) (stencils : Option InitialStencilAndDelazifications) (w : World)
    (out : LazyOutcome)
    (h : CompileLazyFunctionToStencilMaybeInstantiate env maybeCx input units stencils true
      w = Except.ok out)
    (hok : out.ok = true) :
    ∃ borrowed, out.borrowOut = some borrowed := by
  unfold CompileLazyFunctionToStencilMaybeInstantiate at h
  split at h
  · cases h
  · split at h
    · cases h
    · cases h
      cases hok
    · split at h
      · cases h
      · obtain ⟨cache, _, hb, _, _⟩ := outputLazyFunction_borrow env _ _ _ _ _ _ h hok
        exact ⟨_, hb⟩

/-- C15: the form of `DelazifyCanonicalScriptedFunctionImpl` that takes a script
index, when the cache holds no stencil for the script and the assertions on the
script and its source hold. If the units cannot be pinned uncompressed, it
returns null with `Compressed` written to `*failureReason`, and the world is
untouched: no parser ran. If the units are pinned and
`CompileLazyFunctionToStencilMaybeInstantiate` returns failure, it returns null
with `Other` written; if that call succeeds, it returns the borrowed stencil,
which is non-null, and writes nothing to `*failureReason`. -/
theorem ofScriptIndex_failure_reason (env : Env) (prefableOptions : CompileOptions)
    (scriptIndex : Nat) (cache : InitialStencilAndDelazifications) (ss : ScriptSource)
    (w : World) (extra : ScriptStencilExtra) (data : ScriptStencil)
    (hextra : ScriptStencilRef.scriptExtra { context := cache, scriptIndex := scriptIndex } =
      some extra)
    (hdata : ScriptStencilRef.scriptDataFromEnclosing
      { context := cache, scriptIndex := scriptIndex } = some data)
    (hmiss : cache.getDelazificationFor extra.extent = none)
    (heager : data.hasSharedData = false) (hghost : data.isGhost = false)
    (hemitted : data.wasEmittedByEnclosingScript = true)
    (hss : ss.hasSourceText = true) :
    (env.pinnedUnitsIfUncompressed extra.extent.sourceStart
        (extra.extent.sourceEnd - extra.extent.sourceStart) = none →
      DelazifyCanonicalScriptedFunctionImpl.ofScriptIndex env prefableOptions scriptIndex
          (some cache) ss w =
        Except.ok
          { result := none, failureReason := some DelazifyFailureReason.Compressed
            stencils := cache, world := w }) ∧
    (∀ (units : SourceText) (out : LazyOutcome),
      env.pinnedUnitsIfUncompressed extra.extent.sourceStart
        (extra.extent.sourceEnd - extra.extent.sourceStart) = some units →
      CompileLazyFunctionToStencilMaybeInstantiate env false
          { options :=
              { prefableOptions with
                lineno := extra.extent.lineno, column := extra.extent.column
                selfHostingMode := false }
            target := InputTarget.fromStencil, lazy := some { extent := extra.extent } }
          units (some cache) true w = Except.ok out →
      (out.ok = false →
        DelazifyCanonicalScriptedFunctionImpl.ofScriptIndex env prefableOptions scriptIndex
            (some cache) ss w =
          Except.ok
            { result := none, failureReason := some DelazifyFailureReason.Other
              stencils := out.stencils.getD cache, world := out.world }) ∧
      (out.ok = true →
        ∃ borrowed, out.borrowOut = some borrowed ∧
          DelazifyCanonicalScriptedFunctionImpl.ofScriptIndex env prefableOptions scriptIndex
              (some cache) ss w =
            Except.ok
              { result := some borrowed, failureReason := none
                stencils := out.stencils.getD cache, world := out.world })) := by
  refine ⟨?_, ?_⟩
  · intro hunits
    unfold DelazifyCanonicalScriptedFunctionImpl.ofScriptIndex
    simp only [ScriptStencilRef.maybeContext, hextra, hmiss, hdata, heager, hghost, hemitted,
      hss, hunits, Bool.false_eq_true, if_false, Bool.not_true]
  · intro units out hunits hcompile
    refine ⟨?_, ?_⟩
    · intro hfail
      unfold DelazifyCanonicalScriptedFunctionImpl.ofScriptIndex
      simp only [ScriptStencilRef.maybeContext, hextra, hmiss, hdata, heager, hghost,
        hemitted, hss, hunits, hcompile, hfail, Bool.false_eq_true, if_false, Bool.not_true,
        Bool.not_false, if_true]
    · intro hok
      obtain ⟨borrowed, hb⟩ := CompileLazy_borrowOut env false _ units _ w out hcompile hok
      refine ⟨borrowed, hb, ?_⟩
      unfold DelazifyCanonicalScriptedFunctionImpl.ofScriptIndex
      simp only [ScriptStencilRef.maybeContext, hextra, hmiss, hdata, heager, hghost,
        hemitted, hss, hunits, hcompile, hok, hb, Bool.false_eq_true, if_false,
        Bool.not_true]

/-- A script of a compressed source, with an empty cache: null is returned with
the reason `Compressed`, and the trace stays empty. -/
theorem ofScriptIndex_failure_reason_witness :
    DelazifyCanonicalScriptedFunctionImpl.ofScriptIndex Env.compressed {} 1
        (some (InitialStencilAndDelazifications.sample [])) {} {} =
      Except.ok
        { result := none, failureReason := some DelazifyFailureReason.Compressed
          stencils := InitialStencilAndDelazifications.sample [], world := {} } :=
  (ofScriptIndex_failure_reason Env.compressed {} 1
    (InitialStencilAndDelazifications.sample []) {} {} { extent := SourceExtent.sample } {}
    rfl rfl rfl rfl rfl rfl rfl).1 rfl


/-! ### Delazification: the validation step -/

/-- The loop of the validation step ends without an assertion exactly when the
two data agree at every index it visits. -/
theorem validateLoop_ok_iff (c o : List Nat) (n : Nat) :
    ∀ i, validateLoop c o i n = Except.ok () ↔
      ∀ j, i ≤ j → j < i + n → c.get? j = o.get? j := by
  induction n with
  | zero =>
    intro i
    simp only [validateLoop, true_iff]
    intro j h1 h2
    omega
  | succ n ih =>
    intro i
    unfold validateLoop
    split
    · rename_i hne
      constructor
      · intro h
        cases h
      · intro h
        exact absurd (h i (Nat.le_refl i) (by omega)) hne
    · rename_i heq
      have heq' : c.get? i = o.get? i := by
        by_contra hne
        exact heq hne
      rw [ih (i + 1)]
      constructor
      · intro h j h1 h2
        rcases Nat.eq_or_lt_of_le h1 with rfl | hlt
        · exact heq'
        · exact h j hlt (by omega)
      · intro h j h1 h2
        exact h j (by omega) (by omega)

/-- The loop of the validation step ends without an assertion or with a release
assertion. -/
theorem validateLoop_result (c o : List Nat) (n : Nat) :
    ∀ i, validateLoop c o i n = Except.ok () ∨
      validateLoop c o i n = Except.error Abort.releaseAssert := by
  induction n with
  | zero =>
    intro i
    exact Or.inl rfl
  | succ n ih =>
    intro i
    unfold validateLoop
    split
    · exact Or.inr rfl
    · exact ih (i + 1)

/-- The comparison of the validation step, on a cached container that is single
or a borrow and a fresh one that is single: a release assertion exactly when the
data differ in length or at some index, and no assertion exactly when they are
equal. -/
theorem validateDelazification_iff (cached : CompilationStencil) (st : CompilationState)
    (c o : List Nat)
    (hc : cached.ownedBorrowStencil.sharedData.singleOrBorrowed = some c)
    (ho : st.sharedData.asSingle = some o) :
    (validateDelazification cached st = Except.error Abort.releaseAssert ↔
      (c.length ≠ o.length ∨ ∃ i, i < c.length ∧ c.get? i ≠ o.get? i)) ∧
    (validateDelazification cached st = Except.ok () ↔ c = o) ∧
    (validateDelazification cached st = Except.ok () ∨
      validateDelazification cached st = Except.error Abort.releaseAssert) := by
  unfold validateDelazification
  simp only [hc, ho]
  by_cases hlen : c.length = o.length
  · rw [if_neg (fun hne => hne hlen)]
    have hok : validateLoop c o 0 c.length = Except.ok () ↔ c = o := by
      rw [validateLoop_ok_iff]
      constructor
      · intro h
        apply List.ext_get?
        intro j
        by_cases hj : j < c.length
        · exact h j (Nat.zero_le j) (by omega)
        · rw [List.get?_eq_none.2 (by omega), List.get?_eq_none.2 (by omega)]
      · intro h j _ _
        rw [h]
    refine ⟨?_, hok, validateLoop_result c o c.length 0⟩
    constructor
    · intro h
      right
      by_contra hno
      have hall : ∀ j, 0 ≤ j → j < 0 + c.length → c.get? j = o.get? j := by
        intro j _ hj
        by_contra hne
        exact hno ⟨j, by omega, hne⟩
      rw [(validateLoop_ok_iff c o c.length 0).2 hall] at h
      cases h
    · intro h
      rcases h with h | ⟨i, hi, hne⟩
      · exact absurd hlen h
      · rcases validateLoop_result c o c.length 0 with hr | hr
        · exact absurd ((validateLoop_ok_iff c o c.length 0).1 hr i (Nat.zero_le i)
            (by omega)) hne
        · exact hr
  · rw [if_pos hlen]
    refine ⟨⟨fun _ => Or.inl hlen, fun _ => rfl⟩, ⟨(fun h => by cases h), fun h => ?_⟩,
      Or.inr rfl⟩
    rw [h] at hlen
    exact absurd rfl hlen

/-- Fact: `InstantiateLazyFunction` never ends in a release assertion. -/
theorem InstantiateLazyFunction_no_release (env : Env) (input : CompilationInput)
    (stencil : CompilationState) (w : World) :
    InstantiateLazyFunction env input stencil w ≠ Except.error Abort.releaseAssert := by
  intro h
  unfold InstantiateLazyFunction at h
  split at h
  · cases h
  · simp only at h
    split at h
    · cases h
    · split at h
      · cases h
      · split at h
        · cases h
        · split at h
          · cases h
          · cases h

/-- The output part of `CompileLazyFunctionToStencilMaybeInstantiate` never ends
in a release assertion. -/
theorem outputLazyFunction_no_release (env : Env) (maybeCx : Bool)
    (input : CompilationInput) (stencils : Option InitialStencilAndDelazifications)
    (borrowOut : Bool) (compilationState : CompilationState) (w : World) :
    outputLazyFunction env maybeCx input stencils borrowOut compilationState w ≠
      Except.error Abort.releaseAssert := by
  intro h
  unfold outputLazyFunction at h
  split at h
  · split at h
    · cases h
    · split at h
      · cases h
      · split at h
        · cases h
        · cases h
  · split at h
    · cases h
    · split at h
      · split at h
        · cases h
        · split at h
          · cases h
          · simp only at h
            split at h
            · rename_i e hinst
              cases h
              exact InstantiateLazyFunction_no_release env _ _ _ hinst
            · cases h
            · cases h
      · split at h
        · rename_i e hinst
          cases h
          exact InstantiateLazyFunction_no_release env _ _ _ hinst
        · cases h
        · cases h

/-- C16: a run of `CompileLazyFunctionToStencilMaybeInstantiate` whose parse and
emit succeeded. With a cache, `checkDelazificationCache` set and a cached stencil
for the extent (its data in a single or borrowed container, the fresh data in a
single one), the run ends in a release assertion exactly when the cached and the
fresh immutable data differ in length or at some index; it then returns nothing,
so the mismatch never becomes a `false` return. When the data are equal, when
validation is disabled, when the cache has no entry for the extent, or when
there is no cache, the run goes on to the output part. -/
theorem validation_aborts_iff_mismatch (env : Env) (maybeCx : Bool)
    (input : CompilationInput) (units : SourceText)
    (stencils : Option InitialStencilAndDelazifications) (borrowOut : Bool) (w : World)
    (lazy : LazyFunctionInfo) (st : CompilationState) (w1 : World)
    (hlazy : input.lazy = some lazy)
    (hcompile : compileLazyFunction env input lazy units w = Except.ok (some st, w1)) :
    (∀ (cache : InitialStencilAndDelazifications) (cached : CompilationStencil)
      (concurrentData ondemandData : List Nat),
      stencils = some cache → input.options.checkDelazificationCache = true →
      cache.getDelazificationFor lazy.extent = some cached →
      cached.ownedBorrowStencil.sharedData.singleOrBorrowed = some concurrentData →
      st.sharedData.asSingle = some ondemandData →
      (CompileLazyFunctionToStencilMaybeInstantiate env maybeCx input units stencils
          borrowOut w = Except.error Abort.releaseAssert ↔
        (concurrentData.length ≠ ondemandData.length ∨
          ∃ i, i < concurrentData.length ∧
            concurrentData.get? i ≠ ondemandData.get? i)) ∧
      (concurrentData = ondemandData →
        CompileLazyFunctionToStencilMaybeInstantiate env maybeCx input units stencils
            borrowOut w =
          outputLazyFunction env maybeCx input stencils borrowOut st w1)) ∧
    ((stencils = none ∨ input.options.checkDelazificationCache = false ∨
        ∃ cache, stencils = some cache ∧ cache.getDelazificationFor lazy.extent = none) →
      CompileLazyFunctionToStencilMaybeInstantiate env maybeCx input units stencils
          borrowOut w =
        outputLazyFunction env maybeCx input stencils borrowOut st w1) := by
  refine ⟨?_, ?_⟩
  · intro cache cached c o hst hcheck hhit hc ho
    obtain ⟨hrel, hok, hres⟩ := validateDelazification_iff cached st c o hc ho
    have hstep : checkDelazification input lazy.extent stencils st =
        validateDelazification cached st := by
      unfold checkDelazification
      simp only [hst, hcheck, hhit, Bool.not_true, Bool.false_eq_true, if_false]
    refine ⟨?_, ?_⟩
    · rw [← hrel]
      unfold CompileLazyFunctionToStencilMaybeInstantiate
      simp only [hlazy, hcompile, hstep]
      rcases hres with hr | hr
      · rw [hr]
        simp only
        constructor
        · intro h
          exact absurd h (outputLazyFunction_no_release env _ _ _ _ _ _)
        · intro h
          cases h
      · rw [hr]
        exact ⟨fun _ => rfl, fun _ => rfl⟩
    · intro heq
      unfold CompileLazyFunctionToStencilMaybeInstantiate
      simp only [hlazy, hcompile, hstep, hok.2 heq]
  · intro h
    have hstep : checkDelazification input lazy.extent stencils st = Except.ok () := by
      unfold checkDelazification
      rcases h with h | h | ⟨cache, h1, h2⟩
      · simp only [h]
      · cases stencils with
        | none => rfl
        | some cache => simp only [h, Bool.not_false, if_true]
      · simp only [h1, h2]
        split <;> rfl
    unfold CompileLazyFunctionToStencilMaybeInstantiate
    simp only [hlazy, hcompile, hstep]

/-- A second compile of the function at `SourceExtent.sample` whose data
`[1, 2, 3]` differ at index 2 from the cached `[1, 2, 4]`, with validation
enabled: the run ends in a release assertion. -/
theorem validation_aborts_iff_mismatch_witness :
    CompileLazyFunctionToStencilMaybeInstantiate Env.sample false
        { options := { checkDelazificationCache := true }, target := InputTarget.fromStencil
          lazy := some { extent := SourceExtent.sample } }
        [2, 3, 4]
        (some (InitialStencilAndDelazifications.sample
          [(SourceExtent.sample, CompilationStencil.sample [1, 2, 4])]))
        true {} = Except.error Abort.releaseAssert :=
  (((validation_aborts_iff_mismatch Env.sample false
      { options := { checkDelazificationCache := true }, target := InputTarget.fromStencil
        lazy := some { extent := SourceExtent.sample } }
      [2, 3, 4]
      (some (InitialStencilAndDelazifications.sample
        [(SourceExtent.sample, CompilationStencil.sample [1, 2, 4])]))
      true {} { extent := SourceExtent.sample }
      { input :=
          { options := { checkDelazificationCache := true }, target := InputTarget.fromStencil
            lazy := some { extent := SourceExtent.sample } }
        directives := { strict := false, asmJS := false }
        scriptData := [{ allowRelazify := true }], scriptExtra := [{}]
        functionKey := some SourceExtent.sample
        sharedData := SharedDataContainer.single [1, 2, 3] }
      { trace := [Event.standaloneLazyFunction, Event.emitterInit, Event.emitFunctionScript] }
      rfl rfl).1
    (InitialStencilAndDelazifications.sample
      [(SourceExtent.sample, CompilationStencil.sample [1, 2, 4])])
    (CompilationStencil.sample [1, 2, 4]) [1, 2, 4] [1, 2, 3] rfl rfl rfl rfl rfl).1).2
    (Or.inr ⟨2, by decide, by decide⟩)

/-! ### Delazification: the output mode -/

/-- C17: a run of `CompileLazyFunctionToStencilMaybeInstantiate` whose parse and
emit succeeded and whose validation step passed. With `borrowOut` supplied and
the two allocations of the stencil succeeding, the stencil is stored in the
cache, `*borrowOut` is the pointer `storeDelazification` returned, the call
succeeds, and the only call made is the store: nothing is instantiated. Without
`borrowOut`, `InstantiateLazyFunction` is called once, on the stored stencil when
there is a cache (and the allocations succeed) and on the compilation state
itself when there is none, and the result of the call is the result of that
instantiation. When one of the allocations fails the call returns failure with
nothing stored and nothing instantiated. -/
theorem output_mode (env : Env) (maybeCx : Bool) (input : CompilationInput)
    (units : SourceText) (stencils : Option InitialStencilAndDelazifications)
    (borrowOut : Bool) (w : World) (lazy : LazyFunctionInfo) (st : CompilationState)
    (w1 : World)
    (hlazy : input.lazy = some lazy)
    (hcompile : compileLazyFunction env input lazy units w = Except.ok (some st, w1))
    (hvalid : checkDelazification input lazy.extent stencils st = Except.ok ()) :
    (∀ cache, borrowOut = true → stencils = some cache →
      env.makeExtensibleStencilOk = true → env.newCompilationStencilOk = true →
      CompileLazyFunctionToStencilMaybeInstantiate env maybeCx input units stencils
          borrowOut w =
        Except.ok
          { ok := true
            borrowOut := some (cache.storeDelazification { ownedBorrowStencil := st }).2
            stencils := some (cache.storeDelazification { ownedBorrowStencil := st }).1
            assertException := some false
            world := w1.log Event.storeDelazification }) ∧
    (∀ cache, borrowOut = false → maybeCx = true → stencils = some cache →
      env.makeExtensibleStencilOk = true → env.newCompilationStencilOk = true →
      ∀ (b : Bool) (w2 : World),
        InstantiateLazyFunction env input
          (cache.storeDelazification { ownedBorrowStencil := st }).2.ownedBorrowStencil
          (w1.log Event.storeDelazification) = Except.ok (b, w2) →
        CompileLazyFunctionToStencilMaybeInstantiate env maybeCx input units stencils
            borrowOut w =
          Except.ok
            { ok := b
              stencils := some (cache.storeDelazification { ownedBorrowStencil := st }).1
              assertException := some (!b), world := w2 } ∧
        w2.trace = w1.trace ++ [Event.storeDelazification, Event.instantiateStencils]) ∧
    (borrowOut = false → maybeCx = true → stencils = none →
      ∀ (b : Bool) (w2 : World),
        InstantiateLazyFunction env input st w1 = Except.ok (b, w2) →
        CompileLazyFunctionToStencilMaybeInstantiate env maybeCx input units stencils
            borrowOut w =
          Except.ok { ok := b, stencils := none, assertException := some (!b), world := w2 } ∧
        w2.trace = w1.trace ++ [Event.instantiateStencils]) ∧
    ((borrowOut = true ∨ (maybeCx = true ∧ stencils.isSome = true)) →
      (env.makeExtensibleStencilOk = false ∨ env.newCompilationStencilOk = false) →
      CompileLazyFunctionToStencilMaybeInstantiate env maybeCx input units stencils
          borrowOut w =
        Except.ok
          { ok := false, stencils := stencils, assertException := some true, world := w1 }) := by
  have hrun : CompileLazyFunctionToStencilMaybeInstantiate env maybeCx input units stencils
      borrowOut w = outputLazyFunction env maybeCx input stencils borrowOut st w1 := by
    unfold CompileLazyFunctionToStencilMaybeInstantiate
    simp only [hlazy, hcompile, hvalid]
  rw [hrun]
  refine ⟨?_, ?_, ?_, ?_⟩
  · intro cache hb hst hm hn
    unfold outputLazyFunction
    simp only [hb, hst, hm, hn, if_true, Bool.not_true, Bool.false_eq_true, if_false]
  · intro cache hb hcx hst hm hn b w2 hinst
    refine ⟨?_, ?_⟩
    · unfold outputLazyFunction
      simp only [hb, hcx, hst, hm, hn, hinst, Bool.not_true, Bool.false_eq_true, if_false]
      cases b <;> rfl
    · rw [InstantiateLazyFunction_trace env _ _ _ _ _ hinst]
      simp [World.log]
  · intro hb hcx hst b w2 hinst
    refine ⟨?_, InstantiateLazyFunction_trace env _ _ _ _ _ hinst⟩
    unfold outputLazyFunction
    simp only [hb, hcx, hst, hinst, Bool.not_true, Bool.false_eq_true, if_false]
    cases b <;> rfl
  · intro hmode halloc
    unfold outputLazyFunction
    rcases hmode with hb | ⟨hcx, hsome⟩
    · simp only [hb, if_true]
      rcases halloc with hm | hn
      · simp only [hm, Bool.not_false, if_true]
      · cases hm : env.makeExtensibleStencilOk <;>
          simp only [hn, Bool.not_false, Bool.not_true, Bool.false_eq_true, if_true,
            if_false]
    · cases stencils with
      | none => cases hsome
      | some cache =>
        cases borrowOut with
        | true =>
          simp only [if_true]
          rcases halloc with hm | hn
          · simp only [hm, Bool.not_false, if_true]
          · cases hm : env.makeExtensibleStencilOk <;>
              simp only [hn, Bool.not_false, Bool.not_true, Bool.false_eq_true, if_true,
                if_false]
        | false =>
          simp only [hcx, Bool.false_eq_true, if_false, Bool.not_true]
          rcases halloc with hm | hn
          · simp only [hm, Bool.not_false, if_true]
          · cases hm : env.makeExtensibleStencilOk <;>
              simp only [hn, Bool.not_false, Bool.not_true, Bool.false_eq_true, if_true,
                if_false]

/-- A first compile of the function at `SourceExtent.sample` with `borrowOut`
supplied and an empty cache: the stencil is appended to the cache and handed
back, and the trace ends with the store. -/
theorem output_mode_witness :
    CompileLazyFunctionToStencilMaybeInstantiate Env.sample false
        { options := {}, target := InputTarget.fromStencil
          lazy := some { extent := SourceExtent.sample } }
        [2, 3, 4] (some (InitialStencilAndDelazifications.sample [])) true {} =
      Except.ok
        { ok := true
          borrowOut := some ((InitialStencilAndDelazifications.sample []).storeDelazification
            { ownedBorrowStencil :=
                { input :=
                    { options := {}, target := InputTarget.fromStencil
                      lazy := some { extent := SourceExtent.sample } }
                  directives := { strict := false, asmJS := false }
                  scriptData := [{ allowRelazify := true }], scriptExtra := [{}]
                  functionKey := some SourceExtent.sample
                  sharedData := SharedDataContainer.single [1, 2, 3] } }).2
          stencils := some ((InitialStencilAndDelazifications.sample []).storeDelazification
            { ownedBorrowStencil :=
                { input :=
                    { options := {}, target := InputTarget.fromStencil
                      lazy := some { extent := SourceExtent.sample } }
                  directives := { strict := false, asmJS := false }
                  scriptData := [{ allowRelazify := true }], scriptExtra := [{}]
                  functionKey := some SourceExtent.sample
                  sharedData := SharedDataContainer.single [1, 2, 3] } }).1
          assertException := some false
          world :=
            ({ trace := [Event.standaloneLazyFunction, Event.emitterInit,
                Event.emitFunctionScript] } : World).log Event.storeDelazification } :=
  (output_mode Env.sample false
    { options := {}, target := InputTarget.fromStencil
      lazy := some { extent := SourceExtent.sample } }
    [2, 3, 4] (some (InitialStencilAndDelazifications.sample [])) true {}
    { extent := SourceExtent.sample }
    { input :=
        { options := {}, target := InputTarget.fromStencil
          lazy := some { extent := SourceExtent.sample } }
      directives := { strict := false, asmJS := false }
      scriptData := [{ allowRelazify := true }], scriptExtra := [{}]
      functionKey := some SourceExtent.sample
      sharedData := SharedDataContainer.single [1, 2, 3] }
    { trace := [Event.standaloneLazyFunction, Event.emitterInit, Event.emitFunctionScript] }
    rfl rfl rfl).1 (InitialStencilAndDelazifications.sample []) rfl rfl rfl rfl


/-! ### The snapshot of the compilation state -/

/-- C22: a position taken with `getPosition`, followed by any number of appended
script records (with their extra data), atoms and scopes, followed by `rewind`
to that position, leaves the script records, their count, the atom table and the
scopes as they were before the appends, and the whole state when every record
had its extra data. A `handleParseFailure` that may be handled and keeps the set
directives, given that position, runs to completion and restores those records
and that atom table. -/
theorem rewind_restores (st : CompilationState) (records : List ScriptStencil)
    (extras : List ScriptStencilExtra) (atoms : List String) (scopes : List Nat) :
    (CompilationState.rewind
        { st with
          scriptData := st.scriptData ++ records, scriptExtra := st.scriptExtra ++ extras
          parserAtoms := st.parserAtoms ++ atoms, scopeData := st.scopeData ++ scopes }
        st.getPosition).scriptData = st.scriptData ∧
    (CompilationState.rewind
        { st with
          scriptData := st.scriptData ++ records, scriptExtra := st.scriptExtra ++ extras
          parserAtoms := st.parserAtoms ++ atoms, scopeData := st.scopeData ++ scopes }
        st.getPosition).scriptData.length = st.scriptData.length ∧
    (CompilationState.rewind
        { st with
          scriptData := st.scriptData ++ records, scriptExtra := st.scriptExtra ++ extras
          parserAtoms := st.parserAtoms ++ atoms, scopeData := st.scopeData ++ scopes }
        st.getPosition).parserAtoms = st.parserAtoms ∧
    (CompilationState.rewind
        { st with
          scriptData := st.scriptData ++ records, scriptExtra := st.scriptExtra ++ extras
          parserAtoms := st.parserAtoms ++ atoms, scopeData := st.scopeData ++ scopes }
        st.getPosition).scopeData = st.scopeData ∧
    (st.scriptExtra.length = st.scriptData.length →
      CompilationState.rewind
        { st with
          scriptData := st.scriptData ++ records, scriptExtra := st.scriptExtra ++ extras
          parserAtoms := st.parserAtoms ++ atoms, scopeData := st.scopeData ++ scopes }
        st.getPosition = st) ∧
    (∀ (ts : TokenStream) (newDirectives : Directives) (startPosition : TokenStreamPosition),
      SourceAwareCompiler.canHandleParseFailure
        { compilationState_ :=
            { st with
              scriptData := st.scriptData ++ records, scriptExtra := st.scriptExtra ++ extras
              parserAtoms := st.parserAtoms ++ atoms, scopeData := st.scopeData ++ scopes }
          tokenStream := ts } newDirectives = true →
      (st.directives.strict = true → newDirectives.strict = true) →
      (st.directives.asmJS = true → newDirectives.asmJS = true) →
      ∃ c', SourceAwareCompiler.handleParseFailure
          { compilationState_ :=
              { st with
                scriptData := st.scriptData ++ records
                scriptExtra := st.scriptExtra ++ extras
                parserAtoms := st.parserAtoms ++ atoms, scopeData := st.scopeData ++ scopes }
            tokenStream := ts } newDirectives startPosition st.getPosition = Except.ok c' ∧
        c'.compilationState_.scriptData = st.scriptData ∧
        c'.compilationState_.parserAtoms = st.parserAtoms ∧
        c'.tokenStream.position = startPosition) := by
  have hsd : (st.scriptData ++ records).take st.scriptData.length = st.scriptData :=
    List.take_left' rfl
  have hpa : (st.parserAtoms ++ atoms).take st.parserAtoms.length = st.parserAtoms :=
    List.take_left' rfl
  have hsc : (st.scopeData ++ scopes).take st.scopeData.length = st.scopeData :=
    List.take_left' rfl
  refine ⟨?_, ?_, ?_, ?_, ?_, ?_⟩
  · simp only [CompilationState.rewind, CompilationState.getPosition, hsd]
  · simp only [CompilationState.rewind, CompilationState.getPosition, hsd]
  · simp only [CompilationState.rewind, CompilationState.getPosition, hpa]
  · simp only [CompilationState.rewind, CompilationState.getPosition, hsc]
  · intro hlen
    have hse : (st.scriptExtra ++ extras).take st.scriptData.length = st.scriptExtra :=
      List.take_left' hlen
    simp only [CompilationState.rewind, CompilationState.getPosition, hsd, hpa, hsc, hse]
  · intro ts newDirectives startPosition hcan hs ha
    obtain ⟨c', hc'⟩ := handleParseFailure_ok
      { compilationState_ :=
          { st with
            scriptData := st.scriptData ++ records, scriptExtra := st.scriptExtra ++ extras
            parserAtoms := st.parserAtoms ++ atoms, scopeData := st.scopeData ++ scopes }
        tokenStream := ts } newDirectives startPosition st.getPosition hcan hs ha
    refine ⟨c', hc', ?_⟩
    unfold SourceAwareCompiler.handleParseFailure at hc'
    simp only [hcan, Bool.not_true, Bool.false_eq_true, if_false] at hc'
    split at hc'
    · cases hc'
    · split at hc'
      · cases hc'
      · cases hc'
        simp only [CompilationState.rewind, CompilationState.getPosition, hsd, hpa,
          TokenStream.rewind, and_self]

/-- A state with one record and one atom; the parser appended two records and an
atom and asked for strict mode: the retry puts the one record and the one atom
back. -/
theorem rewind_restores_witness :
    ∃ c', SourceAwareCompiler.handleParseFailure
        { compilationState_ :=
            { input := { options := {} }, directives := { strict := false, asmJS := false }
              scriptData := [{}] ++ [{ payload := 1 }, { payload := 2 }]
              scriptExtra := [{}] ++ [{}, {}]
              parserAtoms := ["f"] ++ ["g"], scopeData := [] ++ [] }
          tokenStream := { position := 9, hadError := false } }
        { strict := true, asmJS := false } 0
        (CompilationState.getPosition
          { input := { options := {} }, directives := { strict := false, asmJS := false }
            scriptData := [{}], scriptExtra := [{}], parserAtoms := ["f"] }) = Except.ok c' ∧
      c'.compilationState_.scriptData = [{}] ∧
      c'.compilationState_.parserAtoms = ["f"] ∧
      c'.tokenStream.position = 0 :=
  (rewind_restores
    { input := { options := {} }, directives := { strict := false, asmJS := false }
      scriptData := [{}], scriptExtra := [{}], parserAtoms := ["f"] }
    [{ payload := 1 }, { payload := 2 }] [{}, {}] ["g"] []).2.2.2.2.2
    { position := 9, hadError := false } { strict := true, asmJS := false } 0
    (by decide) (fun h => by cases h) (fun h => by cases h)


/-! ### Delazification: relazification -/

/-- C25: in a lazy-function compile whose parse, emitter initialisation and emit
succeed, the state handed on is the one the emitter left, with the driver's
input and function key, and with the top-level script record marked
allow-relazify exactly when `isRelazifiable()` holds and `hasPrivateScriptData()`
does not; otherwise the record is the one the emitter produced. The other
records are untouched. -/
theorem relazify_mark (env : Env) (input : CompilationInput) (lazy : LazyFunctionInfo)
    (units : SourceText) (w : World) (r : FunctionParseResult) (pn : FunctionNode)
    (e : EmitResult) (topLevel : ScriptStencil) (rest : List ScriptStencil)
    (hinit : env.compilationStateInitOk input = true)
    (hcheck : env.parserCheckOptions input.options = true)
    (hr : env.standaloneLazyFunction units input
      { input := input, directives := env.initialDirectives input
        functionKey := some lazy.extent } w.fc = r)
    (hfn : r.fn = some pn)
    (hemitInit : env.emitterInit EmitterMode.LazyFunction
      { r.compilationState with input := input, functionKey := some lazy.extent } = true)
    (he : env.emitFunctionScript EmitterMode.LazyFunction pn
      { r.compilationState with input := input, functionKey := some lazy.extent } r.fc = e)
    (hok : e.ok = true)
    (hdata : e.compilationState.scriptData = topLevel :: rest) :
    ∃ w1, compileLazyFunction env input lazy units w =
        Except.ok
          (some
            { e.compilationState with
              input := input, functionKey := some lazy.extent
              scriptData :=
                (if lazy.isRelazifiable && !lazy.hasPrivateScriptData then
                  { topLevel with allowRelazify := true }
                else topLevel) :: rest },
            w1) ∧
      w1.trace = w.trace ++ [Event.standaloneLazyFunction, Event.emitterInit,
        Event.emitFunctionScript] := by
  refine ⟨{ fc := e.fc, exceptionPending := w.exceptionPending
            trace := w.trace ++ [Event.standaloneLazyFunction, Event.emitterInit,
              Event.emitFunctionScript] }, ?_, rfl⟩
  unfold compileLazyFunction
  simp only [hinit, hcheck, Bool.not_true, Bool.false_eq_true, if_false, hr, hfn]
  have hfc1 : (({ (w.log Event.standaloneLazyFunction) with fc := r.fc } : World).log
      Event.emitterInit).fc = r.fc := rfl
  simp only [hemitInit, hfc1, he, hok, Bool.not_true, Bool.false_eq_true, if_false, hdata]
  cases hcond : (lazy.isRelazifiable && !lazy.hasPrivateScriptData)
  · simp only [Bool.false_eq_true, if_false, World.log, List.append_assoc,
      List.singleton_append, List.cons_append, List.nil_append, ← hdata]
  · simp only [if_true, World.log, List.append_assoc, List.singleton_append,
      List.cons_append, List.nil_append]

/-- The sample compile of a function that may be relazified and has no private
script data: its record is marked. -/
theorem relazify_mark_witness :
    ∃ w1, compileLazyFunction Env.sample
        { options := {}, target := InputTarget.fromStencil
          lazy := some { extent := SourceExtent.sample } }
        { extent := SourceExtent.sample } [2, 3, 4] {} =
        Except.ok
          (some
            { input :=
                { options := {}, target := InputTarget.fromStencil
                  lazy := some { extent := SourceExtent.sample } }
              directives := { strict := false, asmJS := false }
              scriptData :=
                (if ({ extent := SourceExtent.sample } : LazyFunctionInfo).isRelazifiable &&
                    !({ extent := SourceExtent.sample } : LazyFunctionInfo).hasPrivateScriptData
                  then { ({} : ScriptStencil) with allowRelazify := true }
                else {}) :: []
              scriptExtra := [{}]
              functionKey := some SourceExtent.sample
              sharedData := SharedDataContainer.single [1, 2, 3] },
            w1) ∧
      w1.trace = ([] : List Event) ++ [Event.standaloneLazyFunction, Event.emitterInit,
        Event.emitFunctionScript] :=
  relazify_mark Env.sample
    { options := {}, target := InputTarget.fromStencil
      lazy := some { extent := SourceExtent.sample } }
    { extent := SourceExtent.sample } [2, 3, 4] {} _ _ _ {} [] rfl rfl rfl rfl rfl rfl rfl rfl


/-! ### The extra bindings: the vector, the refinement, the environment -/

/-- The loop of `CreateExtraBindingInfoVector` yields one entry for each key, in
key order: the key is a string, the entry holds its UTF-8 copy, and the entry
is shadowed exactly when the key is found on the global object or on the global
lexical environment. -/
theorem createExtraBindingInfoLoop_entries (env : Env) (keys : List PropertyKey) :
    ∀ (infos : ExtraBindingInfoVector) (reported : Bool),
      createExtraBindingInfoLoop env keys = (some infos, reported) →
      List.Forall₂
        (fun key info =>
          (∃ str, key = PropertyKey.string str ∧
            env.encodeStringToUTF8 str = some info.nameChars) ∧
          info.nameIndex = none ∧
          (info.isShadowed = true ↔
            (env.globalHasProperty key = some true ∨
              env.globalLexicalHasProperty key = some true)))
        keys infos := by
  induction keys with
  | nil =>
    intro infos reported h
    simp only [createExtraBindingInfoLoop, Prod.mk.injEq, Option.some.injEq] at h
    rw [← h.1]
    exact List.Forall₂.nil
  | cons key rest ih =>
    intro infos reported h
    unfold createExtraBindingInfoLoop at h
    split at h
    · cases h
    · rename_i str
      split at h
      · cases h
      · rename_i utf8chars henc
        split at h
        · cases h
        · rename_i found hglobal
          cases found with
          | true =>
            simp only [if_true] at h
            split at h
            · cases h
            · rename_i infos1 reported1 hrest
              cases h
              exact List.Forall₂.cons
                ⟨⟨str, rfl, henc⟩, rfl, ⟨fun _ => Or.inl hglobal, fun _ => rfl⟩⟩
                (ih infos1 _ hrest)
          | false =>
            simp only [Bool.false_eq_true, if_false] at h
            cases hlex : env.globalLexicalHasProperty (PropertyKey.string str) with
            | none =>
              simp only [hlex] at h
              cases h
            | some found1 =>
              simp only [hlex] at h
              split at h
              · cases h
              · rename_i infos1 reported1 hrest
                cases h
                refine List.Forall₂.cons ⟨⟨str, rfl, henc⟩, rfl, ?_⟩
                  (ih infos1 _ hrest)
                constructor
                · intro hs
                  right
                  rw [hlex]
                  exact congrArg some hs
                · intro hs
                  rcases hs with hs | hs
                  · rw [hglobal] at hs
                    cases hs
                  · rw [hlex] at hs
                    exact Option.some.inj hs

/-- The loop of `CreateExtraBindingInfoVector` yields a vector when every key is
a string that can be encoded and every property lookup it makes succeeds. -/
theorem createExtraBindingInfoLoop_ok (env : Env) (keys : List PropertyKey)
    (hkeys : ∀ key ∈ keys,
      (∃ str, key = PropertyKey.string str ∧ (env.encodeStringToUTF8 str).isSome = true) ∧
      (env.globalHasProperty key).isSome = true ∧
      (env.globalHasProperty key = some false →
        (env.globalLexicalHasProperty key).isSome = true)) :
    ∃ infos, createExtraBindingInfoLoop env keys = (some infos, false) := by
  induction keys with
  | nil => exact ⟨[], rfl⟩
  | cons key rest ih =>
    obtain ⟨infos, hinfos⟩ := ih (fun k hk => hkeys k (List.mem_cons_of_mem _ hk))
    obtain ⟨⟨str, rfl, henc⟩, hglobal, hlex⟩ := hkeys key (List.mem_cons_self _ _)
    obtain ⟨utf8chars, henc'⟩ := Option.isSome_iff_exists.1 henc
    obtain ⟨found, hfound⟩ := Option.isSome_iff_exists.1 hglobal
    unfold createExtraBindingInfoLoop
    simp only [henc', hfound]
    cases found with
    | true =>
      simp only [if_true, hinfos]
      exact ⟨_, rfl⟩
    | false =>
      obtain ⟨found1, hfound1⟩ := Option.isSome_iff_exists.1 (hlex hfound)
      simp only [Bool.false_eq_true, if_false, hfound1, hinfos]
      exact ⟨_, rfl⟩

/-- C26: a `CreateExtraBindingInfoVector` that succeeds yields one entry for each
key, in key order; every key is a string, the entry holds its UTF-8 copy, and its
`isShadowed` flag is true exactly when the key is a property of the global object
or of the global lexical environment. It does succeed, leaving the world as it
was, when there are as many values as keys, the reservation succeeds, every key
is a string that can be encoded, and every property lookup succeeds. -/
theorem CreateExtraBindingInfoVector_entries (env : Env)
    (unwrappedBindingKeys : List PropertyKey) (unwrappedBindingValues : List Value)
    (w : World) :
    (∀ (extraBindings : ExtraBindingInfoVector) (w' : World),
      CreateExtraBindingInfoVector env unwrappedBindingKeys unwrappedBindingValues w =
        Except.ok (some extraBindings, w') →
      extraBindings.length = unwrappedBindingKeys.length ∧
      List.Forall₂
        (fun key info =>
          (∃ str, key = PropertyKey.string str ∧
            env.encodeStringToUTF8 str = some info.nameChars) ∧
          info.nameIndex = none ∧
          (info.isShadowed = true ↔
            (env.globalHasProperty key = some true ∨
              env.globalLexicalHasProperty key = some true)))
        unwrappedBindingKeys extraBindings) ∧
    (unwrappedBindingKeys.length = unwrappedBindingValues.length →
      env.reserveOk unwrappedBindingKeys.length = true →
      (∀ key ∈ unwrappedBindingKeys,
        (∃ str, key = PropertyKey.string str ∧ (env.encodeStringToUTF8 str).isSome = true) ∧
        (env.globalHasProperty key).isSome = true ∧
        (env.globalHasProperty key = some false →
          (env.globalLexicalHasProperty key).isSome = true)) →
      ∃ extraBindings,
        CreateExtraBindingInfoVector env unwrappedBindingKeys unwrappedBindingValues w =
          Except.ok (some extraBindings, w)) := by
  refine ⟨?_, ?_⟩
  · intro extraBindings w' h
    unfold CreateExtraBindingInfoVector at h
    split at h
    · cases h
    · split at h
      · cases h
      · simp only [Except.ok.injEq, Prod.mk.injEq] at h
        have hall := createExtraBindingInfoLoop_entries env unwrappedBindingKeys extraBindings
          (createExtraBindingInfoLoop env unwrappedBindingKeys).2
          (Prod.ext h.1 rfl)
        exact ⟨hall.length_eq.symm, hall⟩
  · intro hlen hreserve hkeys
    obtain ⟨infos, hinfos⟩ := createExtraBindingInfoLoop_ok env unwrappedBindingKeys hkeys
    refine ⟨infos, ?_⟩
    have hreserve' : env.reserveOk unwrappedBindingValues.length = true := hlen ▸ hreserve
    unfold CreateExtraBindingInfoVector
    simp only [hlen, ne_eq, not_true_eq_false, if_false, hreserve', Bool.not_true,
      Bool.false_eq_true, hinfos]

/-- Two keys over a global object that has the first one only: two entries, the
first shadowed. -/
theorem CreateExtraBindingInfoVector_entries_witness :
    (∃ extraBindings,
      CreateExtraBindingInfoVector
        { Env.sample with
          globalHasProperty := fun key => some (decide (key = PropertyKey.string "a")) }
        [PropertyKey.string "a", PropertyKey.string "b"] [1, 2] {} =
        Except.ok (some extraBindings, {})) ∧
    CreateExtraBindingInfoVector
        { Env.sample with
          globalHasProperty := fun key => some (decide (key = PropertyKey.string "a")) }
        [PropertyKey.string "a", PropertyKey.string "b"] [1, 2] {} =
      Except.ok
        (some [{ nameChars := "a", isShadowed := true },
          { nameChars := "b", isShadowed := false }], {}) :=
  ⟨(CreateExtraBindingInfoVector_entries
      { Env.sample with
        globalHasProperty := fun key => some (decide (key = PropertyKey.string "a")) }
      [PropertyKey.string "a", PropertyKey.string "b"] [1, 2] {}).2 rfl rfl
      (by
        intro key hkey
        simp only [List.mem_cons, List.mem_singleton, List.not_mem_nil, or_false] at hkey
        rcases hkey with rfl | rfl
        · exact ⟨⟨"a", rfl, rfl⟩, rfl, fun _ => rfl⟩
        · exact ⟨⟨"b", rfl, rfl⟩, rfl, fun _ => rfl⟩),
    rfl⟩

/-- Interning keeps the bindings in order, with their names and shadowing
flags. -/
theorem internExtraBindings_flags (env : Env) (l : ExtraBindingInfoVector) :
    ∀ (atoms : List String) (l' : ExtraBindingInfoVector) (atoms' : List String),
      internExtraBindings env l atoms = some (l', atoms') →
      List.Forall₂ (fun b0 b => b.nameChars = b0.nameChars ∧ b.isShadowed = b0.isShadowed)
        l l' := by
  induction l with
  | nil =>
    intro atoms l' atoms' h
    simp only [internExtraBindings, Option.some.injEq, Prod.mk.injEq] at h
    rw [← h.1]
    exact List.Forall₂.nil
  | cons b rest ih =>
    intro atoms l' atoms' h
    unfold internExtraBindings at h
    split at h
    · cases h
    · split at h
      · cases h
      · rename_i hrest
        cases h
        exact List.Forall₂.cons ⟨rfl, rfl⟩ (ih _ _ _ hrest)

/-- C27: in a run of `popupateExtraBindingsFields` that gets past interning, the
bindings of the input afterwards are the interned ones, in order, each with the
flag `isShadowed` set to its flag before, or whether its name is among the
bindings declared in the parsed global scope. Against the bindings before the
call: a binding shadowed before stays shadowed, a binding is shadowed afterwards
exactly when it was before or its interned name is declared, and with no
declared global binding every flag is unchanged. -/
theorem popupateExtraBindingsFields_flags (env : Env) (c : ScriptCompiler)
    (globalsc : GlobalSharedContext) (fc : FrontendContext)
    (interned : ExtraBindingInfoVector) (atoms : List String)
    (hintern : internExtraBindings env c.compilationState_.input.extraBindings
      c.compilationState_.parserAtoms = some (interned, atoms)) :
    (c.popupateExtraBindingsFields env globalsc fc).2.1.compilationState_.input.extraBindings =
      interned.map (fun b =>
        { b with isShadowed := b.isShadowed || declaredInGlobalScope globalsc.bindings b }) ∧
    List.Forall₂
      (fun b0 b =>
        b.nameChars = b0.nameChars ∧
        b.isShadowed = (b0.isShadowed || declaredInGlobalScope globalsc.bindings b) ∧
        (b0.isShadowed = true → b.isShadowed = true) ∧
        (b.isShadowed = true ↔
          (b0.isShadowed = true ∨
            ∃ bs, globalsc.bindings = some bs ∧ ∃ name ∈ bs, b.nameIndex = some name)) ∧
        ((globalsc.bindings = none ∨ globalsc.bindings = some []) →
          b.isShadowed = b0.isShadowed))
      c.compilationState_.input.extraBindings
      (c.popupateExtraBindingsFields env globalsc fc).2.1.compilationState_.input.extraBindings
    := by
  have hresult :
      (c.popupateExtraBindingsFields env globalsc fc).2.1.compilationState_.input.extraBindings
        = interned.map (fun b =>
          { b with isShadowed := b.isShadowed || declaredInGlobalScope globalsc.bindings b })
      := by
    unfold ScriptCompiler.popupateExtraBindingsFields
    rw [hintern]
    have hmap : (populateLoop globalsc.bindings interned false).1 =
        interned.map (fun b =>
          { b with isShadowed := b.isShadowed || declaredInGlobalScope globalsc.bindings b })
        := by
      rw [populateLoop_fst]
      apply List.map_congr_left
      intro b _
      cases hb : b.isShadowed
      · simp
      · simp only [if_true, Bool.true_or]
        cases b
        simp only at hb
        subst hb
        rfl
    simp only
    split_ifs <;> simp only [CompilationInput.extraBindings, Option.getD_some, hmap]
  refine ⟨hresult, ?_⟩
  rw [hresult, List.forall₂_map_right_iff]
  refine (internExtraBindings_flags env _ _ _ _ hintern).imp ?_
  intro b0 b hb
  obtain ⟨hname, hflag⟩ := hb
  have hdecl : declaredInGlobalScope globalsc.bindings
      { b with isShadowed := b.isShadowed || declaredInGlobalScope globalsc.bindings b } =
      declaredInGlobalScope globalsc.bindings b := by
    cases globalsc.bindings <;> rfl
  refine ⟨hname, ?_, ?_, ?_, ?_⟩
  · show (b.isShadowed || declaredInGlobalScope globalsc.bindings b) = _
    rw [hdecl, hflag]
  · intro h0
    simp only [hflag, h0, Bool.true_or]
  · simp only [hflag, Bool.or_eq_true, declaredInGlobalScope_iff]
  · intro hnone
    have hfalse : declaredInGlobalScope globalsc.bindings b = false := by
      rcases hnone with h | h <;> simp [declaredInGlobalScope, h]
    simp only [hflag, hfalse, Bool.or_false]

/-- Two bindings, the first one shadowed before the parse, over a global scope
that declares the second: both are shadowed afterwards. -/
theorem popupateExtraBindingsFields_flags_witness :
    (ScriptCompiler.popupateExtraBindingsFields Env.sample
        { compilationState_ :=
            { input :=
                { options := {}
                  maybeExtraBindings := some
                    [{ nameChars := "a", isShadowed := true },
                      { nameChars := "b", isShadowed := false }] }
              directives := { strict := false, asmJS := false } }
          tokenStream := { position := 0, hadError := false }
          sourceBuffer_ := [120] }
        { GlobalSharedContext.sample ScopeKind.NonSyntactic with bindings := some [1] }
        {}).2.1.compilationState_.input.extraBindings =
      ([{ nameChars := "a", nameIndex := some 0, isShadowed := true },
        { nameChars := "b", nameIndex := some 1, isShadowed := false }] :
          ExtraBindingInfoVector).map (fun b =>
          { b with
            isShadowed := b.isShadowed || declaredInGlobalScope (some [1]) b }) :=
  (popupateExtraBindingsFields_flags Env.sample
    { compilationState_ :=
        { input :=
            { options := {}
              maybeExtraBindings := some
                [{ nameChars := "a", isShadowed := true },
                  { nameChars := "b", isShadowed := false }] }
          directives := { strict := false, asmJS := false } }
      tokenStream := { position := 0, hadError := false }
      sourceBuffer_ := [120] }
    { GlobalSharedContext.sample ScopeKind.NonSyntactic with bindings := some [1] }
    {}
    [{ nameChars := "a", nameIndex := some 0, isShadowed := true },
      { nameChars := "b", nameIndex := some 1, isShadowed := false }]
    ["a", "b"] rfl).1

/-- C29: in `ConvertGlobalScriptStencilMaybeInstantiate` the stencil container
is null after the second block, which is what sends the instantiation to the
borrowing stencil, only when `populateDelazificationCache` is off and
`stencilsOut` is null. On that branch, with `gcOutput` and a context supplied:
if `initialStencilOut` is supplied, so that the extensible stencil was moved to
the heap, the assertion `!initialStencilOut` ends the run; if it is not, the
extensible stencil was not moved and the result is the instantiation of that
extensible stencil itself. None of the destination patterns of this file's entry
points supplies `initialStencilOut` together with `gcOutput`, and with them the
conversion never ends in an assertion (for `CompileGlobalScriptImpl`, which
passes its context). -/
theorem Convert_borrow_branch (env : Env) (input : CompilationInput)
    (extensibleStencil : CompilationState) (w : World) :
    (∀ (slots : OutSlots) (initialStencil : Option CompilationStencil) (out out2 : Outputs),
      convertStencils env input initialStencil slots out = some (none, out2) →
      input.options.populateDelazificationCache = false ∧ slots.stencilsOut = false) ∧
    (∀ (slots : OutSlots),
      input.options.populateDelazificationCache = false → slots.stencilsOut = false →
      slots.gcOutput = true →
      (slots.initialStencilOut = true →
        env.makeExtensibleStencilOk = true → env.newCompilationStencilOk = true →
        ConvertGlobalScriptStencilMaybeInstantiate env true input extensibleStencil slots w =
          Except.error Abort.mozAssert) ∧
      (slots.initialStencilOut = false →
        convertInitialStencil env input extensibleStencil slots = some (none, {}) ∧
        ConvertGlobalScriptStencilMaybeInstantiate env true input extensibleStencil slots w =
          Except.ok
            ((InstantiateStencils env input extensibleStencil w).1,
              { gcOutput := (InstantiateStencils env input extensibleStencil w).2.1 },
              (InstantiateStencils env input extensibleStencil w).2.2))) ∧
    ((CompileGlobalScriptToStencilWithInput.slots.initialStencilOut &&
        CompileGlobalScriptToStencilWithInput.slots.gcOutput) = false ∧
      (CompileGlobalScriptToStencilImpl.slots.initialStencilOut &&
        CompileGlobalScriptToStencilImpl.slots.gcOutput) = false ∧
      (CompileGlobalScriptImpl.slots.initialStencilOut &&
        CompileGlobalScriptImpl.slots.gcOutput) = false) ∧
    (∀ (hasCx : Bool) (e : Abort),
      ConvertGlobalScriptStencilMaybeInstantiate env hasCx input extensibleStencil
          CompileGlobalScriptToStencilWithInput.slots w ≠ Except.error e ∧
      ConvertGlobalScriptStencilMaybeInstantiate env hasCx input extensibleStencil
          CompileGlobalScriptToStencilImpl.slots w ≠ Except.error e ∧
      ConvertGlobalScriptStencilMaybeInstantiate env true input extensibleStencil
          CompileGlobalScriptImpl.slots w ≠ Except.error e) := by
  refine ⟨?_, ?_, ⟨rfl, rfl, rfl⟩, ?_⟩
  · intro slots initialStencil out out2 h
    unfold convertStencils at h
    split at h
    · split at h
      · cases h
      · cases h
    · rename_i hcond
      simpa using hcond
  · intro slots hpop hso hgc
    refine ⟨?_, ?_⟩
    · intro hio hm hn
      unfold ConvertGlobalScriptStencilMaybeInstantiate convertInitialStencil convertStencils
      simp [hpop, hso, hgc, hio, hm, hn]
    · intro hio
      refine ⟨?_, ?_⟩
      · unfold convertInitialStencil
        simp [hpop, hso, hio]
      · unfold ConvertGlobalScriptStencilMaybeInstantiate convertInitialStencil convertStencils
          convertDelazification
        simp [hpop, hso, hgc, hio]
  · intro hasCx e
    refine ⟨?_, ?_, ?_⟩
    · intro h
      unfold ConvertGlobalScriptStencilMaybeInstantiate at h
      split at h
      · cases h
      · split at h
        · cases h
        · simp [CompileGlobalScriptToStencilWithInput.slots] at h
    · intro h
      unfold ConvertGlobalScriptStencilMaybeInstantiate at h
      split at h
      · cases h
      · split at h
        · cases h
        · simp [CompileGlobalScriptToStencilImpl.slots] at h
    · intro h
      unfold ConvertGlobalScriptStencilMaybeInstantiate at h
      split at h
      · cases h
      · split at h
        · cases h
        · simp only [CompileGlobalScriptImpl.slots, if_true, Bool.not_true,
            Bool.false_eq_true, if_false] at h
          split at h
          · cases h
          · cases h

/-- The conversion for `CompileGlobalScriptImpl` with the delazification cache
off: the extensible stencil is not moved, and it is the one instantiated. -/
theorem Convert_borrow_branch_witness :
    convertInitialStencil Env.sample { options := {} }
        { input := { options := {} }, directives := { strict := false, asmJS := false } }
        CompileGlobalScriptImpl.slots = some (none, {}) ∧
    ConvertGlobalScriptStencilMaybeInstantiate Env.sample true { options := {} }
        { input := { options := {} }, directives := { strict := false, asmJS := false } }
        CompileGlobalScriptImpl.slots {} =
      Except.ok
        ((InstantiateStencils Env.sample { options := {} }
            { input := { options := {} }, directives := { strict := false, asmJS := false } }
            {}).1,
          { gcOutput := (InstantiateStencils Env.sample { options := {} }
              { input := { options := {} }, directives := { strict := false, asmJS := false } }
              {}).2.1 },
          (InstantiateStencils Env.sample { options := {} }
            { input := { options := {} }, directives := { strict := false, asmJS := false } }
            {}).2.2) :=
  ((Convert_borrow_branch Env.sample { options := {} }
    { input := { options := {} }, directives := { strict := false, asmJS := false } }
    {}).2.1 CompileGlobalScriptImpl.slots rfl rfl rfl).2 rfl


/-! ### The extent of a standalone function -/

/-- A committed `handleParseFailure` keeps the input of the compilation state. -/
theorem handleParseFailure_input (c c' : SourceAwareCompiler) (d : Directives)
    (p : TokenStreamPosition) (sp : CompilationStatePosition)
    (h : c.handleParseFailure d p sp = Except.ok c') :
    c'.compilationState_.input = c.compilationState_.input := by
  unfold SourceAwareCompiler.handleParseFailure at h
  split at h
  · cases h
  · dsimp only at h
    split at h
    · cases h
    · split at h
      · cases h
      · cases h
        rfl

/-- The loop of `StandaloneFunctionCompiler::parse` keeps the source buffer and
the input of the compiler. -/
theorem parseLoop_preserves (env : Env) (parameterListEnd : Option Nat)
    (syntaxKind : FunctionSyntaxKind) (generatorKind : GeneratorKind)
    (asyncKind : FunctionAsyncKind) (p : TokenStreamPosition)
    (sp : CompilationStatePosition) (fuel : Nat) :
    ∀ (c : StandaloneFunctionCompiler) (w : World)
      (out : Option FunctionNode × StandaloneFunctionCompiler × World),
      StandaloneFunctionCompiler.parseLoop env parameterListEnd syntaxKind generatorKind
        asyncKind p sp fuel c w = Except.ok (some out) →
      out.2.1.sourceBuffer_ = c.sourceBuffer_ ∧
      out.2.1.compilationState_.input = c.compilationState_.input := by
  induction fuel with
  | zero =>
    intro c w out h
    simp [StandaloneFunctionCompiler.parseLoop] at h
  | succ fuel ih =>
    intro c w out h
    unfold StandaloneFunctionCompiler.parseLoop at h
    simp only at h
    split at h
    · cases h
      exact ⟨rfl, rfl⟩
    · split at h
      · cases h
        exact ⟨rfl, rfl⟩
      · split at h
        · cases h
        · rename_i base hbase
          obtain ⟨h1, h2⟩ := ih _ _ out h
          have hb := handleParseFailure_input _ base _ _ _ hbase
          exact ⟨h1, h2.trans hb⟩

/-- C30, as stated, fails: with a column conversion that clamps at `1073741823`,
a successful `StandaloneFunctionCompiler::compile` of an interpreted function
under options whose column is `4294967295` (the parser and the emitter each run
once) leaves the top-level record's extent with column `1073741823`, which is not
the column of the options. -/
theorem standalone_column_is_limited :
    ∃ c' w', (StandaloneFunctionCompiler.sample
          { options := { lineno := 4, column := 4294967295 } }).compile
        Env.sample none FunctionSyntaxKind.Statement GeneratorKind.NotGenerator
        FunctionAsyncKind.SyncFunction 1 {} = Except.ok (some (true, c', w')) ∧
      c'.compilationState_.input.options.column = 4294967295 ∧
      c'.compilationState_.scriptExtra.map (fun extra => extra.extent.column)
        = [1073741823] ∧
      c'.compilationState_.scriptExtra.map (fun extra => extra.extent.column)
        ≠ [c'.compilationState_.input.options.column] ∧
      w'.trace = [Event.standaloneFunction 0, Event.emitterInit, Event.emitFunctionScript] :=
  ⟨_, _, rfl, rfl, rfl, by decide, rfl⟩

/-- C30, amended: a run of `StandaloneFunctionCompiler::compile` whose parse
succeeded. For an interpreted function whose emitter initialisation and emit
succeed, the compile succeeds and the top-level record's extent afterwards has
source start 0, source end the length of the source buffer, the `toString` start
and end of the parsed function box, the line of the compile options, and as
column the result of `JS::LimitedColumnNumberOneOrigin::fromUnlimited` on the
column of the compile options; the state is otherwise the one the emitter left.
For a function that is not interpreted (an asm.js module, as the assertions
say), the compile succeeds with the compiler and the world exactly as the parser
left them: no emitter call, and the extent untouched. The source buffer and the
options are those the compile started with. -/
theorem standalone_extent (env : Env) (parameterListEnd : Option Nat)
    (syntaxKind : FunctionSyntaxKind) (generatorKind : GeneratorKind)
    (asyncKind : FunctionAsyncKind) (fuel : Nat) (c : StandaloneFunctionCompiler)
    (w : World) (fn : FunctionNode) (c1 : StandaloneFunctionCompiler) (w1 : World)
    (hparse : c.parse env parameterListEnd syntaxKind generatorKind asyncKind fuel w =
      Except.ok (some (some fn, c1, w1))) :
    (c1.sourceBuffer_ = c.sourceBuffer_ ∧
      c1.compilationState_.input = c.compilationState_.input) ∧
    (∀ (e : EmitResult) (topLevel : ScriptStencilExtra) (rest : List ScriptStencilExtra),
      fn.funbox.isInterpreted = true →
      env.emitterInit
        (if fn.funbox.selfHosted then EmitterMode.SelfHosting else EmitterMode.Normal)
        c1.compilationState_ = true →
      env.emitFunctionScript
        (if fn.funbox.selfHosted then EmitterMode.SelfHosting else EmitterMode.Normal)
        fn c1.compilationState_ w1.fc = e →
      e.ok = true →
      e.compilationState.scriptExtra = topLevel :: rest →
      ∃ w', c.compile env parameterListEnd syntaxKind generatorKind asyncKind fuel w =
          Except.ok (some (true,
            { c1 with
              compilationState_ :=
                { e.compilationState with
                  input := c1.compilationState_.input
                  scriptExtra :=
                    { topLevel with
                      extent :=
                        { sourceStart := 0
                          sourceEnd := c.sourceBuffer_.length
                          toStringStart := fn.funbox.extent.toStringStart
                          toStringEnd := fn.funbox.extent.toStringEnd
                          lineno := c.compilationState_.input.options.lineno
                          column :=
                            env.fromUnlimited c.compilationState_.input.options.column } }
                    :: rest } },
            w')) ∧
        w'.trace = w1.trace ++ [Event.emitterInit, Event.emitFunctionScript]) ∧
    (fn.funbox.isInterpreted = false →
      c1.asmJSAssertions fn.funbox = true →
      c.compile env parameterListEnd syntaxKind generatorKind asyncKind fuel w =
        Except.ok (some (true, c1, w1))) := by
  have hpres : c1.sourceBuffer_ = c.sourceBuffer_ ∧
      c1.compilationState_.input = c.compilationState_.input :=
    parseLoop_preserves env parameterListEnd syntaxKind generatorKind asyncKind
      _ _ fuel c w _ hparse
  refine ⟨hpres, ?_, ?_⟩
  · intro e topLevel rest hint hinit he hok hextra
    refine ⟨{ fc := e.fc, exceptionPending := w1.exceptionPending
              trace := w1.trace ++ [Event.emitterInit, Event.emitFunctionScript] }, ?_, rfl⟩
    unfold StandaloneFunctionCompiler.compile
    rw [hparse]
    simp only [hint, if_true]
    unfold StandaloneFunctionCompiler.emitStep
    have hfc : (w1.log Event.emitterInit).fc = w1.fc := rfl
    simp only [hinit, hfc, he, hok, hextra, Bool.not_true, Bool.false_eq_true, if_false,
      hpres.1, hpres.2, World.log, List.append_assoc, List.singleton_append]
  · intro hint hasm
    unfold StandaloneFunctionCompiler.compile
    rw [hparse]
    simp only [hint, hasm, Bool.false_eq_true, if_false, Bool.not_true]

/-- The sample compile of a one-unit function at line 4 and column `2000000000`,
above the limit of the sample conversion: the extent of the top-level record
spans the buffer, with the function box's `toString` range, the options' line,
and the converted column `1073741823`. -/
theorem standalone_extent_witness :
    ∃ w', (StandaloneFunctionCompiler.sample
          { options := { lineno := 4, column := 2000000000 } }).compile
        Env.sample none FunctionSyntaxKind.Statement GeneratorKind.NotGenerator
        FunctionAsyncKind.SyncFunction 1 {} =
        Except.ok (some (true,
          { compilationState_ :=
              { input := { options := { lineno := 4, column := 2000000000 } }
                directives := { strict := false, asmJS := false }
                scriptData := [{}]
                scriptExtra :=
                  [{ extent :=
                      { sourceStart := 0, sourceEnd := 1, toStringStart := 0, toStringEnd := 1
                        lineno := 4, column := 1073741823 } }] }
            tokenStream := { position := 0, hadError := false }
            sourceBuffer_ := [120] },
          w')) ∧
      w'.trace = [Event.standaloneFunction 0] ++
        [Event.emitterInit, Event.emitFunctionScript] :=
  (standalone_extent Env.sample none FunctionSyntaxKind.Statement GeneratorKind.NotGenerator
    FunctionAsyncKind.SyncFunction 1
    (StandaloneFunctionCompiler.sample { options := { lineno := 4, column := 2000000000 } }) {}
    { node := 1, funbox := { extent := SourceExtent.makeGlobalExtent 1 1 1 } }
    { compilationState_ :=
        { input := { options := { lineno := 4, column := 2000000000 } }
          directives := { strict := false, asmJS := false }
          scriptData := [{}], scriptExtra := [{}] }
      tokenStream := { position := 0, hadError := false }
      sourceBuffer_ := [120] }
    { trace := [Event.standaloneFunction 0] } rfl).2.1
    { ok := true
      compilationState :=
        { input := { options := { lineno := 4, column := 2000000000 } }
          directives := { strict := false, asmJS := false }
          scriptData := [{}], scriptExtra := [{}] }
      fc := {} }
    {} [] rfl rfl rfl rfl rfl

/-! ### The module builder pass -/

/-- The calls of the emit half of `ModuleCompiler::compile`: on success the
emitter's initialisation, the emit and the builder pass; on failure the
initialisation, or the initialisation and the emit. -/
theorem ModuleCompiler_emitStep_events (env : Env) (c : ModuleCompiler) (pn : ParseNode)
    (w : World) (b : Bool) (c' : ModuleCompiler) (w' : World)
    (h : c.emitStep env pn w = Except.ok (b, c', w')) :
    (b = true ∧
      w'.trace = w.trace ++ [Event.emitterInit, Event.emitScript,
        Event.finishFunctionDecls]) ∨
    (b = false ∧
      (w'.trace = w.trace ++ [Event.emitterInit] ∨
        w'.trace = w.trace ++ [Event.emitterInit, Event.emitScript])) := by
  unfold ModuleCompiler.emitStep at h
  simp only at h
  generalize (if c.compilationState_.input.options.selfHostingMode = true then
    EmitterMode.SelfHosting else EmitterMode.Normal) = mode at h
  split at h
  · cases h
    exact Or.inr ⟨rfl, Or.inl rfl⟩
  · split at h
    · cases h
      exact Or.inr ⟨rfl, Or.inr (by simp [World.log])⟩
    · split at h
      · cases h
      · cases h
        exact Or.inl ⟨rfl, by simp [World.log]⟩

/-- The calls of a run of `ModuleCompiler::compile`: on success the append, the
parse, the emitter's initialisation, the emit and the builder pass, in that
order; on failure a proper prefix of the first four. -/
theorem ModuleCompiler_compile_events (env : Env) (c : ModuleCompiler) (w : World)
    (b : Bool) (c' : ModuleCompiler) (w' : World)
    (h : c.compile env w = Except.ok (b, c', w')) :
    (b = true ∧
      w'.trace = w.trace ++ [Event.appendScriptStencilAndData TopLevelIndex, Event.moduleBody,
        Event.emitterInit, Event.emitScript, Event.finishFunctionDecls]) ∨
    (b = false ∧
      (w'.trace = w.trace ++ [Event.appendScriptStencilAndData TopLevelIndex] ∨
        w'.trace = w.trace ++ [Event.appendScriptStencilAndData TopLevelIndex,
          Event.moduleBody] ∨
        w'.trace = w.trace ++ [Event.appendScriptStencilAndData TopLevelIndex,
          Event.moduleBody, Event.emitterInit] ∨
        w'.trace = w.trace ++ [Event.appendScriptStencilAndData TopLevelIndex,
          Event.moduleBody, Event.emitterInit, Event.emitScript])) := by
  unfold ModuleCompiler.compile at h
  split at h
  · cases h
  · rename_i hlen
    have hlen' : c.compilationState_.scriptData.length = TopLevelIndex := by
      by_contra hne
      exact hlen hne
    simp only [hlen'] at h
    split at h
    · cases h
      exact Or.inr ⟨rfl, Or.inl rfl⟩
    · split at h
      · cases h
        exact Or.inr ⟨rfl, Or.inr (Or.inl (by simp [World.log]))⟩
      · rcases ModuleCompiler_emitStep_events env _ _ _ b c' w' h with
          ⟨hb, ht⟩ | ⟨hb, ht | ht⟩
        · exact Or.inl ⟨hb, by rw [ht]; simp [World.log]⟩
        · exact Or.inr ⟨hb, Or.inr (Or.inr (Or.inl (by rw [ht]; simp [World.log])))⟩
        · exact Or.inr ⟨hb, Or.inr (Or.inr (Or.inr (by rw [ht]; simp [World.log])))⟩

/-- The calls of `InstantiateStencils`: the instantiation, then at most the
compression request, then at most the notification. -/
theorem InstantiateStencils_events (env : Env) (input : CompilationInput)
    (stencil : CompilationState) (w : World) :
    ∃ rest, (InstantiateStencils env input stencil w).2.2.trace =
        w.trace ++ Event.instantiateStencils :: rest ∧
      Event.finishFunctionDecls ∉ rest ∧ Event.emitScript ∉ rest := by
  unfold InstantiateStencils
  simp only
  split
  · exact ⟨[], rfl, by simp, by simp⟩
  · split
    · exact ⟨[Event.tryCompressOffThread], by simp [World.log], by simp, by simp⟩
    · unfold FireOnNewScript
      split
      · exact ⟨[Event.tryCompressOffThread, Event.onNewScript], by simp [World.log],
          by simp, by simp⟩
      · exact ⟨[Event.tryCompressOffThread], by simp [World.log], by simp, by simp⟩

/-- C23: in every run of `ParseModuleToStencilAndMaybeInstantiate`, a success
made the append, the parse, the emitter's initialisation, `emitScript` and the
builder pass `finishFunctionDecls`, in that order, and only then the output part:
nothing more for a stencil, the instantiation first for a `gcOutput`. Whenever
the pass or an instantiation is on the trace, those five calls come first, so the
pass ran after the emit and before any instantiation. When the compile fails
(the parse, the emitter's initialisation or the emit) the call returns failure
with the world the compile left: the pass did not run and nothing was
instantiated. -/
theorem module_builder_order (env : Env) (hasCx : Bool) (input : CompilationInput)
    (srcBuf : SourceText) (output : BytecodeCompilerOutput) (w : World)
    (out : ModuleOutcome)
    (h : ParseModuleToStencilAndMaybeInstantiate env hasCx input srcBuf output w =
      Except.ok out) :
    ∃ evs, out.world.trace = w.trace ++ evs ∧
      (out.ok = true →
        ∃ post, evs = [Event.appendScriptStencilAndData TopLevelIndex, Event.moduleBody,
            Event.emitterInit, Event.emitScript, Event.finishFunctionDecls] ++ post ∧
          Event.finishFunctionDecls ∉ post ∧ Event.emitScript ∉ post ∧
          (output = BytecodeCompilerOutput.stencil → post = []) ∧
          (output = BytecodeCompilerOutput.gcOutput →
            ∃ rest, post = Event.instantiateStencils :: rest)) ∧
      ((Event.finishFunctionDecls ∈ evs ∨ Event.instantiateStencils ∈ evs) →
        ∃ post, evs = [Event.appendScriptStencilAndData TopLevelIndex, Event.moduleBody,
            Event.emitterInit, Event.emitScript, Event.finishFunctionDecls] ++ post ∧
          Event.finishFunctionDecls ∉ post ∧ Event.emitScript ∉ post) ∧
      (∀ (c1 : ModuleCompiler) (w1 : World),
        env.initInputOk InputTarget.module = true →
        (ModuleCompiler.create env { input with target := InputTarget.module } srcBuf).init
          env = true →
        (ModuleCompiler.create env { input with target := InputTarget.module } srcBuf).compile
          env w = Except.ok (false, c1, w1) →
        out.ok = false ∧ out.world = w1 ∧
          Event.finishFunctionDecls ∉ evs ∧ Event.instantiateStencils ∉ evs) := by
  unfold ParseModuleToStencilAndMaybeInstantiate at h
  split at h
  · cases h
  · split at h
    · rename_i hinput
      cases h
      refine ⟨[], by simp, (fun hok => by cases hok), (fun hm => by simp at hm), ?_⟩
      intro c1 w1 hi
      simp [hi] at hinput
    · unfold parseModuleGuarded at h
      simp only at h
      split at h
      · rename_i hinit
        cases h
        refine ⟨[], by simp, (fun hok => by cases hok), (fun hm => by simp at hm), ?_⟩
        intro c1 w1 _ hi
        simp [hi] at hinit
      · split at h
        · cases h
        · rename_i compiled compiler1 w1 hcompile
          rcases ModuleCompiler_compile_events env _ w compiled compiler1 w1 hcompile with
            ⟨hb, htrace⟩ | ⟨hb, htrace⟩
          · subst hb
            simp only [Bool.not_true, Bool.false_eq_true, if_false] at h
            have hlast : ∀ c1 w1',
                (ModuleCompiler.create env { input with target := InputTarget.module }
                  srcBuf).compile env w = Except.ok (false, c1, w1') → False := by
              intro c1 w1' hc
              rw [hcompile] at hc
              cases hc
            unfold outputModule at h
            split at h
            · split at h
              · cases h
                refine ⟨_, htrace, (fun hok => by cases hok),
                  fun _ => ⟨[], by simp, by simp, by simp⟩, ?_⟩
                intro c1 w1' _ _ hc
                exact absurd hc (fun hc => hlast c1 w1' hc)
              · split at h
                · cases h
                  refine ⟨_, htrace, (fun hok => by cases hok),
                    fun _ => ⟨[], by simp, by simp, by simp⟩, ?_⟩
                  intro c1 w1' _ _ hc
                  exact absurd hc (fun hc => hlast c1 w1' hc)
                · cases h
                  refine ⟨_, htrace,
                    fun _ => ⟨[], by simp, by simp, by simp, fun _ => rfl,
                      fun ho => by cases ho⟩,
                    fun _ => ⟨[], by simp, by simp, by simp⟩, ?_⟩
                  intro c1 w1' _ _ hc
                  exact absurd hc (fun hc => hlast c1 w1' hc)
            · split at h
              · cases h
              · obtain ⟨rest, hrest, hffd, hes⟩ := InstantiateStencils_events env
                  compiler1.compilationState_.input compiler1.compilationState_ w1
                have hpost : Event.finishFunctionDecls ∉ Event.instantiateStencils :: rest ∧
                    Event.emitScript ∉ Event.instantiateStencils :: rest := by
                  constructor
                  · intro hm
                    rcases List.mem_cons.1 hm with hm | hm
                    · cases hm
                    · exact hffd hm
                  · intro hm
                    rcases List.mem_cons.1 hm with hm | hm
                    · cases hm
                    · exact hes hm
                have htr : (InstantiateStencils env compiler1.compilationState_.input
                    compiler1.compilationState_ w1).2.2.trace =
                    w.trace ++ ([Event.appendScriptStencilAndData TopLevelIndex,
                      Event.moduleBody, Event.emitterInit, Event.emitScript,
                      Event.finishFunctionDecls] ++ Event.instantiateStencils :: rest) := by
                  rw [hrest, htrace]
                  simp
                dsimp only at h
                split at h
                · cases h
                  refine ⟨_, htr, (fun hok => by cases hok),
                    fun _ => ⟨_, rfl, hpost.1, hpost.2⟩, ?_⟩
                  intro c1 w1' _ _ hc
                  exact absurd hc (fun hc => hlast c1 w1' hc)
                · cases h
                  refine ⟨_, htr,
                    fun _ => ⟨_, rfl, hpost.1, hpost.2, (fun ho => by cases ho),
                      fun _ => ⟨rest, rfl⟩⟩,
                    fun _ => ⟨_, rfl, hpost.1, hpost.2⟩, ?_⟩
                  intro c1 w1' _ _ hc
                  exact absurd hc (fun hc => hlast c1 w1' hc)
          · subst hb
            simp only [Bool.not_false, if_true] at h
            cases h
            have hno : ∀ evs : List Event,
                (evs = [Event.appendScriptStencilAndData TopLevelIndex] ∨
                  evs = [Event.appendScriptStencilAndData TopLevelIndex, Event.moduleBody] ∨
                  evs = [Event.appendScriptStencilAndData TopLevelIndex, Event.moduleBody,
                    Event.emitterInit] ∨
                  evs = [Event.appendScriptStencilAndData TopLevelIndex, Event.moduleBody,
                    Event.emitterInit, Event.emitScript]) →
                Event.finishFunctionDecls ∉ evs ∧ Event.instantiateStencils ∉ evs := by
              intro evs hevs
              rcases hevs with rfl | rfl | rfl | rfl <;> simp
            have hcases : ∃ evs, w1.trace = w.trace ++ evs ∧
                Event.finishFunctionDecls ∉ evs ∧ Event.instantiateStencils ∉ evs := by
              rcases htrace with ht | ht | ht | ht
              · exact ⟨_, ht, hno _ (Or.inl rfl)⟩
              · exact ⟨_, ht, hno _ (Or.inr (Or.inl rfl))⟩
              · exact ⟨_, ht, hno _ (Or.inr (Or.inr (Or.inl rfl)))⟩
              · exact ⟨_, ht, hno _ (Or.inr (Or.inr (Or.inr rfl)))⟩
            obtain ⟨evs, hevs, hffd, hinst⟩ := hcases
            refine ⟨evs, hevs, (fun hok => by cases hok), ?_, ?_⟩
            · intro hm
              rcases hm with hm | hm
              · exact absurd hm hffd
              · exact absurd hm hinst
            · intro c1 w1' _ _ hc
              rw [hcompile] at hc
              cases hc
              exact ⟨rfl, rfl, hffd, hinst⟩

/-- The sample module compiled into a `gcOutput`: the builder pass follows the
emit and precedes the instantiation. -/
theorem module_builder_order_witness :
    ∃ evs,
      ({ ok := true, gcOutput := some { script := some 7 }, assertException := some false
         world :=
          { trace := [Event.appendScriptStencilAndData 0, Event.moduleBody,
              Event.emitterInit, Event.emitScript, Event.finishFunctionDecls,
              Event.instantiateStencils, Event.tryCompressOffThread,
              Event.onNewScript] } } : ModuleOutcome).world.trace =
        ([] : List Event) ++ evs ∧
      (({ ok := true, gcOutput := some { script := some 7 }, assertException := some false
          world :=
            { trace := [Event.appendScriptStencilAndData 0, Event.moduleBody,
                Event.emitterInit, Event.emitScript, Event.finishFunctionDecls,
                Event.instantiateStencils, Event.tryCompressOffThread,
                Event.onNewScript] } } : ModuleOutcome).ok = true →
        ∃ post, evs = [Event.appendScriptStencilAndData TopLevelIndex, Event.moduleBody,
            Event.emitterInit, Event.emitScript, Event.finishFunctionDecls] ++ post ∧
          Event.finishFunctionDecls ∉ post ∧ Event.emitScript ∉ post ∧
          (BytecodeCompilerOutput.gcOutput = BytecodeCompilerOutput.stencil → post = []) ∧
          (BytecodeCompilerOutput.gcOutput = BytecodeCompilerOutput.gcOutput →
            ∃ rest, post = Event.instantiateStencils :: rest)) :=
  match module_builder_order Env.sample true { options := {} } [120]
      BytecodeCompilerOutput.gcOutput {}
      { ok := true, gcOutput := some { script := some 7 }, assertException := some false
        world :=
          { trace := [Event.appendScriptStencilAndData 0, Event.moduleBody,
              Event.emitterInit, Event.emitScript, Event.finishFunctionDecls,
              Event.instantiateStencils, Event.tryCompressOffThread,
              Event.onNewScript] } }
      rfl with
  | ⟨evs, htrace, hok, _, _⟩ => ⟨evs, htrace, hok⟩


/-! ### The guard `AutoAssertReportedException` -/

/-- Past the construction of the guard, a run of
`CompileGlobalScriptToStencilAndMaybeInstantiate` returns with the guard armed
exactly when it returns failure. -/
theorem compileGlobalGuarded_guard (env : Env) (hasCx : Bool) (input : CompilationInput)
    (srcBuf : SourceText) (scopeKind : ScopeKind)
    (maybeExtraBindings : Option ExtraBindingInfoVector) (slots : OutSlots) (w : World)
    (r : CompileOutcome)
    (h : compileGlobalGuarded env hasCx input srcBuf scopeKind maybeExtraBindings slots w =
      Except.ok r) :
    r.assertException = some (!r.ok) := by
  unfold compileGlobalGuarded at h
  simp only at h
  split at h
  · cases h
    rfl
  · split at h
    · cases h
    · split at h
      · cases h
        rfl
      · split at h
        · cases h
        · split at h
          · cases h
            rfl
          · cases h
            rfl

/-- The output part of `ParseModuleToStencilAndMaybeInstantiate` returns with the
guard armed exactly when it returns failure. -/
theorem outputModule_guard (env : Env) (hasCx : Bool) (input : CompilationInput)
    (stencil : CompilationState) (output : BytecodeCompilerOutput) (w : World)
    (out : ModuleOutcome)
    (h : outputModule env hasCx input stencil output w = Except.ok out) :
    out.assertException = some (!out.ok) := by
  unfold outputModule at h
  split at h
  · split at h
    · cases h
      rfl
    · split at h
      · cases h
        rfl
      · cases h
        rfl
  · split at h
    · cases h
    · dsimp only at h
      split at h
      · cases h
        rfl
      · cases h
        rfl

/-- The output part of `CompileLazyFunctionToStencilMaybeInstantiate` returns
with the guard armed exactly when it returns failure. -/
theorem outputLazyFunction_guard (env : Env) (maybeCx : Bool) (input : CompilationInput)
    (stencils : Option InitialStencilAndDelazifications) (borrowOut : Bool)
    (compilationState : CompilationState) (w : World) (out : LazyOutcome)
    (h : outputLazyFunction env maybeCx input stencils borrowOut compilationState w =
      Except.ok out) :
    out.assertException = some (!out.ok) := by
  unfold outputLazyFunction at h
  split at h
  · split at h
    · cases h
      rfl
    · split at h
      · cases h
        rfl
      · split at h
        · cases h
        · cases h
          rfl
  · split at h
    · cases h
    · split at h
      · split at h
        · cases h
          rfl
        · split at h
          · cases h
            rfl
          · simp only at h
            split at h
            · cases h
            · cases h
              rfl
            · cases h
              rfl
      · split at h
        · cases h
        · cases h
          rfl
        · cases h
          rfl

/-- The second half of `CompileStandaloneFunction` returns with the guard armed
exactly when it returns null. -/
theorem instantiateStandaloneFunction_guard (env : Env) (options : CompileOptions)
    (parameterListEnd : Option Nat) (input : CompilationInput) (stencil : CompilationState)
    (w : World) (out : StandaloneOutcome)
    (h : instantiateStandaloneFunction env options parameterListEnd input stencil w =
      Except.ok out) :
    out.assertException = some (!out.result.isSome) := by
  unfold instantiateStandaloneFunction at h
  simp only at h
  split at h
  · cases h
    rfl
  · split at h
    · cases h
    · split at h
      · cases h
      · split at h
        · cases h
          rfl
        · cases h
          rfl

/-- C24: at every return of a guarded entry point taken after the
`AutoAssertReportedException` guard is constructed, the guard's `check_` flag is
set exactly when the return is a failure: `reset()` has been called on the
success path only. This holds for
`CompileGlobalScriptToStencilAndMaybeInstantiate` and
`ParseModuleToStencilAndMaybeInstantiate` (whose only return before the guard is
the failed initialisation of the input), for `CompileEvalScriptImpl`,
`CompileLazyFunctionToStencilMaybeInstantiate` and `CompileStandaloneFunction`.
The destructor does nothing for a disarmed guard; for an armed one, once
self-hosting is initialised, it passes exactly when an exception is pending on
the context or the frontend context recorded an error, and ends in its assertion
otherwise; with a context whose self-hosting is not initialised it checks
nothing. -/
theorem guard_armed_on_failure (env : Env) :
    (∀ (hasCx : Bool) (input : CompilationInput) (srcBuf : SourceText)
      (scopeKind : ScopeKind) (maybeExtraBindings : Option ExtraBindingInfoVector)
      (slots : OutSlots) (w : World) (r : CompileOutcome),
      CompileGlobalScriptToStencilAndMaybeInstantiate env hasCx input srcBuf scopeKind
        maybeExtraBindings slots w = Except.ok r →
      (r.assertException = none ∧ r.ok = false ∧
        env.initInputOk (globalInputTarget input.options maybeExtraBindings) = false) ∨
      r.assertException = some (!r.ok)) ∧
    (∀ (hasCx : Bool) (input : CompilationInput) (srcBuf : SourceText)
      (output : BytecodeCompilerOutput) (w : World) (out : ModuleOutcome),
      ParseModuleToStencilAndMaybeInstantiate env hasCx input srcBuf output w =
        Except.ok out →
      (out.assertException = none ∧ out.ok = false ∧
        env.initInputOk InputTarget.module = false) ∨
      out.assertException = some (!out.ok)) ∧
    (∀ (options : CompileOptions) (srcBuf : SourceText) (w : World) (out : EvalOutcome),
      CompileEvalScriptImpl env options srcBuf w = Except.ok out →
      (out.assertException = some true ∧ out.script = none) ∨
      (out.assertException = some false ∧
        ∃ stencil w1,
          (InstantiateStencils env { options := options, target := InputTarget.eval } stencil
            w1).1 = true ∧
          out.world = (InstantiateStencils env
            { options := options, target := InputTarget.eval } stencil w1).2.2 ∧
          out.script = (InstantiateStencils env
            { options := options, target := InputTarget.eval } stencil w1).2.1.bind
              (fun gcOutput => gcOutput.script))) ∧
    (∀ (maybeCx : Bool) (input : CompilationInput) (units : SourceText)
      (stencils : Option InitialStencilAndDelazifications) (borrowOut : Bool) (w : World)
      (out : LazyOutcome),
      CompileLazyFunctionToStencilMaybeInstantiate env maybeCx input units stencils
        borrowOut w = Except.ok out →
      out.assertException = some (!out.ok)) ∧
    (∀ (options : CompileOptions) (srcBuf : SourceText) (parameterListEnd : Option Nat)
      (syntaxKind : FunctionSyntaxKind) (generatorKind : GeneratorKind)
      (asyncKind : FunctionAsyncKind) (enclosingScope : Option Scope) (fuel : Nat)
      (w : World) (out : StandaloneOutcome),
      CompileStandaloneFunction env options srcBuf parameterListEnd syntaxKind generatorKind
        asyncKind enclosingScope fuel w = Except.ok (some out) →
      out.assertException = some (!out.result.isSome)) ∧
    (∀ (maybeCx hasInitializedSelfHosting : Bool) (w : World),
      AutoAssertReportedException.onExit false maybeCx hasInitializedSelfHosting w =
        Except.ok () ∧
      (AutoAssertReportedException.onExit true maybeCx true w = Except.ok () ↔
        ((maybeCx = true ∧ w.exceptionPending = true) ∨ w.fc.hadErrors = true)) ∧
      (AutoAssertReportedException.onExit true maybeCx true w = Except.ok () ∨
        AutoAssertReportedException.onExit true maybeCx true w =
          Except.error Abort.mozAssert) ∧
      AutoAssertReportedException.onExit true true false w = Except.ok ()) := by
  refine ⟨?_, ?_, ?_, ?_, ?_, ?_⟩
  · intro hasCx input srcBuf scopeKind maybeExtraBindings slots w r h
    unfold CompileGlobalScriptToStencilAndMaybeInstantiate at h
    split at h
    · rename_i hinit
      cases h
      exact Or.inl ⟨rfl, rfl, by simpa using hinit⟩
    · exact Or.inr (compileGlobalGuarded_guard env _ _ _ _ _ _ _ r h)
  · intro hasCx input srcBuf output w out h
    unfold ParseModuleToStencilAndMaybeInstantiate at h
    split at h
    · cases h
    · split at h
      · rename_i hinit
        cases h
        exact Or.inl ⟨rfl, rfl, by simpa using hinit⟩
      · right
        unfold parseModuleGuarded at h
        simp only at h
        split at h
        · cases h
          rfl
        · split at h
          · cases h
          · split at h
            · cases h
              rfl
            · exact outputModule_guard env _ _ _ _ _ out h
  · intro options srcBuf w out h
    unfold CompileEvalScriptImpl at h
    simp only at h
    split at h
    · cases h
      exact Or.inl ⟨rfl, rfl⟩
    · split at h
      · cases h
        exact Or.inl ⟨rfl, rfl⟩
      · split at h
        · cases h
        · split at h
          · cases h
            exact Or.inl ⟨rfl, rfl⟩
          · split at h
            · cases h
              exact Or.inl ⟨rfl, rfl⟩
            · rename_i compiler1 w1 _ _ hinst
              cases h
              exact Or.inr ⟨rfl, compiler1.compilationState_, w1, by simpa using hinst, rfl,
                rfl⟩
  · intro maybeCx input units stencils borrowOut w out h
    unfold CompileLazyFunctionToStencilMaybeInstantiate at h
    split at h
    · cases h
    · split at h
      · cases h
      · cases h
        rfl
      · split at h
        · cases h
        · exact outputLazyFunction_guard env _ _ _ _ _ _ out h
  · intro options srcBuf parameterListEnd syntaxKind generatorKind asyncKind enclosingScope
      fuel w out h
    unfold CompileStandaloneFunction at h
    simp only at h
    split at h
    · cases h
      rfl
    · split at h
      · cases h
        rfl
      · split at h
        · cases h
        · cases h
        · cases h
          rfl
        · split at h
          · cases h
          · rename_i o hinst
            cases h
            exact instantiateStandaloneFunction_guard env _ _ _ _ _ out hinst
  · intro maybeCx hasInitializedSelfHosting w
    refine ⟨rfl, ?_, ?_, rfl⟩
    · unfold AutoAssertReportedException.onExit
      cases maybeCx <;> cases hp : w.exceptionPending <;> cases he : w.fc.hadErrors <;>
        simp
    · unfold AutoAssertReportedException.onExit
      cases maybeCx <;> cases hp : w.exceptionPending <;> cases he : w.fc.hadErrors <;>
        simp

/-- A standalone function whose emit fails: null is returned and the guard is
still armed. -/
theorem guard_armed_on_failure_witness :
    ({ result := none, assertException := some true
       world := { trace := [Event.standaloneFunction 0, Event.emitterInit,
         Event.emitFunctionScript] } } : StandaloneOutcome).assertException =
      some (!(
        { result := none, assertException := some true
          world := { trace := [Event.standaloneFunction 0, Event.emitterInit,
            Event.emitFunctionScript] } } : StandaloneOutcome).result.isSome) :=
  (guard_armed_on_failure Env.failingEmit).2.2.2.2.1 {} [120] none
    FunctionSyntaxKind.Statement GeneratorKind.NotGenerator FunctionAsyncKind.SyncFunction
    none 1 {}
    { result := none, assertException := some true
      world := { trace := [Event.standaloneFunction 0, Event.emitterInit,
        Event.emitFunctionScript] } }
    rfl

end Frontend
